import Mathlib

/-!
# pr-reviews: reviewer assignment for pull requests

A shallow embedding of the pull-request lifecycle of `finstape/pr-reviews`
(`internal/entity`, `internal/repo`, `internal/repo/persistent`,
`internal/usecase/pullrequest`) together with the properties established
about it.

Conventions of the embedding:

* Go strings are `String`, Go slices are `List` (a nil slice and an empty
  slice are both `[]`), a nullable pointer is an `Option`.
* `time.Time` instants are natural numbers; `time.Now()` is an explicit
  argument `now` of the function that reads the clock.
* A Go `error` is a value of `Error`; a nil error is `none`.
* Repository methods are state transformers `σ → Except Error α × σ`; the use
  case is written against the repository interfaces exactly as in the source.
-/

namespace PrReviews

/-! ## Entities (`internal/entity`) -/

/-- Instants of `time.Time`, as an abstract totally ordered index. -/
abbrev Time := Nat

/-- Modelled from the spec: the declaration of `entity.User` is not among the
sources; the fields are the four the repositories scan into it (`user_id`,
`username`, `team_name`, `is_active`). -/
structure User where
  UserID : String
  Username : String
  TeamName : String
  IsActive : Bool
deriving DecidableEq, Repr

/-- The Go type `PullRequestStatus` is a string type. -/
abbrev PullRequestStatus := String

def PullRequestStatusOpen : PullRequestStatus := "OPEN"

def PullRequestStatusMerged : PullRequestStatus := "MERGED"

/-- The struct `entity.PullRequest`. -/
structure PullRequest where
  PullRequestID : String
  PullRequestName : String
  AuthorID : String
  Status : PullRequestStatus
  AssignedReviewers : List String
  CreatedAt : Option Time
  MergedAt : Option Time
deriving DecidableEq, Repr

/-- The zero value `entity.PullRequest{}`. -/
def PullRequest.zero : PullRequest :=
  { PullRequestID := "", PullRequestName := "", AuthorID := "", Status := "",
    AssignedReviewers := [], CreatedAt := none, MergedAt := none }

/-! ## Reviewer selection (`persistent.SelectRandomReviewers`) -/

/-- The body of the `for i := 0; i < count; i++` loop of
`SelectRandomReviewers`: `n` iterations remain, `i` is the loop index and
`reviewerIDs` the slice built so far.  The bound `h` shows that every index
`candidates[i]` the loop reads is in range. -/
def SelectRandomReviewers.loop (candidates : List User) :
    (n i : Nat) → i + n ≤ candidates.length → List String → List String
  | 0, _, _, reviewerIDs => reviewerIDs
  | n + 1, i, h, reviewerIDs =>
      SelectRandomReviewers.loop candidates n (i + 1) (by omega)
        (reviewerIDs ++ [(candidates.get ⟨i, by omega⟩).UserID])

/-- The value of `count` after `count := len(candidates); if count > maxCount
{ count = maxCount }`. -/
def SelectRandomReviewers.count (len : Nat) (maxCount : Int) : Int :=
  if (len : Int) > maxCount then maxCount else (len : Int)

/-- The function `SelectRandomReviewers(candidates, maxCount)`. -/
def SelectRandomReviewers (candidates : List User) (maxCount : Int) : List String :=
  if candidates.length = 0 then
    []
  else
    let maxCount := if maxCount ≤ 0 then 2 else maxCount
    SelectRandomReviewers.loop candidates
      (SelectRandomReviewers.count candidates.length maxCount).toNat 0
      (by unfold SelectRandomReviewers.count; split <;> omega) []

/-- The cap the specification calls `effectiveCap`. -/
def effectiveCap (maxCount : Int) : Int := if maxCount > 0 then maxCount else 2

/-- The struct `entity.PullRequestShort`. -/
structure PullRequestShort where
  PullRequestID : String
  PullRequestName : String
  AuthorID : String
  Status : PullRequestStatus
deriving DecidableEq, Repr

/-- The struct `entity.TeamMember`. -/
structure TeamMember where
  UserID : String
  Username : String
  IsActive : Bool
deriving DecidableEq, Repr

/-- The struct `entity.Team`. -/
structure Team where
  TeamName : String
  Members : List TeamMember
deriving DecidableEq, Repr

/-! ## Errors (`internal/entity/errors.go`)

Go error values: the six sentinels of the entity package, the sentinel
`pgx.ErrNoRows` of the driver, any other driver failure, and the wrapper that
`fmt.Errorf("<context>: %w", err)` builds. -/

inductive Error where
  | ErrTeamExists
  | ErrPRExists
  | ErrPRMerged
  | ErrNotAssigned
  | ErrNoCandidate
  | ErrNotFound
  | pgxErrNoRows
  | driver (msg : String)
  | wrap (context : String) (err : Error)
deriving DecidableEq, Repr

/-- The predicate `errors.Is(err, target)`: `target` occurs on the unwrap chain of `err`. -/
def Error.Is : Error → Error → Bool
  | .wrap context err, target =>
      if Error.wrap context err = target then true else Error.Is err target
  | err, target => decide (err = target)

/-! ## Repository contracts (`internal/repo/contracts.go`)

A method returning `(T, error)` yields `Except Error T`, a method returning
`error` yields `Option Error`; both also yield the state the call leaves. -/

structure TeamRepo (σ : Type) where
  CreateTeam : Team → σ → Option Error × σ
  GetTeam : String → σ → Except Error Team × σ
  TeamExists : String → σ → Except Error Bool × σ

structure UserRepo (σ : Type) where
  CreateOrUpdateUser : User → σ → Option Error × σ
  GetUser : String → σ → Except Error User × σ
  SetIsActive : String → Bool → σ → Option Error × σ
  GetActiveTeamMembers : String → String → σ → Except Error (List User) × σ
  GetUserReviews : String → σ → Except Error (List PullRequestShort) × σ

structure PullRequestRepo (σ : Type) where
  CreatePR : PullRequest → List String → σ → Option Error × σ
  GetPR : String → σ → Except Error PullRequest × σ
  PRExists : String → σ → Except Error Bool × σ
  UpdatePRStatus : String → PullRequestStatus → Option Time → σ → Option Error × σ
  GetPRReviewers : String → σ → Except Error (List String) × σ
  ReassignReviewer : String → String → String → σ → Option Error × σ
  GetPRsByReviewer : String → σ → Except Error (List PullRequestShort) × σ

/-! ### Recording repositories

A repository wrapped by `traced` behaves as the one it wraps and appends every
call it receives, with its arguments, to a log kept next to the state: the
recording mock of the use-case tests. -/

inductive Call where
  | CreateTeam (team : Team)
  | GetTeam (teamName : String)
  | TeamExists (teamName : String)
  | CreateOrUpdateUser (user : User)
  | GetUser (userID : String)
  | SetIsActive (userID : String) (isActive : Bool)
  | GetActiveTeamMembers (teamName excludeUserID : String)
  | GetUserReviews (userID : String)
  | CreatePR (pr : PullRequest) (reviewerIDs : List String)
  | GetPR (prID : String)
  | PRExists (prID : String)
  | UpdatePRStatus (prID : String) (status : PullRequestStatus) (mergedAt : Option Time)
  | GetPRReviewers (prID : String)
  | ReassignReviewer (prID oldReviewerID newReviewerID : String)
  | GetPRsByReviewer (reviewerID : String)
deriving DecidableEq, Repr

/-- The calls that write to the store. -/
def Call.isWrite : Call → Bool
  | .CreateTeam _ => true
  | .CreateOrUpdateUser _ => true
  | .SetIsActive _ _ => true
  | .CreatePR _ _ => true
  | .UpdatePRStatus _ _ _ => true
  | .ReassignReviewer _ _ _ => true
  | _ => false

/-- Run `f` on the state and append `c` to the log. -/
def record {σ α : Type} (c : Call) (f : σ → α × σ) (s : σ × List Call) : α × (σ × List Call) :=
  ((f s.1).1, ((f s.1).2, s.2 ++ [c]))

def TeamRepo.traced {σ : Type} (r : TeamRepo σ) : TeamRepo (σ × List Call) where
  CreateTeam team := record (.CreateTeam team) (r.CreateTeam team)
  GetTeam teamName := record (.GetTeam teamName) (r.GetTeam teamName)
  TeamExists teamName := record (.TeamExists teamName) (r.TeamExists teamName)

def UserRepo.traced {σ : Type} (r : UserRepo σ) : UserRepo (σ × List Call) where
  CreateOrUpdateUser user := record (.CreateOrUpdateUser user) (r.CreateOrUpdateUser user)
  GetUser userID := record (.GetUser userID) (r.GetUser userID)
  SetIsActive userID isActive := record (.SetIsActive userID isActive) (r.SetIsActive userID isActive)
  GetActiveTeamMembers teamName excludeUserID :=
    record (.GetActiveTeamMembers teamName excludeUserID)
      (r.GetActiveTeamMembers teamName excludeUserID)
  GetUserReviews userID := record (.GetUserReviews userID) (r.GetUserReviews userID)

def PullRequestRepo.traced {σ : Type} (r : PullRequestRepo σ) : PullRequestRepo (σ × List Call) where
  CreatePR pr reviewerIDs := record (.CreatePR pr reviewerIDs) (r.CreatePR pr reviewerIDs)
  GetPR prID := record (.GetPR prID) (r.GetPR prID)
  PRExists prID := record (.PRExists prID) (r.PRExists prID)
  UpdatePRStatus prID status mergedAt :=
    record (.UpdatePRStatus prID status mergedAt) (r.UpdatePRStatus prID status mergedAt)
  GetPRReviewers prID := record (.GetPRReviewers prID) (r.GetPRReviewers prID)
  ReassignReviewer prID oldReviewerID newReviewerID :=
    record (.ReassignReviewer prID oldReviewerID newReviewerID)
      (r.ReassignReviewer prID oldReviewerID newReviewerID)
  GetPRsByReviewer reviewerID := record (.GetPRsByReviewer reviewerID) (r.GetPRsByReviewer reviewerID)

/-! ## The pull-request use case (`internal/usecase/pullrequest`) -/

namespace pullrequest

/-- The struct `pullrequest.UseCase`: the three repositories it is built from. -/
structure UseCase (σ : Type) where
  prRepo : PullRequestRepo σ
  userRepo : UserRepo σ
  teamRepo : TeamRepo σ

/-- The use case over recording repositories. -/
def UseCase.traced {σ : Type} (uc : UseCase σ) : UseCase (σ × List Call) where
  prRepo := uc.prRepo.traced
  userRepo := uc.userRepo.traced
  teamRepo := uc.teamRepo.traced

/-- The method `UseCase.CreatePR`; it returns the Go pair `(entity.PullRequest, error)`
and the state of the store. -/
def UseCase.CreatePR {σ : Type} (uc : UseCase σ) (now : Time)
    (prID prName authorID : String) (s : σ) : (PullRequest × Option Error) × σ :=
  match uc.prRepo.PRExists prID s with
  | (.error err, s) =>
      ((PullRequest.zero, some (.wrap "PullRequestUseCase - CreatePR - PRExists" err)), s)
  | (.ok exists_, s) =>
    if exists_ then
      ((PullRequest.zero, some .ErrPRExists), s)
    else
      match uc.userRepo.GetUser authorID s with
      | (.error err, s) =>
          ((PullRequest.zero, some (.wrap "PullRequestUseCase - CreatePR - GetUser" err)), s)
      | (.ok author, s) =>
        match uc.userRepo.GetActiveTeamMembers author.TeamName authorID s with
        | (.error err, s) =>
            ((PullRequest.zero,
              some (.wrap "PullRequestUseCase - CreatePR - GetActiveTeamMembers" err)), s)
        | (.ok candidates, s) =>
          let reviewerIDs := SelectRandomReviewers candidates 2
          let pr : PullRequest :=
            { PullRequestID := prID
              PullRequestName := prName
              AuthorID := authorID
              Status := PullRequestStatusOpen
              AssignedReviewers := reviewerIDs
              CreatedAt := some now
              MergedAt := none }
          match uc.prRepo.CreatePR pr reviewerIDs s with
          | (some err, s) =>
              ((PullRequest.zero, some (.wrap "PullRequestUseCase - CreatePR - CreatePR" err)), s)
          | (none, s) => ((pr, none), s)

/-- The method `UseCase.MergePR`. -/
def UseCase.MergePR {σ : Type} (uc : UseCase σ) (now : Time) (prID : String) (s : σ) :
    (PullRequest × Option Error) × σ :=
  match uc.prRepo.GetPR prID s with
  | (.error err, s) =>
      ((PullRequest.zero, some (.wrap "PullRequestUseCase - MergePR - GetPR" err)), s)
  | (.ok pr, s) =>
    if pr.Status = PullRequestStatusMerged then
      ((pr, none), s)
    else
      match uc.prRepo.UpdatePRStatus prID PullRequestStatusMerged (some now) s with
      | (some err, s) =>
          ((PullRequest.zero, some (.wrap "PullRequestUseCase - MergePR - UpdatePRStatus" err)), s)
      | (none, s) =>
        match uc.prRepo.GetPR prID s with
        | (.error err, s) =>
            ((PullRequest.zero,
              some (.wrap "PullRequestUseCase - MergePR - GetPR after update" err)), s)
        | (.ok pr, s) => ((pr, none), s)

/-- The two membership loops of `ReassignReviewer` (`found`, `isAssigned`):
scan `reviewers` and stop at the first id equal to `id`. -/
def containsID : List String → String → Bool
  | [], _ => false
  | reviewerID :: reviewers, id => if reviewerID = id then true else containsID reviewers id

/-- The filter loop of `ReassignReviewer`: append to `availableCandidates` every
candidate whose id is not among `reviewers`. -/
def filterAssigned (reviewers : List String) : List User → List User → List User
  | [], availableCandidates => availableCandidates
  | candidate :: candidates, availableCandidates =>
      if containsID reviewers candidate.UserID then
        filterAssigned reviewers candidates availableCandidates
      else
        filterAssigned reviewers candidates (availableCandidates ++ [candidate])

/-- The method `UseCase.ReassignReviewer`; it returns the Go triple
`(entity.PullRequest, string, error)` and the state of the store. -/
def UseCase.ReassignReviewer {σ : Type} (uc : UseCase σ) (prID oldReviewerID : String) (s : σ) :
    (PullRequest × String × Option Error) × σ :=
  match uc.prRepo.GetPR prID s with
  | (.error err, s) =>
      ((PullRequest.zero, "",
        some (.wrap "PullRequestUseCase - ReassignReviewer - GetPR" err)), s)
  | (.ok pr, s) =>
    if pr.Status = PullRequestStatusMerged then
      ((PullRequest.zero, "", some .ErrPRMerged), s)
    else
      let reviewers := pr.AssignedReviewers
      let found := containsID reviewers oldReviewerID
      if !found then
        ((PullRequest.zero, "", some .ErrNotAssigned), s)
      else
        match uc.userRepo.GetUser oldReviewerID s with
        | (.error err, s) =>
            ((PullRequest.zero, "",
              some (.wrap "PullRequestUseCase - ReassignReviewer - GetUser old" err)), s)
        | (.ok oldReviewer, s) =>
          match uc.userRepo.GetActiveTeamMembers oldReviewer.TeamName oldReviewerID s with
          | (.error err, s) =>
              ((PullRequest.zero, "",
                some (.wrap "PullRequestUseCase - ReassignReviewer - GetActiveTeamMembers" err)), s)
          | (.ok candidates, s) =>
            let availableCandidates := filterAssigned reviewers candidates []
            if availableCandidates.length = 0 then
              ((PullRequest.zero, "", some .ErrNoCandidate), s)
            else
              match SelectRandomReviewers availableCandidates 1 with
              | [] => ((PullRequest.zero, "", some .ErrNoCandidate), s)
              | newReviewerID :: _ =>
                match uc.prRepo.ReassignReviewer prID oldReviewerID newReviewerID s with
                | (some err, s) =>
                    ((PullRequest.zero, "",
                      some (.wrap "PullRequestUseCase - ReassignReviewer - ReassignReviewer" err)),
                      s)
                | (none, s) =>
                  match uc.prRepo.GetPR prID s with
                  | (.error err, s) =>
                      ((PullRequest.zero, "",
                        some (.wrap
                          "PullRequestUseCase - ReassignReviewer - GetPR after reassign" err)), s)
                  | (.ok pr, s) => ((pr, newReviewerID, none), s)

end pullrequest

/-! ## The PostgreSQL repositories (`internal/repo/persistent`)

The database is explicit state: the committed rows of the four tables the
queries touch, and a schedule of driver failures.  Every statement sent to the
driver (`Begin`, `Exec`, `Query`, `QueryRow`, `Commit`) consumes one entry of
the schedule and fails with a driver error when the entry says so; an empty
schedule means no further failure.  A transaction works on a copy of the
tables that replaces the committed rows at `Commit`; the deferred `Rollback`
of every other exit leaves the committed rows as they were.  The statements
are fixed strings, so the failure exits of the query builder are not modelled,
and a failure while scanning the rows of a multi-row query is represented by
the failure of the query itself.  The column `updated_at` of `users` is
written but never read and is left out. -/

namespace persistent

/-- A row of `pull_requests`. -/
structure PullRequestRow where
  pull_request_id : String
  pull_request_name : String
  author_id : String
  status : PullRequestStatus
  created_at : Option Time
  merged_at : Option Time
deriving DecidableEq, Repr

/-- A row of `pr_reviewers`. -/
structure ReviewerRow where
  pull_request_id : String
  reviewer_id : String
deriving DecidableEq, Repr

/-- Modelled from the spec: the schema is not among the sources.  The tables
and columns are the ones the statements name; `team_name` of `teams` and
`pull_request_id` of `pull_requests` are unique keys as the data model says,
and `user_id` of `users` is the conflict target of the upserts.  Any other
constraint of the schema can only make a statement fail, which the failure
schedule covers. -/
structure Tables where
  teams : List String
  users : List User
  pull_requests : List PullRequestRow
  pr_reviewers : List ReviewerRow
deriving DecidableEq, Repr

/-- The database: committed rows and the schedule of driver failures. -/
structure DB where
  tables : Tables
  faults : List (Option String)
deriving DecidableEq, Repr

/-- Send one statement to the driver: consume the next entry of the schedule. -/
def DB.step (db : DB) : Option Error × DB :=
  match db.faults with
  | [] => (none, db)
  | fault :: faults => (fault.map Error.driver, { db with faults := faults })

/-- The error of an insert that violates a unique key. -/
def uniqueViolation : Error := .driver "duplicate key value violates unique constraint"

/-- The rows `ON CONFLICT (user_id) DO UPDATE` leaves: the row with the id of
`user` is replaced in place, or `user` is added. -/
def upsertUser (user : User) : List User → List User
  | [] => [user]
  | row :: rows =>
      if row.UserID = user.UserID then user :: rows else row :: upsertUser user rows

/-- The lexicographic order of two character sequences by code point. -/
def charsLE : List Char → List Char → Bool
  | [], _ => true
  | _ :: _, [] => false
  | a :: as, b :: bs =>
      if a.toNat < b.toNat then true
      else if b.toNat < a.toNat then false
      else charsLE as bs

/-- The order of `ORDER BY` on a text column: the strings compared character
by character. -/
def textLE (a b : String) : Bool := charsLE a.data b.data

/-- The order of `ORDER BY pr.created_at DESC`. -/
def createdAtDesc (a b : PullRequestRow) : Bool :=
  match a.created_at, b.created_at with
  | none, _ => true
  | some _, none => false
  | some x, some y => decide (y ≤ x)

/-- The rows of the join of `pull_requests` and `pr_reviewers` for one reviewer,
newest first: the query of `GetPRsByReviewer` and of `GetUserReviews`. -/
def reviewsOf (tables : Tables) (reviewerID : String) : List PullRequestShort :=
  let joined := tables.pull_requests.flatMap fun pr =>
    (tables.pr_reviewers.filter fun prr =>
      decide (pr.pull_request_id = prr.pull_request_id ∧ prr.reviewer_id = reviewerID)).map
        fun _ => pr
  (joined.insertionSort fun a b => createdAtDesc a b = true).map fun pr =>
    { PullRequestID := pr.pull_request_id
      PullRequestName := pr.pull_request_name
      AuthorID := pr.author_id
      Status := pr.status }

/-! ### `UserRepo` -/

/-- The method `UserRepo.CreateOrUpdateUser`. -/
def UserRepo.CreateOrUpdateUser (user : User) (db : DB) : Option Error × DB :=
  match db.step with
  | (some err, db) => (some (.wrap "UserRepo - CreateOrUpdateUser - Exec" err), db)
  | (none, db) =>
      (none, { db with tables := { db.tables with users := upsertUser user db.tables.users } })

/-- The method `UserRepo.GetUser`. -/
def UserRepo.GetUser (userID : String) (db : DB) : Except Error User × DB :=
  match db.step with
  | (some err, db) => (.error (.wrap "UserRepo - GetUser - Scan" err), db)
  | (none, db) =>
    match db.tables.users.find? fun user => decide (user.UserID = userID) with
    | none => (.error (.wrap "UserRepo - GetUser - Scan" .pgxErrNoRows), db)
    | some user => (.ok user, db)

/-- The method `UserRepo.SetIsActive`. -/
def UserRepo.SetIsActive (userID : String) (isActive : Bool) (db : DB) : Option Error × DB :=
  match db.step with
  | (some err, db) => (some (.wrap "UserRepo - SetIsActive - Exec" err), db)
  | (none, db) =>
    let rowsAffected := (db.tables.users.filter fun user => decide (user.UserID = userID)).length
    let users := db.tables.users.map fun user =>
      if user.UserID = userID then { user with IsActive := isActive } else user
    let db := { db with tables := { db.tables with users := users } }
    if rowsAffected = 0 then (some .ErrNotFound, db) else (none, db)

/-- The rows the query of `GetActiveTeamMembers` selects, in table order. -/
def activeTeamMembers (users : List User) (teamName excludeUserID : String) : List User :=
  users.filter fun user =>
    decide (user.TeamName = teamName) && decide (user.IsActive = true)
      && (if excludeUserID ≠ "" then decide (user.UserID ≠ excludeUserID) else true)

/-- The method `UserRepo.GetActiveTeamMembers`. -/
def UserRepo.GetActiveTeamMembers (teamName excludeUserID : String) (db : DB) :
    Except Error (List User) × DB :=
  match db.step with
  | (some err, db) => (.error (.wrap "UserRepo - GetActiveTeamMembers - Query" err), db)
  | (none, db) => (.ok (activeTeamMembers db.tables.users teamName excludeUserID), db)

/-- The method `UserRepo.GetUserReviews`. -/
def UserRepo.GetUserReviews (userID : String) (db : DB) :
    Except Error (List PullRequestShort) × DB :=
  match db.step with
  | (some err, db) => (.error (.wrap "UserRepo - GetUserReviews - Query" err), db)
  | (none, db) => (.ok (reviewsOf db.tables userID), db)

/-! ### `PullRequestRepo` -/

/-- The reviewer loop of `PullRequestRepo.CreatePR`, inside the transaction `tx`. -/
def PullRequestRepo.CreatePR.insertReviewers (prID : String) :
    List String → Tables → DB → Option Error × Tables × DB
  | [], tx, db => (none, tx, db)
  | reviewerID :: reviewerIDs, tx, db =>
    match db.step with
    | (some err, db) => (some (.wrap "PullRequestRepo - CreatePR - Exec reviewer" err), tx, db)
    | (none, db) =>
        PullRequestRepo.CreatePR.insertReviewers prID reviewerIDs
          { tx with pr_reviewers := tx.pr_reviewers ++ [⟨prID, reviewerID⟩] } db

/-- The method `PullRequestRepo.CreatePR`; `now` is the clock it reads when
the pull request carries no creation time. -/
def PullRequestRepo.CreatePR (now : Time) (pr : PullRequest) (reviewerIDs : List String)
    (db : DB) : Option Error × DB :=
  match db.step with
  | (some err, db) => (some (.wrap "PullRequestRepo - CreatePR - Begin" err), db)
  | (none, db) =>
    let createdAt : Option Time :=
      match pr.CreatedAt with
      | some t => some t
      | none => some now
    match db.step with
    | (some err, db) => (some (.wrap "PullRequestRepo - CreatePR - Exec PR" err), db)
    | (none, db) =>
      if db.tables.pull_requests.any fun row => decide (row.pull_request_id = pr.PullRequestID)
      then
        (some (.wrap "PullRequestRepo - CreatePR - Exec PR" uniqueViolation), db)
      else
        let tx : Tables :=
          { db.tables with
            pull_requests := db.tables.pull_requests ++
              [{ pull_request_id := pr.PullRequestID
                 pull_request_name := pr.PullRequestName
                 author_id := pr.AuthorID
                 status := pr.Status
                 created_at := createdAt
                 merged_at := none }] }
        match PullRequestRepo.CreatePR.insertReviewers pr.PullRequestID reviewerIDs tx db with
        | (some err, _, db) => (some err, db)
        | (none, tx, db) =>
          match db.step with
          | (some err, db) => (some (.wrap "PullRequestRepo - CreatePR - Commit" err), db)
          | (none, db) => (none, { db with tables := tx })

/-- The rows the query of `GetPRReviewers` selects: the reviewer ids of one
pull request, in the order of `ORDER BY reviewer_id`. -/
def reviewerIDsOf (tables : Tables) (prID : String) : List String :=
  ((tables.pr_reviewers.filter fun row => decide (row.pull_request_id = prID)).map
    fun row => row.reviewer_id).insertionSort fun a b => textLE a b = true

/-- The method `PullRequestRepo.GetPRReviewers`. -/
def PullRequestRepo.GetPRReviewers (prID : String) (db : DB) : Except Error (List String) × DB :=
  match db.step with
  | (some err, db) => (.error (.wrap "PullRequestRepo - GetPRReviewers - Query" err), db)
  | (none, db) => (.ok (reviewerIDsOf db.tables prID), db)

/-- The pull request `GetPR` builds from the scanned row and the reviewer ids. -/
def PullRequestRow.toPullRequest (row : PullRequestRow) (reviewers : List String) : PullRequest :=
  { PullRequestID := row.pull_request_id
    PullRequestName := row.pull_request_name
    AuthorID := row.author_id
    Status := row.status
    AssignedReviewers := reviewers
    CreatedAt := row.created_at
    MergedAt := row.merged_at }

/-- The method `PullRequestRepo.GetPR`. -/
def PullRequestRepo.GetPR (prID : String) (db : DB) : Except Error PullRequest × DB :=
  match db.step with
  | (some err, db) => (.error (.wrap "PullRequestRepo - GetPR - Scan" err), db)
  | (none, db) =>
    match db.tables.pull_requests.find? fun row => decide (row.pull_request_id = prID) with
    | none => (.error (.wrap "PullRequestRepo - GetPR - Scan" .pgxErrNoRows), db)
    | some row =>
      match PullRequestRepo.GetPRReviewers prID db with
      | (.error err, db) => (.error (.wrap "PullRequestRepo - GetPR - GetPRReviewers" err), db)
      | (.ok reviewers, db) =>
          (.ok (row.toPullRequest reviewers), db)

/-- The method `PullRequestRepo.PRExists`: every failure of the scan, a missing
row or a driver failure alike, is answered `false, nil`. -/
def PullRequestRepo.PRExists (prID : String) (db : DB) : Except Error Bool × DB :=
  match db.step with
  | (some _, db) => (.ok false, db)
  | (none, db) =>
    match db.tables.pull_requests.find? fun row => decide (row.pull_request_id = prID) with
    | none => (.ok false, db)
    | some _ => (.ok true, db)

/-- The effect of the `UPDATE` of `UpdatePRStatus` on one row: a row with the
given id gets the status, and the merge time when one is passed. -/
def setStatus (prID : String) (status : PullRequestStatus) (mergedAt : Option Time)
    (row : PullRequestRow) : PullRequestRow :=
  if row.pull_request_id = prID then
    match mergedAt with
    | some t => { row with status := status, merged_at := some t }
    | none => { row with status := status }
  else row

/-- The method `PullRequestRepo.UpdatePRStatus`. -/
def PullRequestRepo.UpdatePRStatus (prID : String) (status : PullRequestStatus)
    (mergedAt : Option Time) (db : DB) : Option Error × DB :=
  match db.step with
  | (some err, db) => (some (.wrap "PullRequestRepo - UpdatePRStatus - Exec" err), db)
  | (none, db) =>
    let rowsAffected :=
      (db.tables.pull_requests.filter fun row => decide (row.pull_request_id = prID)).length
    let pull_requests := db.tables.pull_requests.map (setStatus prID status mergedAt)
    let db := { db with tables := { db.tables with pull_requests := pull_requests } }
    if rowsAffected = 0 then (some .ErrNotFound, db) else (none, db)

/-- The method `PullRequestRepo.ReassignReviewer`. -/
def PullRequestRepo.ReassignReviewer (prID oldReviewerID newReviewerID : String) (db : DB) :
    Option Error × DB :=
  match db.step with
  | (some err, db) => (some (.wrap "PullRequestRepo - ReassignReviewer - Begin" err), db)
  | (none, db) =>
    match db.step with
    | (some err, db) => (some (.wrap "PullRequestRepo - ReassignReviewer - Exec delete" err), db)
    | (none, db) =>
      let isOld : ReviewerRow → Bool := fun row =>
        decide (row.pull_request_id = prID) && decide (row.reviewer_id = oldReviewerID)
      let rowsAffected := (db.tables.pr_reviewers.filter isOld).length
      let tx : Tables :=
        { db.tables with pr_reviewers := db.tables.pr_reviewers.filter fun row => !isOld row }
      if rowsAffected = 0 then
        (some .ErrNotAssigned, db)
      else
        match db.step with
        | (some err, db) =>
            (some (.wrap "PullRequestRepo - ReassignReviewer - Exec insert" err), db)
        | (none, db) =>
          let tx : Tables := { tx with pr_reviewers := tx.pr_reviewers ++ [⟨prID, newReviewerID⟩] }
          match db.step with
          | (some err, db) => (some (.wrap "PullRequestRepo - ReassignReviewer - Commit" err), db)
          | (none, db) => (none, { db with tables := tx })

/-- The method `PullRequestRepo.GetPRsByReviewer`. -/
def PullRequestRepo.GetPRsByReviewer (reviewerID : String) (db : DB) :
    Except Error (List PullRequestShort) × DB :=
  match db.step with
  | (some err, db) => (.error (.wrap "PullRequestRepo - GetPRsByReviewer - Query" err), db)
  | (none, db) => (.ok (reviewsOf db.tables reviewerID), db)

/-! ### `TeamRepo` -/

/-- The member loop of `TeamRepo.CreateTeam`, inside the transaction `tx`. -/
def TeamRepo.CreateTeam.insertMembers (teamName : String) :
    List TeamMember → Tables → DB → Option Error × Tables × DB
  | [], tx, db => (none, tx, db)
  | member :: members, tx, db =>
    match db.step with
    | (some err, db) => (some (.wrap "TeamRepo - CreateTeam - Exec user" err), tx, db)
    | (none, db) =>
        TeamRepo.CreateTeam.insertMembers teamName members
          { tx with users := upsertUser (User.mk member.UserID member.Username teamName
              member.IsActive) tx.users } db

/-- The method `TeamRepo.CreateTeam`. -/
def TeamRepo.CreateTeam (team : Team) (db : DB) : Option Error × DB :=
  match db.step with
  | (some err, db) => (some (.wrap "TeamRepo - CreateTeam - Begin" err), db)
  | (none, db) =>
    match db.step with
    | (some err, db) => (some (.wrap "TeamRepo - CreateTeam - Exec team" err), db)
    | (none, db) =>
      if db.tables.teams.contains team.TeamName then
        (some (.wrap "TeamRepo - CreateTeam - Exec team" uniqueViolation), db)
      else
        let tx : Tables := { db.tables with teams := db.tables.teams ++ [team.TeamName] }
        match TeamRepo.CreateTeam.insertMembers team.TeamName team.Members tx db with
        | (some err, _, db) => (some err, db)
        | (none, tx, db) =>
          match db.step with
          | (some err, db) => (some (.wrap "TeamRepo - CreateTeam - Commit" err), db)
          | (none, db) => (none, { db with tables := tx })

/-- The method `TeamRepo.GetTeam`. -/
def TeamRepo.GetTeam (teamName : String) (db : DB) : Except Error Team × DB :=
  match db.step with
  | (some err, db) => (.error (.wrap "TeamRepo - GetTeam - Query" err), db)
  | (none, db) =>
    let rows := (db.tables.users.filter fun user => decide (user.TeamName = teamName)).insertionSort
      fun a b => textLE a.UserID b.UserID = true
    let members : List TeamMember := rows.map fun user =>
      { UserID := user.UserID, Username := user.Username, IsActive := user.IsActive }
    (.ok { TeamName := teamName, Members := members }, db)

/-- The method `TeamRepo.TeamExists`: every failure of the scan is answered `false, nil`. -/
def TeamRepo.TeamExists (teamName : String) (db : DB) : Except Error Bool × DB :=
  match db.step with
  | (some _, db) => (.ok false, db)
  | (none, db) => if db.tables.teams.contains teamName then (.ok true, db) else (.ok false, db)

end persistent

/-- The constructor `NewTeamRepo`: the PostgreSQL team repository as a `TeamRepo`. -/
def persistent.NewTeamRepo : TeamRepo persistent.DB where
  CreateTeam := persistent.TeamRepo.CreateTeam
  GetTeam := persistent.TeamRepo.GetTeam
  TeamExists := persistent.TeamRepo.TeamExists

/-- The constructor `NewUserRepo`. -/
def persistent.NewUserRepo : UserRepo persistent.DB where
  CreateOrUpdateUser := persistent.UserRepo.CreateOrUpdateUser
  GetUser := persistent.UserRepo.GetUser
  SetIsActive := persistent.UserRepo.SetIsActive
  GetActiveTeamMembers := persistent.UserRepo.GetActiveTeamMembers
  GetUserReviews := persistent.UserRepo.GetUserReviews

/-- The constructor `NewPullRequestRepo`; `now` is the clock of the repository. -/
def persistent.NewPullRequestRepo (now : Time) : PullRequestRepo persistent.DB where
  CreatePR := persistent.PullRequestRepo.CreatePR now
  GetPR := persistent.PullRequestRepo.GetPR
  PRExists := persistent.PullRequestRepo.PRExists
  UpdatePRStatus := persistent.PullRequestRepo.UpdatePRStatus
  GetPRReviewers := persistent.PullRequestRepo.GetPRReviewers
  ReassignReviewer := persistent.PullRequestRepo.ReassignReviewer
  GetPRsByReviewer := persistent.PullRequestRepo.GetPRsByReviewer

/-- The pull-request use case wired to the PostgreSQL repositories, as `app.Run` builds it. -/
def pullrequest.New (now : Time) : pullrequest.UseCase persistent.DB where
  prRepo := persistent.NewPullRequestRepo now
  userRepo := persistent.NewUserRepo
  teamRepo := persistent.NewTeamRepo

/-! ## Error codes and the error response of the boundary
(`internal/entity/errors.go`, `internal/controller/http/v1`) -/

/-- The text `err.Error()` of an error: the message of a sentinel, the message
of the driver, and `"<context>: <text of the wrapped error>"` for the wrapper
of `fmt.Errorf("<context>: %w", err)`. -/
def Error.message : Error → String
  | .ErrTeamExists => "team_name already exists"
  | .ErrPRExists => "PR id already exists"
  | .ErrPRMerged => "cannot reassign on merged PR"
  | .ErrNotAssigned => "reviewer is not assigned to this PR"
  | .ErrNoCandidate => "no active replacement candidate in team"
  | .ErrNotFound => "resource not found"
  | .pgxErrNoRows => "no rows in result set"
  | .driver msg => msg
  | .wrap context err => context ++ ": " ++ err.message

/-- The Go type `ErrorCode` is a string type. -/
abbrev ErrorCode := String

def ErrorCodeTeamExists : ErrorCode := "TEAM_EXISTS"

def ErrorCodePRExists : ErrorCode := "PR_EXISTS"

def ErrorCodePRMerged : ErrorCode := "PR_MERGED"

def ErrorCodeNotAssigned : ErrorCode := "NOT_ASSIGNED"

def ErrorCodeNoCandidate : ErrorCode := "NO_CANDIDATE"

def ErrorCodeNotFound : ErrorCode := "NOT_FOUND"

/-- The function `entity.GetErrorCode`: a `switch err` over the six sentinels,
which compares the error value itself, with `ErrorCodeNotFound` as default. -/
def GetErrorCode : Error → ErrorCode
  | .ErrTeamExists => ErrorCodeTeamExists
  | .ErrPRExists => ErrorCodePRExists
  | .ErrPRMerged => ErrorCodePRMerged
  | .ErrNotAssigned => ErrorCodeNotAssigned
  | .ErrNoCandidate => ErrorCodeNoCandidate
  | .ErrNotFound => ErrorCodeNotFound
  | _ => ErrorCodeNotFound

/-- The six domain kinds of the error taxonomy. -/
def domainKinds : List Error :=
  [.ErrTeamExists, .ErrPRExists, .ErrPRMerged, .ErrNotAssigned, .ErrNoCandidate, .ErrNotFound]

namespace v1

/-- The struct `response.ErrorDetail`. -/
structure ErrorDetail where
  Code : ErrorCode
  Message : String
deriving DecidableEq, Repr

/-- The struct `response.ErrorResponse`. -/
structure ErrorResponse where
  Error : ErrorDetail
deriving DecidableEq, Repr

/-- The function `response.NewErrorResponse`. -/
def NewErrorResponse (code : ErrorCode) (message : String) : ErrorResponse :=
  { Error := { Code := code, Message := message } }

/-- What a handler answers: the HTTP status and the JSON body. -/
structure Response where
  Status : Nat
  Body : ErrorResponse
deriving DecidableEq, Repr

def StatusConflict : Nat := 409

def StatusNotFound : Nat := 404

def StatusInternalServerError : Nat := 500

/-- The method `V1.handleError`, without its log line: the status and body it
answers with for `err`. -/
def handleError (err : Error) : Response :=
  let code := GetErrorCode err
  let message := err.message
  if code = ErrorCodeTeamExists ∨ code = ErrorCodePRExists then
    { Status := StatusConflict, Body := NewErrorResponse code message }
  else if code = ErrorCodePRMerged ∨ code = ErrorCodeNotAssigned ∨ code = ErrorCodeNoCandidate then
    { Status := StatusConflict, Body := NewErrorResponse code message }
  else if code = ErrorCodeNotFound then
    { Status := StatusNotFound, Body := NewErrorResponse code message }
  else
    { Status := StatusInternalServerError,
      Body := NewErrorResponse code "internal server error" }

end v1

/-! ## The team and user use cases (`internal/usecase/team`, `internal/usecase/user`) -/

/-- The zero value `entity.User{}`. -/
def User.zero : User := { UserID := "", Username := "", TeamName := "", IsActive := false }

namespace team

/-- The struct `team.UseCase`. -/
structure UseCase (σ : Type) where
  teamRepo : TeamRepo σ

/-- The team use case over a recording repository. -/
def UseCase.traced {σ : Type} (uc : UseCase σ) : UseCase (σ × List Call) where
  teamRepo := uc.teamRepo.traced

/-- The method `UseCase.CreateTeam` of the team use case. -/
def UseCase.CreateTeam {σ : Type} (uc : UseCase σ) (team : Team) (s : σ) : Option Error × σ :=
  match uc.teamRepo.TeamExists team.TeamName s with
  | (.error err, s) => (some (.wrap "TeamUseCase - CreateTeam - TeamExists" err), s)
  | (.ok exists_, s) =>
    if exists_ then
      (some .ErrTeamExists, s)
    else
      match uc.teamRepo.CreateTeam team s with
      | (some err, s) => (some (.wrap "TeamUseCase - CreateTeam - CreateTeam" err), s)
      | (none, s) => (none, s)

/-- The method `UseCase.GetTeam` of the team use case. -/
def UseCase.GetTeam {σ : Type} (uc : UseCase σ) (teamName : String) (s : σ) :
    (Team × Option Error) × σ :=
  match uc.teamRepo.GetTeam teamName s with
  | (.error err, s) =>
      (({ TeamName := "", Members := [] }, some (.wrap "TeamUseCase - GetTeam - GetTeam" err)), s)
  | (.ok team, s) => ((team, none), s)

/-- The team use case wired to the PostgreSQL repository. -/
def New : UseCase persistent.DB where
  teamRepo := persistent.NewTeamRepo

end team

namespace user

/-- The struct `user.UseCase`. -/
structure UseCase (σ : Type) where
  userRepo : UserRepo σ

/-- The user use case over a recording repository. -/
def UseCase.traced {σ : Type} (uc : UseCase σ) : UseCase (σ × List Call) where
  userRepo := uc.userRepo.traced

/-- The method `UseCase.SetIsActive` of the user use case. -/
def UseCase.SetIsActive {σ : Type} (uc : UseCase σ) (userID : String) (isActive : Bool) (s : σ) :
    (User × Option Error) × σ :=
  match uc.userRepo.GetUser userID s with
  | (.error err, s) => ((User.zero, some (.wrap "UserUseCase - SetIsActive - GetUser" err)), s)
  | (.ok user, s) =>
    match uc.userRepo.SetIsActive userID isActive s with
    | (some err, s) =>
        ((User.zero, some (.wrap "UserUseCase - SetIsActive - SetIsActive" err)), s)
    | (none, s) => (({ user with IsActive := isActive }, none), s)

/-- The method `UseCase.GetUserReviews` of the user use case. -/
def UseCase.GetUserReviews {σ : Type} (uc : UseCase σ) (userID : String) (s : σ) :
    (List PullRequestShort × Option Error) × σ :=
  match uc.userRepo.GetUser userID s with
  | (.error err, s) => (([], some (.wrap "UserUseCase - GetUserReviews - GetUser" err)), s)
  | (.ok _, s) =>
    match uc.userRepo.GetUserReviews userID s with
    | (.error err, s) =>
        (([], some (.wrap "UserUseCase - GetUserReviews - GetUserReviews" err)), s)
    | (.ok prs, s) => ((prs, none), s)

/-- The user use case wired to the PostgreSQL repository. -/
def New : UseCase persistent.DB where
  userRepo := persistent.NewUserRepo

end user

/-! ## Requests and reachable states

A request is one call of a use-case operation, with the reading of the clock
and the driver failures that happen while it runs.  Requests run one after the
other on the committed rows. -/

/-- The five operations that change the store. -/
inductive Op where
  | CreateTeam (team : Team)
  | SetIsActive (userID : String) (isActive : Bool)
  | CreatePR (prID prName authorID : String)
  | MergePR (prID : String)
  | ReassignReviewer (prID oldReviewerID : String)
deriving DecidableEq, Repr

/-- One call of an operation, with its clock reading and driver failures. -/
structure Request where
  op : Op
  now : Time
  faults : List (Option String)
deriving DecidableEq, Repr

/-- The committed rows after a request. -/
def Request.run (r : Request) (tables : persistent.Tables) : persistent.Tables :=
  match r.op with
  | .CreateTeam newTeam => (team.New.CreateTeam newTeam ⟨tables, r.faults⟩).2.tables
  | .SetIsActive userID isActive =>
      (user.New.SetIsActive userID isActive ⟨tables, r.faults⟩).2.tables
  | .CreatePR prID prName authorID =>
      ((pullrequest.New r.now).CreatePR r.now prID prName authorID ⟨tables, r.faults⟩).2.tables
  | .MergePR prID => ((pullrequest.New r.now).MergePR r.now prID ⟨tables, r.faults⟩).2.tables
  | .ReassignReviewer prID oldReviewerID =>
      ((pullrequest.New r.now).ReassignReviewer prID oldReviewerID ⟨tables, r.faults⟩).2.tables

/-- The committed rows after a sequence of requests. -/
def runAll : List Request → persistent.Tables → persistent.Tables
  | [], tables => tables
  | r :: rs, tables => runAll rs (r.run tables)

/-- The empty store. -/
def persistent.Tables.empty : persistent.Tables :=
  { teams := [], users := [], pull_requests := [], pr_reviewers := [] }

/-- How an id enters the reviewers of pull request `prID` by request `r` on the
rows `tables`: by the creation of the pull request, as the id of an active
member of the author's team, different from the author's id if that id is not
the empty string (`GetActiveTeamMembers` excludes the author only under the
guard `excludeUserID != ""`); or by a reassignment, as the id of an active
member of the team recorded for the reviewer it replaces, different from that
reviewer. -/
def AssignedBy (r : Request) (tables : persistent.Tables) (prID id : String) : Prop :=
  (∃ prName authorID author,
      r.op = .CreatePR prID prName authorID
      ∧ (tables.users.find? fun u => decide (u.UserID = authorID)) = some author
      ∧ (∃ u ∈ tables.users, u.UserID = id ∧ u.TeamName = author.TeamName ∧ u.IsActive = true)
      ∧ (authorID ≠ "" → id ≠ authorID))
  ∨ (∃ oldReviewerID oldReviewer,
      r.op = .ReassignReviewer prID oldReviewerID
      ∧ (tables.users.find? fun u => decide (u.UserID = oldReviewerID)) = some oldReviewer
      ∧ (∃ u ∈ tables.users,
          u.UserID = id ∧ u.TeamName = oldReviewer.TeamName ∧ u.IsActive = true)
      ∧ id ≠ oldReviewerID
      ∧ oldReviewerID ∈ persistent.reviewerIDsOf tables prID)

/-! ## The handler of `POST /users/setIsActive` (`internal/controller/http/v1/user.go`) -/

namespace v1

/-- The struct `request.SetIsActiveRequest`, as the body parser fills it. -/
structure SetIsActiveRequest where
  UserID : String
  IsActive : Bool
deriving DecidableEq, Repr

/-- Modelled from the documentation of the validator library, which is not
among the sources: the tag `validate:"required"` rejects the zero value of the
field's type, the empty string for a string field. -/
def requiredString (value : String) : Bool := decide (value ≠ "")

/-- Modelled from the documentation of the validator library, which is not
among the sources: the tag `validate:"required"` rejects the zero value of the
field's type, `false` for a bool field. -/
def requiredBool (value : Bool) : Bool := decide (value ≠ false)

/-- The call `v.v.Struct(&req)` on a `SetIsActiveRequest`: the names of the
fields that fail their `required` tag; the error is nil when there is none. -/
def SetIsActiveRequest.Struct (req : SetIsActiveRequest) : List String :=
  (if requiredString req.UserID then [] else ["UserID"])
    ++ (if requiredBool req.IsActive then [] else ["IsActive"])

/-- What the handler answers: 400 with the failed fields, the error response of
`handleError`, or 200 with the user. -/
inductive Answer where
  | badRequest (failed : List String)
  | error (response : Response)
  | user (user : User)
deriving DecidableEq, Repr

/-- The method `V1.setIsActive`, from the parsed request on. -/
def setIsActive {σ : Type} (userUseCase : user.UseCase σ) (req : SetIsActiveRequest) (s : σ) :
    Answer × σ :=
  match req.Struct with
  | field :: fields => (.badRequest (field :: fields), s)
  | [] =>
    match userUseCase.SetIsActive req.UserID req.IsActive s with
    | ((_, some err), s) => (.error (handleError err), s)
    | ((user, none), s) => (.user user, s)

end v1

/-! ## Test doubles and interleavings -/

/-- The mock repositories of `TestCreatePR_AuthorNotFound` and
`TestMergePR_NotFound`: the existence check answers `false`, every lookup
reports `ErrNotFound`, and no method changes anything. -/
def pullrequest.notFoundMock : pullrequest.UseCase Unit where
  prRepo :=
    { CreatePR := fun _ _ s => (none, s)
      GetPR := fun _ s => (.error .ErrNotFound, s)
      PRExists := fun _ s => (.ok false, s)
      UpdatePRStatus := fun _ _ _ s => (none, s)
      GetPRReviewers := fun _ s => (.ok [], s)
      ReassignReviewer := fun _ _ _ s => (none, s)
      GetPRsByReviewer := fun _ s => (.ok [], s) }
  userRepo :=
    { CreateOrUpdateUser := fun _ s => (none, s)
      GetUser := fun _ s => (.error .ErrNotFound, s)
      SetIsActive := fun _ _ s => (none, s)
      GetActiveTeamMembers := fun _ _ s => (.ok [], s)
      GetUserReviews := fun _ s => (.ok [], s) }
  teamRepo :=
    { CreateTeam := fun _ s => (none, s)
      GetTeam := fun teamName s => (.ok { TeamName := teamName, Members := [] }, s)
      TeamExists := fun _ s => (.ok false, s) }

/-- The use case of one request when another request commits between its
reads and its write: `rival` is the effect of the other request's committed
transaction on the database, applied just before a write of this request
reaches the database. -/
def pullrequest.NewInterleaved (now : Time) (rival : persistent.DB → persistent.DB) :
    pullrequest.UseCase persistent.DB where
  prRepo :=
    { persistent.NewPullRequestRepo now with
      CreatePR := fun pr reviewerIDs db =>
        persistent.PullRequestRepo.CreatePR now pr reviewerIDs (rival db)
      UpdatePRStatus := fun prID status mergedAt db =>
        persistent.PullRequestRepo.UpdatePRStatus prID status mergedAt (rival db)
      ReassignReviewer := fun prID oldReviewerID newReviewerID db =>
        persistent.PullRequestRepo.ReassignReviewer prID oldReviewerID newReviewerID (rival db) }
  userRepo := persistent.NewUserRepo
  teamRepo := persistent.NewTeamRepo

/-! ## Scenario states

The states of the scenario of the specification: team "backend" with the
active users u1, u2 and u3; the same after `CreatePR("pr-1", "T", "u1")`; the
same after `MergePR("pr-1")`; and a state where the author u1 is inactive, so
that no replacement is left for a reviewer of pr-1. -/

def persistent.backendDB : persistent.DB :=
  { tables :=
      { teams := ["backend"]
        users := [⟨"u1", "Alice", "backend", true⟩, ⟨"u2", "Bob", "backend", true⟩,
          ⟨"u3", "Carol", "backend", true⟩]
        pull_requests := []
        pr_reviewers := [] }
    faults := [] }

def persistent.backendOpenDB : persistent.DB :=
  { persistent.backendDB with
    tables :=
      { persistent.backendDB.tables with
        pull_requests := [⟨"pr-1", "T", "u1", "OPEN", some 5, none⟩]
        pr_reviewers := [⟨"pr-1", "u2"⟩, ⟨"pr-1", "u3"⟩] } }

def persistent.backendMergedDB : persistent.DB :=
  { persistent.backendDB with
    tables :=
      { persistent.backendDB.tables with
        pull_requests := [⟨"pr-1", "T", "u1", "MERGED", some 5, some 7⟩]
        pr_reviewers := [⟨"pr-1", "u2"⟩, ⟨"pr-1", "u3"⟩] } }

def persistent.backendNoCandidateDB : persistent.DB :=
  { persistent.backendOpenDB with
    tables :=
      { persistent.backendOpenDB.tables with
        users := [⟨"u1", "Alice", "backend", false⟩, ⟨"u2", "Bob", "backend", true⟩,
          ⟨"u3", "Carol", "backend", true⟩] } }

/-- The backend team with a fourth active member u4 and the author u1
inactive, and pr-1 open with the reviewers u2 and u3. -/
def persistent.backendFourDB : persistent.DB :=
  { persistent.backendOpenDB with
    tables :=
      { persistent.backendOpenDB.tables with
        users := [⟨"u1", "Alice", "backend", false⟩, ⟨"u2", "Bob", "backend", true⟩,
          ⟨"u3", "Carol", "backend", true⟩, ⟨"u4", "Dave", "backend", true⟩] } }

/-- A database whose next statement fails at the driver. -/
def persistent.backendOpenFailingDB : persistent.DB :=
  { persistent.backendOpenDB with faults := [some "connection refused"] }

/-- The team "backend" of the scenario, as a request body. -/
def backendTeam : Team :=
  ⟨"backend", [⟨"u1", "Alice", true⟩, ⟨"u2", "Bob", true⟩, ⟨"u3", "Carol", true⟩]⟩

/-- A second team that takes over u2 and brings the new user u4. -/
def frontendTeam : Team := ⟨"frontend", [⟨"u2", "Bob", true⟩, ⟨"u4", "Dave", true⟩]⟩

/-! ## Properties of reviewer selection -/

theorem SelectRandomReviewers.loop_eq (candidates : List User) :
    ∀ (n i : Nat) (h : i + n ≤ candidates.length) (acc : List String),
      SelectRandomReviewers.loop candidates n i h acc
        = acc ++ ((candidates.drop i).take n).map User.UserID := by
  intro n
  induction n with
  | zero => intro i h acc; simp [SelectRandomReviewers.loop]
  | succ n ih =>
    intro i h acc
    have hi : i < candidates.length := by omega
    rw [SelectRandomReviewers.loop, ih, List.drop_eq_getElem_cons hi]
    simp only [List.take_succ_cons, List.map_cons, List.append_assoc, List.singleton_append,
      List.get_eq_getElem]

/-- The selection is the map of `UserID` over a prefix of the candidates. -/
theorem SelectRandomReviewers_eq_take (cs : List User) (maxCount : Int) :
    SelectRandomReviewers cs maxCount
      = (cs.take (min cs.length (effectiveCap maxCount).toNat)).map User.UserID := by
  unfold SelectRandomReviewers
  split
  · next h =>
    have : cs = [] := List.length_eq_zero.mp h
    subst this
    simp
  · next h =>
    simp only [SelectRandomReviewers.loop_eq, List.drop_zero, List.nil_append]
    congr 2
    unfold SelectRandomReviewers.count effectiveCap
    split_ifs <;> omega

/-- C1: `SelectRandomReviewers(cs, maxCount)` is the list of user ids of the
first `min(len(cs), effectiveCap)` candidates in input order, where
`effectiveCap` is `maxCount` when positive and 2 otherwise; it is empty for an
empty candidate list. -/
theorem SelectRandomReviewers_spec (cs : List User) (maxCount : Int) :
    SelectRandomReviewers cs maxCount
        = (cs.take (min cs.length (effectiveCap maxCount).toNat)).map User.UserID
      ∧ SelectRandomReviewers [] maxCount = [] :=
  ⟨SelectRandomReviewers_eq_take cs maxCount, by simp [SelectRandomReviewers]⟩

open pullrequest persistent

/-! ## The recording wrapper -/

section generic
variable {σ : Type}

@[simp] theorem traced_PRExists (uc : UseCase σ) (prID : String) (s : σ × List Call) :
    uc.traced.prRepo.PRExists prID s
      = ((uc.prRepo.PRExists prID s.1).1, ((uc.prRepo.PRExists prID s.1).2, s.2 ++ [.PRExists prID])) :=
  rfl

@[simp] theorem traced_GetPR (uc : UseCase σ) (prID : String) (s : σ × List Call) :
    uc.traced.prRepo.GetPR prID s
      = ((uc.prRepo.GetPR prID s.1).1, ((uc.prRepo.GetPR prID s.1).2, s.2 ++ [.GetPR prID])) :=
  rfl

@[simp] theorem traced_CreatePR (uc : UseCase σ) (pr : PullRequest) (ids : List String)
    (s : σ × List Call) :
    uc.traced.prRepo.CreatePR pr ids s
      = ((uc.prRepo.CreatePR pr ids s.1).1,
          ((uc.prRepo.CreatePR pr ids s.1).2, s.2 ++ [.CreatePR pr ids])) :=
  rfl

@[simp] theorem traced_UpdatePRStatus (uc : UseCase σ) (prID : String) (st : PullRequestStatus)
    (m : Option Time) (s : σ × List Call) :
    uc.traced.prRepo.UpdatePRStatus prID st m s
      = ((uc.prRepo.UpdatePRStatus prID st m s.1).1,
          ((uc.prRepo.UpdatePRStatus prID st m s.1).2, s.2 ++ [.UpdatePRStatus prID st m])) :=
  rfl

@[simp] theorem traced_ReassignReviewer (uc : UseCase σ) (prID o n : String) (s : σ × List Call) :
    uc.traced.prRepo.ReassignReviewer prID o n s
      = ((uc.prRepo.ReassignReviewer prID o n s.1).1,
          ((uc.prRepo.ReassignReviewer prID o n s.1).2, s.2 ++ [.ReassignReviewer prID o n])) :=
  rfl

@[simp] theorem traced_GetUser (uc : UseCase σ) (userID : String) (s : σ × List Call) :
    uc.traced.userRepo.GetUser userID s
      = ((uc.userRepo.GetUser userID s.1).1,
          ((uc.userRepo.GetUser userID s.1).2, s.2 ++ [.GetUser userID])) :=
  rfl

@[simp] theorem traced_GetActiveTeamMembers (uc : UseCase σ) (t e : String) (s : σ × List Call) :
    uc.traced.userRepo.GetActiveTeamMembers t e s
      = ((uc.userRepo.GetActiveTeamMembers t e s.1).1,
          ((uc.userRepo.GetActiveTeamMembers t e s.1).2, s.2 ++ [.GetActiveTeamMembers t e])) :=
  rfl

end generic

/-! ### The reads of the PostgreSQL repositories leave the committed rows alone -/

theorem persistent.DB.step_tables (db : DB) : db.step.2.tables = db.tables := by
  unfold DB.step
  cases db.faults <;> rfl

theorem persistent.PRExists_tables (prID : String) (db : DB) :
    (PullRequestRepo.PRExists prID db).2.tables = db.tables := by
  unfold PullRequestRepo.PRExists
  have := DB.step_tables db
  rcases h : db.step with ⟨r, d⟩
  rw [h] at this
  cases r with
  | some e => simpa using this
  | none =>
    simp only
    cases d.tables.pull_requests.find? fun row => decide (row.pull_request_id = prID) <;>
      simpa using this

theorem persistent.GetPRReviewers_tables (prID : String) (db : DB) :
    (PullRequestRepo.GetPRReviewers prID db).2.tables = db.tables := by
  unfold PullRequestRepo.GetPRReviewers
  have := DB.step_tables db
  rcases h : db.step with ⟨r, d⟩
  rw [h] at this
  cases r <;> simpa using this

theorem persistent.GetPR_tables (prID : String) (db : DB) :
    (PullRequestRepo.GetPR prID db).2.tables = db.tables := by
  unfold PullRequestRepo.GetPR
  have := DB.step_tables db
  rcases h : db.step with ⟨r, d⟩
  rw [h] at this
  cases r with
  | some e => simpa using this
  | none =>
    simp only
    cases d.tables.pull_requests.find? fun row => decide (row.pull_request_id = prID) with
    | none => simpa using this
    | some row =>
      simp only
      have h2 := GetPRReviewers_tables prID d
      rcases h3 : PullRequestRepo.GetPRReviewers prID d with ⟨r2, d2⟩
      rw [h3] at h2
      cases r2 <;> simp_all

theorem persistent.GetUser_tables (userID : String) (db : DB) :
    (UserRepo.GetUser userID db).2.tables = db.tables := by
  unfold UserRepo.GetUser
  have := DB.step_tables db
  rcases h : db.step with ⟨r, d⟩
  rw [h] at this
  cases r with
  | some e => simpa using this
  | none =>
    simp only
    cases d.tables.users.find? fun user => decide (user.UserID = userID) <;> simpa using this

theorem persistent.GetActiveTeamMembers_tables (teamName excludeUserID : String) (db : DB) :
    (UserRepo.GetActiveTeamMembers teamName excludeUserID db).2.tables = db.tables := by
  unfold UserRepo.GetActiveTeamMembers
  have := DB.step_tables db
  rcases h : db.step with ⟨r, d⟩
  rw [h] at this
  cases r <;> simpa using this



/-! ## The use case over any repositories -/

section generic
variable {σ : Type}

/-- A successful `CreatePR` went through the four repository calls in order. -/
theorem CreatePR_ok_inv (uc : UseCase σ) (now : Time) (prID prName authorID : String)
    (s s' : σ) (pr : PullRequest)
    (h : uc.CreatePR now prID prName authorID s = ((pr, none), s')) :
    ∃ s0 author s1 candidates s2,
      uc.prRepo.PRExists prID s = (.ok false, s0)
      ∧ uc.userRepo.GetUser authorID s0 = (.ok author, s1)
      ∧ uc.userRepo.GetActiveTeamMembers author.TeamName authorID s1 = (.ok candidates, s2)
      ∧ pr = { PullRequestID := prID, PullRequestName := prName, AuthorID := authorID,
               Status := PullRequestStatusOpen,
               AssignedReviewers := SelectRandomReviewers candidates 2,
               CreatedAt := some now, MergedAt := none }
      ∧ uc.prRepo.CreatePR pr (SelectRandomReviewers candidates 2) s2 = (none, s') := by
  unfold UseCase.CreatePR at h
  rcases h0 : uc.prRepo.PRExists prID s with ⟨r0, s0⟩
  rw [h0] at h
  cases r0 with
  | error e => simp at h
  | ok b =>
    cases b with
    | true => simp at h
    | false =>
      simp only [Bool.false_eq_true, if_false] at h
      rcases h1 : uc.userRepo.GetUser authorID s0 with ⟨r1, s1⟩
      rw [h1] at h
      cases r1 with
      | error e => simp at h
      | ok author =>
        simp only at h
        rcases h2 : uc.userRepo.GetActiveTeamMembers author.TeamName authorID s1 with ⟨r2, s2⟩
        rw [h2] at h
        cases r2 with
        | error e => simp at h
        | ok candidates =>
          simp only at h
          rcases h3 : uc.prRepo.CreatePR
            { PullRequestID := prID, PullRequestName := prName, AuthorID := authorID,
              Status := PullRequestStatusOpen,
              AssignedReviewers := SelectRandomReviewers candidates 2,
              CreatedAt := some now, MergedAt := none }
            (SelectRandomReviewers candidates 2) s2 with ⟨r3, s3⟩
          rw [h3] at h
          cases r3 with
          | some e => simp at h
          | none =>
            simp only [Prod.mk.injEq, and_true] at h
            obtain ⟨hpr, hs⟩ := h
            subst hpr hs
            exact ⟨s0, author, s1, candidates, s2, rfl, h1, h2, rfl, h3⟩

/-- When the existence check answers `true`, `CreatePR` stops there. -/
theorem CreatePR_exists (uc : UseCase σ) (now : Time) (prID prName authorID : String)
    (s s1 : σ) (h : uc.prRepo.PRExists prID s = (.ok true, s1)) :
    uc.CreatePR now prID prName authorID s = ((PullRequest.zero, some .ErrPRExists), s1) := by
  unfold UseCase.CreatePR
  rw [h]
  simp

/-- On a pull request read as MERGED, `MergePR` returns what it read. -/
theorem MergePR_merged (uc : UseCase σ) (now : Time) (prID : String) (s s1 : σ)
    (pr : PullRequest) (h : uc.prRepo.GetPR prID s = (.ok pr, s1))
    (hm : pr.Status = PullRequestStatusMerged) :
    uc.MergePR now prID s = ((pr, none), s1) := by
  unfold UseCase.MergePR
  rw [h]
  simp [hm]

/-- A successful `MergePR` either read a MERGED pull request, or read one that
is not MERGED, updated its status and read it again. -/
theorem MergePR_ok_inv (uc : UseCase σ) (now : Time) (prID : String) (s s' : σ)
    (pr : PullRequest) (h : uc.MergePR now prID s = ((pr, none), s')) :
    (uc.prRepo.GetPR prID s = (.ok pr, s') ∧ pr.Status = PullRequestStatusMerged)
    ∨ ∃ pr0 s0 s1,
        uc.prRepo.GetPR prID s = (.ok pr0, s0) ∧ pr0.Status ≠ PullRequestStatusMerged
        ∧ uc.prRepo.UpdatePRStatus prID PullRequestStatusMerged (some now) s0 = (none, s1)
        ∧ uc.prRepo.GetPR prID s1 = (.ok pr, s') := by
  unfold UseCase.MergePR at h
  rcases h0 : uc.prRepo.GetPR prID s with ⟨r0, s0⟩
  rw [h0] at h
  cases r0 with
  | error e => simp at h
  | ok pr0 =>
    simp only at h
    by_cases hm : pr0.Status = PullRequestStatusMerged
    · simp only [hm, if_true, Prod.mk.injEq, and_true] at h
      obtain ⟨hpr, hs⟩ := h
      subst hpr hs
      exact Or.inl ⟨rfl, hm⟩
    · simp only [hm, if_false] at h
      rcases h1 : uc.prRepo.UpdatePRStatus prID PullRequestStatusMerged (some now) s0
        with ⟨r1, s1⟩
      rw [h1] at h
      cases r1 with
      | some e => simp at h
      | none =>
        simp only at h
        rcases h2 : uc.prRepo.GetPR prID s1 with ⟨r2, s2⟩
        rw [h2] at h
        cases r2 with
        | error e => simp at h
        | ok pr2 =>
          simp only [Prod.mk.injEq, and_true] at h
          obtain ⟨hpr, hs⟩ := h
          subst hpr hs
          exact Or.inr ⟨pr0, s0, s1, rfl, hm, h1, h2⟩

/-- On a pull request read as MERGED, `ReassignReviewer` stops with `ErrPRMerged`. -/
theorem ReassignReviewer_merged (uc : UseCase σ) (prID oldReviewerID : String) (s s1 : σ)
    (pr : PullRequest) (h : uc.prRepo.GetPR prID s = (.ok pr, s1))
    (hm : pr.Status = PullRequestStatusMerged) :
    uc.ReassignReviewer prID oldReviewerID s
      = ((PullRequest.zero, "", some .ErrPRMerged), s1) := by
  unfold UseCase.ReassignReviewer
  rw [h]
  simp [hm]

theorem containsID_iff (reviewers : List String) (id : String) :
    containsID reviewers id = true ↔ id ∈ reviewers := by
  induction reviewers with
  | nil => simp [containsID]
  | cons r rs ih =>
    unfold containsID
    by_cases hr : r = id
    · simp [hr]
    · simp only [hr, if_false, ih, List.mem_cons]
      constructor
      · exact Or.inr
      · rintro (h | h)
        · exact absurd h.symm hr
        · exact h

theorem filterAssigned_eq (reviewers : List String) (candidates acc : List User) :
    filterAssigned reviewers candidates acc
      = acc ++ candidates.filter fun c => !containsID reviewers c.UserID := by
  induction candidates generalizing acc with
  | nil => simp [filterAssigned]
  | cons c cs ih =>
    unfold filterAssigned
    cases hc : containsID reviewers c.UserID <;> simp [hc, ih]

/-- On a pull request that is not MERGED and does not list the old reviewer,
`ReassignReviewer` stops with `ErrNotAssigned`. -/
theorem ReassignReviewer_notAssigned (uc : UseCase σ) (prID oldReviewerID : String) (s s1 : σ)
    (pr : PullRequest) (h : uc.prRepo.GetPR prID s = (.ok pr, s1))
    (hm : pr.Status ≠ PullRequestStatusMerged) (hnot : oldReviewerID ∉ pr.AssignedReviewers) :
    uc.ReassignReviewer prID oldReviewerID s
      = ((PullRequest.zero, "", some .ErrNotAssigned), s1) := by
  unfold UseCase.ReassignReviewer
  rw [h]
  have hc : containsID pr.AssignedReviewers oldReviewerID = false := by
    cases hc : containsID pr.AssignedReviewers oldReviewerID
    · rfl
    · exact absurd ((containsID_iff _ _).mp hc) hnot
  simp [hm, hc]

/-- With no candidate left after the filter, `ReassignReviewer` stops with
`ErrNoCandidate` after its three reads. -/
theorem ReassignReviewer_noCandidate (uc : UseCase σ) (prID oldReviewerID : String)
    (s s1 s2 s3 : σ) (pr : PullRequest) (oldReviewer : User) (candidates : List User)
    (h : uc.prRepo.GetPR prID s = (.ok pr, s1))
    (hm : pr.Status ≠ PullRequestStatusMerged) (hin : oldReviewerID ∈ pr.AssignedReviewers)
    (hu : uc.userRepo.GetUser oldReviewerID s1 = (.ok oldReviewer, s2))
    (hc : uc.userRepo.GetActiveTeamMembers oldReviewer.TeamName oldReviewerID s2
            = (.ok candidates, s3))
    (hempty : (candidates.filter fun c => decide (c.UserID ∉ pr.AssignedReviewers)) = []) :
    uc.ReassignReviewer prID oldReviewerID s
      = ((PullRequest.zero, "", some .ErrNoCandidate), s3) := by
  unfold UseCase.ReassignReviewer
  rw [h]
  have hf : containsID pr.AssignedReviewers oldReviewerID = true := (containsID_iff _ _).mpr hin
  have he : filterAssigned pr.AssignedReviewers candidates [] = [] := by
    rw [filterAssigned_eq, List.nil_append, ← hempty]
    congr 1
    funext c
    cases hcc : containsID pr.AssignedReviewers c.UserID
    · have : c.UserID ∉ pr.AssignedReviewers := fun hmem => by
        rw [(containsID_iff _ _).mpr hmem] at hcc; exact Bool.noConfusion hcc
      simp [this]
    · simp [(containsID_iff _ _).mp hcc]
  simp [hm, hf, hu, hc, he]

end generic


/-! ## What the answers of the PostgreSQL repositories say about the rows -/

theorem persistent.GetUser_ok (userID : String) (db db1 : DB) (user : User)
    (h : UserRepo.GetUser userID db = (.ok user, db1)) :
    (db.tables.users.find? fun u => decide (u.UserID = userID)) = some user
      ∧ db1.tables = db.tables := by
  have ht := GetUser_tables userID db
  rw [h] at ht
  refine ⟨?_, ht⟩
  unfold UserRepo.GetUser at h
  have hs := DB.step_tables db
  rcases hstep : db.step with ⟨r, d⟩
  rw [hstep] at h hs
  cases r with
  | some e => simp at h
  | none =>
    simp only at h hs
    rw [← hs]
    cases hf : d.tables.users.find? fun u => decide (u.UserID = userID) with
    | none => rw [hf] at h; simp at h
    | some u =>
      rw [hf] at h
      simp only [Prod.mk.injEq, Except.ok.injEq] at h
      rw [h.1]

theorem persistent.GetActiveTeamMembers_ok (teamName excludeUserID : String) (db db1 : DB)
    (candidates : List User)
    (h : UserRepo.GetActiveTeamMembers teamName excludeUserID db = (.ok candidates, db1)) :
    candidates = activeTeamMembers db.tables.users teamName excludeUserID
      ∧ db1.tables = db.tables := by
  have ht := GetActiveTeamMembers_tables teamName excludeUserID db
  rw [h] at ht
  refine ⟨?_, ht⟩
  unfold UserRepo.GetActiveTeamMembers at h
  have hs := DB.step_tables db
  rcases hstep : db.step with ⟨r, d⟩
  rw [hstep] at h hs
  cases r with
  | some e => simp at h
  | none =>
    simp only [Prod.mk.injEq, Except.ok.injEq] at h hs
    rw [← hs, ← h.1]

theorem persistent.GetPRReviewers_ok (prID : String) (db db1 : DB) (reviewers : List String)
    (h : PullRequestRepo.GetPRReviewers prID db = (.ok reviewers, db1)) :
    reviewers = reviewerIDsOf db.tables prID ∧ db1.tables = db.tables := by
  have ht := GetPRReviewers_tables prID db
  rw [h] at ht
  refine ⟨?_, ht⟩
  unfold PullRequestRepo.GetPRReviewers at h
  have hs := DB.step_tables db
  rcases hstep : db.step with ⟨r, d⟩
  rw [hstep] at h hs
  cases r with
  | some e => simp at h
  | none =>
    simp only [Prod.mk.injEq, Except.ok.injEq] at h hs
    rw [← hs, ← h.1]

theorem persistent.GetPR_ok (prID : String) (db db1 : DB) (pr : PullRequest)
    (h : PullRequestRepo.GetPR prID db = (.ok pr, db1)) :
    (∃ row, (db.tables.pull_requests.find? fun r => decide (r.pull_request_id = prID)) = some row
      ∧ pr = row.toPullRequest (reviewerIDsOf db.tables prID))
      ∧ db1.tables = db.tables := by
  have ht := GetPR_tables prID db
  rw [h] at ht
  refine ⟨?_, ht⟩
  unfold PullRequestRepo.GetPR at h
  have hs := DB.step_tables db
  rcases hstep : db.step with ⟨r, d⟩
  rw [hstep] at h hs
  cases r with
  | some e => simp at h
  | none =>
    simp only at h hs
    rw [← hs]
    cases hf : d.tables.pull_requests.find? fun r => decide (r.pull_request_id = prID) with
    | none => rw [hf] at h; simp at h
    | some row =>
      rw [hf] at h
      simp only at h
      rcases hr : PullRequestRepo.GetPRReviewers prID d with ⟨r2, d2⟩
      rw [hr] at h
      cases r2 with
      | error e => simp at h
      | ok reviewers =>
        simp only [Prod.mk.injEq, Except.ok.injEq] at h
        refine ⟨row, rfl, ?_⟩
        rw [← h.1, (GetPRReviewers_ok prID d d2 reviewers hr).1]

/-- The answer of `GetPR`, when there is one, is a function of the committed rows. -/
theorem persistent.GetPR_deterministic (prID : String) (db db1 db' db1' : DB)
    (pr pr' : PullRequest)
    (h : PullRequestRepo.GetPR prID db = (.ok pr, db1))
    (h' : PullRequestRepo.GetPR prID db' = (.ok pr', db1'))
    (ht : db'.tables = db.tables) : pr' = pr := by
  obtain ⟨⟨row, hrow, hpr⟩, -⟩ := GetPR_ok prID db db1 pr h
  obtain ⟨⟨row', hrow', hpr'⟩, -⟩ := GetPR_ok prID db' db1' pr' h'
  rw [ht] at hrow' hpr'
  rw [hrow] at hrow'
  cases hrow'
  rw [hpr, hpr']

theorem persistent.UpdatePRStatus_ok (prID : String) (status : PullRequestStatus)
    (mergedAt : Option Time) (db db1 : DB)
    (h : PullRequestRepo.UpdatePRStatus prID status mergedAt db = (none, db1)) :
    db1.tables = { db.tables with
      pull_requests := db.tables.pull_requests.map (setStatus prID status mergedAt) } := by
  unfold PullRequestRepo.UpdatePRStatus at h
  have hs := DB.step_tables db
  rcases hstep : db.step with ⟨r, d⟩
  rw [hstep] at h hs
  cases r with
  | some e => simp at h
  | none =>
    simp only at h hs
    split at h
    · simp at h
    · simp only [Prod.mk.injEq, true_and] at h
      rw [← h, ← hs]

/-- The tables after `UpdatePRStatus`, whatever it returns: unchanged, or the
rows of `pull_requests` passed through `setStatus`. -/
theorem persistent.UpdatePRStatus_tables (prID : String) (status : PullRequestStatus)
    (mergedAt : Option Time) (db : DB) :
    (PullRequestRepo.UpdatePRStatus prID status mergedAt db).2.tables = db.tables
    ∨ (PullRequestRepo.UpdatePRStatus prID status mergedAt db).2.tables
        = { db.tables with
            pull_requests := db.tables.pull_requests.map (setStatus prID status mergedAt) } := by
  unfold PullRequestRepo.UpdatePRStatus
  have hs := DB.step_tables db
  rcases hstep : db.step with ⟨r, d⟩
  rw [hstep] at hs
  cases r with
  | some e => left; simpa using hs
  | none =>
    right
    simp only at hs ⊢
    split <;> simp [hs]

theorem persistent.find?_setStatus (prID : String) (status : PullRequestStatus)
    (mergedAt : Option Time) (rows : List PullRequestRow) :
    ((rows.map (setStatus prID status mergedAt)).find?
        fun r => decide (r.pull_request_id = prID))
      = (rows.find? fun r => decide (r.pull_request_id = prID)).map
          (setStatus prID status mergedAt) := by
  induction rows with
  | nil => rfl
  | cons row rows ih =>
    have hid : (setStatus prID status mergedAt row).pull_request_id = row.pull_request_id := by
      unfold setStatus
      split
      · cases mergedAt <;> rfl
      · rfl
    simp only [List.map_cons, List.find?_cons, hid]
    by_cases hrow : row.pull_request_id = prID
    · simp [hrow]
    · simp [hrow, ih]



/-! ## CreatePR -/

/-- The store applies the exclusion of `GetActiveTeamMembers` for every
non-empty id. -/
theorem persistent.activeTeamMembers_excludes (users : List User) (teamName userID : String)
    (h : userID ≠ "") :
    userID ∉ (activeTeamMembers users teamName userID).map User.UserID := by
  unfold activeTeamMembers
  simp [h]

theorem persistent.activeTeamMembers_mem (users : List User) (teamName userID : String)
    (u : User) (h : u ∈ activeTeamMembers users teamName userID) :
    u ∈ users ∧ u.TeamName = teamName ∧ u.IsActive = true := by
  unfold activeTeamMembers at h
  simp only [List.mem_filter, Bool.and_eq_true, decide_eq_true_eq] at h
  exact ⟨h.1, h.2.1.1, h.2.1.2⟩

/-- C2: for every author and every pool of K active members of the author's
team, the candidates the store returns for that team with the author excluded
and with pairwise distinct ids, a successful `CreatePR` returns a pull request
whose `AssignedReviewers` has exactly `min(K, 2)` ids, each the id of a pool
member, none equal to the author id, and pairwise distinct. -/
theorem CreatePR_reviewer_cap (clock now : Time) (prID prName authorID : String)
    (db db' : DB) (pr : PullRequest) (author : User)
    (hauthor : (db.tables.users.find? fun u => decide (u.UserID = authorID)) = some author)
    (hdistinct :
      ((activeTeamMembers db.tables.users author.TeamName authorID).map User.UserID).Nodup)
    (hexcluded :
      authorID ∉ (activeTeamMembers db.tables.users author.TeamName authorID).map User.UserID)
    (hok : (pullrequest.New clock).CreatePR now prID prName authorID db = ((pr, none), db')) :
    pr.AssignedReviewers.length
        = min (activeTeamMembers db.tables.users author.TeamName authorID).length 2
      ∧ (∀ id ∈ pr.AssignedReviewers,
          ∃ u ∈ activeTeamMembers db.tables.users author.TeamName authorID,
            u.UserID = id ∧ u.TeamName = author.TeamName ∧ u.IsActive = true)
      ∧ authorID ∉ pr.AssignedReviewers
      ∧ pr.AssignedReviewers.Nodup := by
  obtain ⟨s0, author', s1, candidates, s2, h0, h1, h2, hpr, -⟩ :=
    CreatePR_ok_inv _ now prID prName authorID db db' pr hok
  have ht0 : s0.tables = db.tables := by
    have := PRExists_tables prID db
    change (persistent.PullRequestRepo.PRExists prID db) = _ at h0
    rw [h0] at this
    exact this
  obtain ⟨hfind, ht1⟩ := GetUser_ok authorID s0 s1 author' h1
  rw [ht0, hauthor] at hfind
  cases hfind
  obtain ⟨hc, -⟩ := GetActiveTeamMembers_ok author.TeamName authorID s1 s2 candidates h2
  rw [ht1, ht0] at hc
  subst hc
  have hsel := SelectRandomReviewers_eq_take
    (activeTeamMembers db.tables.users author.TeamName authorID) 2
  have hcap : (effectiveCap 2).toNat = 2 := by decide
  rw [hcap] at hsel
  have hrev : pr.AssignedReviewers
      = ((activeTeamMembers db.tables.users author.TeamName authorID).take
          (min (activeTeamMembers db.tables.users author.TeamName authorID).length 2)).map
            User.UserID := by
    rw [hpr]
    exact hsel
  have hsub : pr.AssignedReviewers.Sublist
      ((activeTeamMembers db.tables.users author.TeamName authorID).map User.UserID) := by
    rw [hrev]
    exact (List.take_sublist _ _).map _
  refine ⟨?_, ?_, ?_, ?_⟩
  · rw [hrev]
    simp
  · intro id hid
    rw [hrev] at hid
    obtain ⟨u, hu, rfl⟩ := List.mem_map.mp hid
    have hmem := List.mem_of_mem_take hu
    have := activeTeamMembers_mem _ _ _ u hmem
    exact ⟨u, hmem, rfl, this.2.1, this.2.2⟩
  · exact fun hmem => hexcluded (hsub.subset hmem)
  · exact hdistinct.sublist hsub

theorem CreatePR_reviewer_cap_witness :
    ((pullrequest.New 5).CreatePR 5 "pr-1" "T" "u1" backendDB).1.1.AssignedReviewers.length
        = min (activeTeamMembers backendDB.tables.users "backend" "u1").length 2
      ∧ "u1" ∉ ((pullrequest.New 5).CreatePR 5 "pr-1" "T" "u1" backendDB).1.1.AssignedReviewers
      ∧ ((pullrequest.New 5).CreatePR 5 "pr-1" "T" "u1" backendDB).1.1.AssignedReviewers.Nodup :=
  have h := CreatePR_reviewer_cap 5 5 "pr-1" "T" "u1" backendDB
    ((pullrequest.New 5).CreatePR 5 "pr-1" "T" "u1" backendDB).2
    ((pullrequest.New 5).CreatePR 5 "pr-1" "T" "u1" backendDB).1.1
    ⟨"u1", "Alice", "backend", true⟩ (by decide) (by decide) (by decide) (by decide)
  ⟨h.1, h.2.2.1, h.2.2.2⟩

/-- C3: when the store reports that a pull request with the given id already
exists, `CreatePR` returns exactly `ErrPRExists` with a zero pull request; the
existence check is the only repository call (no author lookup, no write) and
the committed rows are unchanged. -/
theorem CreatePR_rejects_existing (clock now : Time) (prID prName authorID : String)
    (db db1 : DB) (h : persistent.PullRequestRepo.PRExists prID db = (.ok true, db1)) :
    (pullrequest.New clock).traced.CreatePR now prID prName authorID (db, [])
        = ((PullRequest.zero, some Error.ErrPRExists), (db1, [Call.PRExists prID]))
      ∧ db1.tables = db.tables := by
  constructor
  · apply CreatePR_exists
    rw [traced_PRExists]
    change ((persistent.PullRequestRepo.PRExists prID db).1, ((persistent.PullRequestRepo.PRExists prID db).2, _)) = _
    rw [h]
    rfl
  · have := PRExists_tables prID db
    rw [h] at this
    exact this

theorem CreatePR_rejects_existing_witness :
    persistent.PullRequestRepo.PRExists "pr-1" backendOpenDB = (.ok true, backendOpenDB)
      ∧ (pullrequest.New 9).traced.CreatePR 9 "pr-1" "T" "u1" (backendOpenDB, [])
        = ((PullRequest.zero, some Error.ErrPRExists), (backendOpenDB, [Call.PRExists "pr-1"])) :=
  ⟨rfl, (CreatePR_rejects_existing 9 9 "pr-1" "T" "u1" backendOpenDB backendOpenDB rfl).1⟩

/-- C4: a successful `CreatePR(prID, prName, authorID)` returns a pull request
with the given id, name and author, status OPEN, a non-null `CreatedAt` and a
null `MergedAt`, and its `AssignedReviewers` is exactly the reviewer id list
handed to the store's create operation in the same call. -/
theorem CreatePR_returns_created {σ : Type} (uc : UseCase σ) (now : Time)
    (prID prName authorID : String) (s s' : σ) (pr : PullRequest) (log : List Call)
    (hok : uc.traced.CreatePR now prID prName authorID (s, []) = ((pr, none), (s', log))) :
    pr.PullRequestID = prID ∧ pr.PullRequestName = prName ∧ pr.AuthorID = authorID
      ∧ pr.Status = PullRequestStatusOpen ∧ pr.CreatedAt = some now ∧ pr.MergedAt = none
      ∧ ∃ teamName, log = [Call.PRExists prID, Call.GetUser authorID,
          Call.GetActiveTeamMembers teamName authorID, Call.CreatePR pr pr.AssignedReviewers] := by
  obtain ⟨s0, author, s1, candidates, s2, h0, h1, h2, hpr, h3⟩ :=
    CreatePR_ok_inv _ now prID prName authorID (s, []) (s', log) pr hok
  rw [traced_PRExists] at h0
  simp only [Prod.mk.injEq] at h0
  obtain ⟨-, rfl⟩ := h0
  rw [traced_GetUser] at h1
  simp only [Prod.mk.injEq] at h1
  obtain ⟨-, rfl⟩ := h1
  rw [traced_GetActiveTeamMembers] at h2
  simp only [Prod.mk.injEq] at h2
  obtain ⟨-, rfl⟩ := h2
  rw [traced_CreatePR] at h3
  simp only [Prod.mk.injEq, List.nil_append, List.cons_append] at h3
  obtain ⟨-, -, hlog⟩ := h3
  refine ⟨by rw [hpr], by rw [hpr], by rw [hpr], by rw [hpr], by rw [hpr], by rw [hpr],
    author.TeamName, ?_⟩
  rw [← hlog]
  have : pr.AssignedReviewers = SelectRandomReviewers candidates 2 := by rw [hpr]
  rw [this]

theorem CreatePR_returns_created_witness :
    ((pullrequest.New 5).traced.CreatePR 5 "pr-1" "T" "u1" (backendDB, [])).1.1.Status
        = PullRequestStatusOpen
      ∧ ((pullrequest.New 5).traced.CreatePR 5 "pr-1" "T" "u1" (backendDB, [])).1.1.CreatedAt
        = some 5 :=
  have h := CreatePR_returns_created (pullrequest.New 5) 5 "pr-1" "T" "u1" backendDB
    ((pullrequest.New 5).traced.CreatePR 5 "pr-1" "T" "u1" (backendDB, [])).2.1
    ((pullrequest.New 5).traced.CreatePR 5 "pr-1" "T" "u1" (backendDB, [])).1.1
    ((pullrequest.New 5).traced.CreatePR 5 "pr-1" "T" "u1" (backendDB, [])).2.2
    (by decide)
  ⟨h.2.2.2.1, h.2.2.2.2.1⟩



/-! ## The rows a successful create commits -/

theorem persistent.insertReviewers_ok (prID : String) (reviewerIDs : List String) :
    ∀ (tx tx' : Tables) (db db' : DB),
      PullRequestRepo.CreatePR.insertReviewers prID reviewerIDs tx db = (none, tx', db') →
        tx' = { tx with
          pr_reviewers := tx.pr_reviewers ++ reviewerIDs.map fun id => ⟨prID, id⟩ }
        ∧ db'.tables = db.tables := by
  induction reviewerIDs with
  | nil =>
    intro tx tx' db db' h
    simp only [PullRequestRepo.CreatePR.insertReviewers, Prod.mk.injEq, true_and] at h
    obtain ⟨rfl, rfl⟩ := h
    simp
  | cons id ids ih =>
    intro tx tx' db db' h
    unfold PullRequestRepo.CreatePR.insertReviewers at h
    have hs := DB.step_tables db
    rcases hstep : db.step with ⟨r, d⟩
    rw [hstep] at h hs
    cases r with
    | some e => simp at h
    | none =>
      simp only at h hs
      obtain ⟨h1, h2⟩ := ih _ _ _ _ h
      refine ⟨?_, by rw [h2, hs]⟩
      rw [h1]
      simp

/-- A successful `PullRequestRepo.CreatePR` commits the pull request row and
one reviewer row for each reviewer id, and nothing else. -/
theorem persistent.CreatePR_ok (now : Time) (pr : PullRequest) (reviewerIDs : List String)
    (db db' : DB) (h : PullRequestRepo.CreatePR now pr reviewerIDs db = (none, db')) :
    db'.tables =
      { db.tables with
        pull_requests := db.tables.pull_requests ++
          [{ pull_request_id := pr.PullRequestID
             pull_request_name := pr.PullRequestName
             author_id := pr.AuthorID
             status := pr.Status
             created_at := some (pr.CreatedAt.getD now)
             merged_at := none }]
        pr_reviewers := db.tables.pr_reviewers ++
          reviewerIDs.map fun id => ⟨pr.PullRequestID, id⟩ } := by
  unfold PullRequestRepo.CreatePR at h
  have hs1 := DB.step_tables db
  rcases hstep1 : db.step with ⟨r1, d1⟩
  rw [hstep1] at h hs1
  cases r1 with
  | some e => simp at h
  | none =>
    simp only at h hs1
    have hs2 := DB.step_tables d1
    rcases hstep2 : d1.step with ⟨r2, d2⟩
    rw [hstep2] at h hs2
    cases r2 with
    | some e => simp at h
    | none =>
      simp only at h hs2
      split at h
      · simp at h
      · rcases hins : PullRequestRepo.CreatePR.insertReviewers pr.PullRequestID reviewerIDs
          { d2.tables with
            pull_requests := d2.tables.pull_requests ++
              [{ pull_request_id := pr.PullRequestID
                 pull_request_name := pr.PullRequestName
                 author_id := pr.AuthorID
                 status := pr.Status
                 created_at :=
                   match pr.CreatedAt with
                   | some t => some t
                   | none => some now
                 merged_at := none }] } d2 with ⟨r3, tx3, d3⟩
        rw [hins] at h
        cases r3 with
        | some e => simp at h
        | none =>
          simp only at h
          obtain ⟨htx, -⟩ := insertReviewers_ok _ _ _ _ _ _ hins
          rcases hstep4 : d3.step with ⟨r4, d4⟩
          rw [hstep4] at h
          cases r4 with
          | some e => simp at h
          | none =>
            simp only [Prod.mk.injEq, true_and] at h
            rw [← h]
            simp only
            rw [htx, hs2, hs1]
            cases pr.CreatedAt <;> rfl

/-- After a successful `CreatePR` the existence check for the same id, when
the driver answers it, reports `true`: a second `CreatePR` with that id is
rejected with `ErrPRExists` (the uniqueness property of the specification). -/
theorem CreatePR_twice (clock now clock2 now2 : Time) (prID prName authorID prName2 authorID2 : String)
    (db db' : DB) (pr : PullRequest)
    (hok : (pullrequest.New clock).CreatePR now prID prName authorID db = ((pr, none), db'))
    (hdriver : db'.step.1 = none) :
    (pullrequest.New clock2).traced.CreatePR now2 prID prName2 authorID2 (db', [])
      = ((PullRequest.zero, some Error.ErrPRExists), (db'.step.2, [Call.PRExists prID])) := by
  obtain ⟨s0, author, s1, candidates, s2, -, -, -, hpr, hc⟩ :=
    CreatePR_ok_inv _ now prID prName authorID db db' pr hok
  have ht := CreatePR_ok clock pr (SelectRandomReviewers candidates 2) s2 db' hc
  have hid : pr.PullRequestID = prID := by rw [hpr]
  apply CreatePR_exists
  rw [traced_PRExists]
  change ((persistent.PullRequestRepo.PRExists prID db').1,
    ((persistent.PullRequestRepo.PRExists prID db').2, _)) = _
  have hex : persistent.PullRequestRepo.PRExists prID db' = (.ok true, db'.step.2) := by
    unfold persistent.PullRequestRepo.PRExists
    have hs := DB.step_tables db'
    rcases hstep : db'.step with ⟨r, d⟩
    rw [hstep] at hdriver hs
    simp only at hdriver hs
    subst hdriver
    simp only
    cases hf : d.tables.pull_requests.find? fun row => decide (row.pull_request_id = prID) with
    | some _ => rfl
    | none =>
      exfalso
      rw [hs, ht] at hf
      simp only [List.find?_eq_none, List.mem_append, List.mem_singleton, decide_eq_true_eq] at hf
      exact hf _ (Or.inr rfl) hid
  rw [hex]
  rfl

/-! ## MergePR -/

/-- Once the store holds a pull request as MERGED, a successful `MergePR` on
any state with the same committed rows returns that pull request after a
single read. -/
theorem MergePR_again (prID : String) (db db1 db2 : DB) (pr : PullRequest)
    (h : persistent.PullRequestRepo.GetPR prID db = (.ok pr, db1))
    (hm : pr.Status = PullRequestStatusMerged) (ht : db2.tables = db.tables)
    (clock2 now2 : Time) (pr2 : PullRequest) (db3 : DB) (log2 : List Call)
    (h2 : (pullrequest.New clock2).traced.MergePR now2 prID (db2, []) = ((pr2, none), (db3, log2))) :
    pr2 = pr ∧ log2 = [Call.GetPR prID] ∧ db3.tables = db.tables := by
  rcases MergePR_ok_inv _ now2 prID (db2, []) (db3, log2) pr2 h2 with
    ⟨hg, -⟩ | ⟨pr0, s0, s1, hg, hne, -, -⟩
  · rw [traced_GetPR] at hg
    change ((persistent.PullRequestRepo.GetPR prID db2).1,
      ((persistent.PullRequestRepo.GetPR prID db2).2, _)) = _ at hg
    simp only [Prod.mk.injEq, List.nil_append] at hg
    obtain ⟨hg1, hg2, hg3⟩ := hg
    have hget : persistent.PullRequestRepo.GetPR prID db2 = (.ok pr2, db3) := Prod.ext hg1 hg2
    refine ⟨GetPR_deterministic prID db db1 db2 db3 pr pr2 h hget ht, hg3.symm, ?_⟩
    have := GetPR_tables prID db2
    rw [hget] at this
    rw [this, ht]
  · exfalso
    rw [traced_GetPR] at hg
    change ((persistent.PullRequestRepo.GetPR prID db2).1,
      ((persistent.PullRequestRepo.GetPR prID db2).2, _)) = _ at hg
    simp only [Prod.mk.injEq] at hg
    have hget : persistent.PullRequestRepo.GetPR prID db2 = (.ok pr0, s0.1) :=
      Prod.ext hg.1 (by rw [← hg.2])
    have := GetPR_deterministic prID db db1 db2 s0.1 pr pr0 h hget ht
    rw [this] at hne
    exact hne hm

/-- What a successful `MergePR` returns is held by the store as MERGED: the
state it leaves answers a read of the pull request with the same value. -/
theorem MergePR_ok_stored (clock now : Time) (prID : String) (db db' : DB) (pr : PullRequest)
    (hok : (pullrequest.New clock).MergePR now prID db = ((pr, none), db')) :
    pr.Status = PullRequestStatusMerged
      ∧ ∃ d, persistent.PullRequestRepo.GetPR prID d = (.ok pr, db') ∧ db'.tables = d.tables := by
  rcases MergePR_ok_inv _ now prID db db' pr hok with ⟨hg, hm⟩ | ⟨pr0, s0, s1, hg, -, hu, hg2⟩
  · refine ⟨hm, db, hg, ?_⟩
    have := GetPR_tables prID db
    change (persistent.PullRequestRepo.GetPR prID db) = _ at hg
    rw [hg] at this
    exact this
  · change (persistent.PullRequestRepo.GetPR prID db) = _ at hg
    change (persistent.PullRequestRepo.UpdatePRStatus prID _ _ s0) = _ at hu
    change (persistent.PullRequestRepo.GetPR prID s1) = _ at hg2
    have ht2 : db'.tables = s1.tables := by
      have := GetPR_tables prID s1
      rw [hg2] at this
      exact this
    refine ⟨?_, s1, hg2, ht2⟩
    have ht1 := UpdatePRStatus_ok prID PullRequestStatusMerged (some now) s0 s1 hu
    obtain ⟨⟨row', hrow', hpr⟩, -⟩ := GetPR_ok prID s1 db' pr hg2
    rw [ht1] at hrow'
    simp only at hrow'
    rw [find?_setStatus] at hrow'
    cases hf : s0.tables.pull_requests.find? fun r => decide (r.pull_request_id = prID) with
    | none => rw [hf] at hrow'; simp at hrow'
    | some row =>
      rw [hf] at hrow'
      simp only [Option.map_some', Option.some.injEq] at hrow'
      have hid : row.pull_request_id = prID := by
        have := List.find?_some hf
        simpa using this
      rw [hpr, ← hrow']
      simp [PullRequestRow.toPullRequest, setStatus, hid]

/-- Merge idempotence over two calls: when `MergePR` succeeds and is called
again on the state it left, the second call, if it succeeds, returns the same
pull request and only reads. -/
theorem MergePR_twice (clock now clock2 now2 : Time) (prID : String) (db db' db'' : DB)
    (pr pr2 : PullRequest) (log2 : List Call)
    (hok : (pullrequest.New clock).MergePR now prID db = ((pr, none), db'))
    (hok2 : (pullrequest.New clock2).traced.MergePR now2 prID (db', [])
              = ((pr2, none), (db'', log2))) :
    pr2 = pr ∧ pr.Status = PullRequestStatusMerged ∧ log2 = [Call.GetPR prID]
      ∧ db''.tables = db'.tables := by
  obtain ⟨hm, d, hg, ht⟩ := MergePR_ok_stored clock now prID db db' pr hok
  obtain ⟨h1, h2, h3⟩ := MergePR_again prID d db' db' pr hg hm ht clock2 now2 pr2 db'' log2 hok2
  exact ⟨h1, hm, h2, by rw [h3, ht]⟩

/-- C5: for a pull request the store returns with status MERGED, `MergePR`
returns that pull request unchanged with no error; the read is its only
repository call (no status write) and the committed rows are unchanged; a
second `MergePR` on the state the first one left returns the same pull request,
again with the read as its only call. -/
theorem MergePR_idempotent (clock now : Time) (prID : String) (db db1 : DB) (pr : PullRequest)
    (h : persistent.PullRequestRepo.GetPR prID db = (.ok pr, db1))
    (hm : pr.Status = PullRequestStatusMerged) :
    (pullrequest.New clock).traced.MergePR now prID (db, [])
        = ((pr, none), (db1, [Call.GetPR prID]))
      ∧ db1.tables = db.tables
      ∧ ∀ (clock2 now2 : Time) (pr2 : PullRequest) (db2 : DB) (log2 : List Call),
          (pullrequest.New clock2).traced.MergePR now2 prID (db1, []) = ((pr2, none), (db2, log2)) →
            pr2 = pr ∧ log2 = [Call.GetPR prID] ∧ db2.tables = db.tables := by
  have ht : db1.tables = db.tables := by
    have := GetPR_tables prID db
    rw [h] at this
    exact this
  refine ⟨?_, ht, ?_⟩
  · apply MergePR_merged _ _ _ _ _ _ _ hm
    rw [traced_GetPR]
    change ((persistent.PullRequestRepo.GetPR prID db).1,
      ((persistent.PullRequestRepo.GetPR prID db).2, _)) = _
    rw [h]
    rfl
  · intro clock2 now2 pr2 db2 log2 h2
    exact MergePR_again prID db db1 db1 pr h hm ht clock2 now2 pr2 db2 log2 h2

theorem MergePR_idempotent_witness :
    (pullrequest.New 9).traced.MergePR 9 "pr-1" (backendMergedDB, [])
      = ((⟨"pr-1", "T", "u1", "MERGED", ["u2", "u3"], some 5, some 7⟩, none),
          (backendMergedDB, [Call.GetPR "pr-1"])) :=
  (MergePR_idempotent 9 9 "pr-1" backendMergedDB backendMergedDB
    ⟨"pr-1", "T", "u1", "MERGED", ["u2", "u3"], some 5, some 7⟩ rfl rfl).1

/-- C6: for an existing pull request whose stored status is OPEN, a successful
`MergePR` issues exactly one status update, for that id, with status MERGED and
the current time as `merged_at`, between two reads of the pull request, and the
pull request it returns has `Status = MERGED` and `MergedAt` set to that time. -/
theorem MergePR_open_merges (clock now : Time) (prID : String) (db db' : DB)
    (row : PullRequestRow) (pr : PullRequest) (log : List Call)
    (hrow : (db.tables.pull_requests.find? fun r => decide (r.pull_request_id = prID)) = some row)
    (hopen : row.status = PullRequestStatusOpen)
    (hok : (pullrequest.New clock).traced.MergePR now prID (db, []) = ((pr, none), (db', log))) :
    log = [Call.GetPR prID, Call.UpdatePRStatus prID PullRequestStatusMerged (some now),
        Call.GetPR prID]
      ∧ pr.Status = PullRequestStatusMerged ∧ pr.MergedAt = some now := by
  rcases MergePR_ok_inv _ now prID (db, []) (db', log) pr hok with
    ⟨hg, hm⟩ | ⟨pr0, ⟨d0, l0⟩, ⟨d1, l1⟩, hg, -, hu, hg2⟩
  · exfalso
    rw [traced_GetPR] at hg
    change ((persistent.PullRequestRepo.GetPR prID db).1,
      ((persistent.PullRequestRepo.GetPR prID db).2, _)) = _ at hg
    simp only [Prod.mk.injEq] at hg
    have hget : persistent.PullRequestRepo.GetPR prID db = (.ok pr, db') := Prod.ext hg.1 hg.2.1
    obtain ⟨⟨row', hrow', hpr⟩, -⟩ := GetPR_ok prID db db' pr hget
    rw [hrow] at hrow'
    cases hrow'
    rw [hpr] at hm
    change row.status = _ at hm
    rw [hopen] at hm
    exact absurd hm (by decide)
  · rw [traced_GetPR] at hg
    change ((persistent.PullRequestRepo.GetPR prID db).1,
      ((persistent.PullRequestRepo.GetPR prID db).2, _)) = _ at hg
    simp only [Prod.mk.injEq, List.nil_append] at hg
    obtain ⟨-, hs0, hl0⟩ := hg
    rw [traced_UpdatePRStatus] at hu
    change ((persistent.PullRequestRepo.UpdatePRStatus prID _ _ d0).1,
      ((persistent.PullRequestRepo.UpdatePRStatus prID _ _ d0).2, _)) = _ at hu
    simp only [Prod.mk.injEq] at hu
    obtain ⟨hu1, hs1, hl1⟩ := hu
    have hupd : persistent.PullRequestRepo.UpdatePRStatus prID PullRequestStatusMerged
        (some now) d0 = (none, d1) := Prod.ext hu1 hs1
    rw [traced_GetPR] at hg2
    change ((persistent.PullRequestRepo.GetPR prID d1).1,
      ((persistent.PullRequestRepo.GetPR prID d1).2, _)) = _ at hg2
    simp only [Prod.mk.injEq] at hg2
    obtain ⟨hg21, hg22, hl2⟩ := hg2
    have hget2 : persistent.PullRequestRepo.GetPR prID d1 = (.ok pr, db') :=
      Prod.ext hg21 hg22
    refine ⟨?_, ?_⟩
    · rw [← hl2, ← hl1, ← hl0]
      rfl
    · have ht0 : d0.tables = db.tables := by
        rw [← hs0]
        exact GetPR_tables prID db
      have ht1 := UpdatePRStatus_ok prID PullRequestStatusMerged (some now) d0 d1 hupd
      obtain ⟨⟨row', hrow', hpr⟩, -⟩ := GetPR_ok prID d1 db' pr hget2
      rw [ht1] at hrow'
      simp only at hrow'
      rw [find?_setStatus, ht0, hrow] at hrow'
      simp only [Option.map_some', Option.some.injEq] at hrow'
      have hid : row.pull_request_id = prID := by
        have := List.find?_some hrow
        simpa using this
      rw [hpr, ← hrow']
      simp [PullRequestRow.toPullRequest, setStatus, hid]

theorem MergePR_open_merges_witness :
    ((pullrequest.New 7).traced.MergePR 7 "pr-1" (backendOpenDB, [])).2.2
        = [Call.GetPR "pr-1", Call.UpdatePRStatus "pr-1" PullRequestStatusMerged (some 7),
            Call.GetPR "pr-1"]
      ∧ ((pullrequest.New 7).traced.MergePR 7 "pr-1" (backendOpenDB, [])).1.1.Status
        = PullRequestStatusMerged
      ∧ ((pullrequest.New 7).traced.MergePR 7 "pr-1" (backendOpenDB, [])).1.1.MergedAt = some 7 :=
  MergePR_open_merges 7 7 "pr-1" backendOpenDB
    ((pullrequest.New 7).traced.MergePR 7 "pr-1" (backendOpenDB, [])).2.1
    ⟨"pr-1", "T", "u1", "OPEN", some 5, none⟩
    ((pullrequest.New 7).traced.MergePR 7 "pr-1" (backendOpenDB, [])).1.1
    ((pullrequest.New 7).traced.MergePR 7 "pr-1" (backendOpenDB, [])).2.2
    (by decide) (by decide) (by decide)



/-- The committed rows after `MergePR`, whatever it returns: unchanged, or the
rows of `pull_requests` passed through the status update. -/
theorem MergePR_tables (clock now : Time) (prID : String) (db : DB) :
    ((pullrequest.New clock).MergePR now prID db).2.tables = db.tables
    ∨ ((pullrequest.New clock).MergePR now prID db).2.tables
        = { db.tables with
            pull_requests := db.tables.pull_requests.map
              (setStatus prID PullRequestStatusMerged (some now)) } := by
  unfold UseCase.MergePR
  have h0 := GetPR_tables prID db
  change ((pullrequest.New clock).prRepo.GetPR prID db).2.tables = _ at h0
  rcases hg : (pullrequest.New clock).prRepo.GetPR prID db with ⟨r0, d0⟩
  rw [hg] at h0
  simp only at h0
  cases r0 with
  | error e => left; exact h0
  | ok pr0 =>
    simp only
    split
    · left; exact h0
    · have h1 := UpdatePRStatus_tables prID PullRequestStatusMerged (some now) d0
      change ((pullrequest.New clock).prRepo.UpdatePRStatus prID PullRequestStatusMerged
        (some now) d0).2.tables = _ ∨ ((pullrequest.New clock).prRepo.UpdatePRStatus prID
          PullRequestStatusMerged (some now) d0).2.tables = _ at h1
      rcases hu : (pullrequest.New clock).prRepo.UpdatePRStatus prID PullRequestStatusMerged
        (some now) d0 with ⟨r1, d1⟩
      rw [hu] at h1
      simp only at h1
      rw [h0] at h1
      cases r1 with
      | some e => exact h1
      | none =>
        simp only
        have h2 := GetPR_tables prID d1
        change ((pullrequest.New clock).prRepo.GetPR prID d1).2.tables = _ at h2
        rcases hg2 : (pullrequest.New clock).prRepo.GetPR prID d1 with ⟨r2, d2⟩
        rw [hg2] at h2
        simp only at h2
        cases r2 <;> simp only <;> rw [h2] <;> exact h1

/-- C7: `MergePR`, whether it succeeds or fails, leaves the reviewer-assignment
relation of every pull request (and the users and teams) unchanged, and leaves
the id, name, author and `created_at` of every pull request row unchanged; only
the status and `merged_at` of rows with the merged id may differ afterwards. -/
theorem MergePR_frame (clock now : Time) (prID : String) (db : DB) :
    ((pullrequest.New clock).MergePR now prID db).2.tables.pr_reviewers = db.tables.pr_reviewers
      ∧ ((pullrequest.New clock).MergePR now prID db).2.tables.users = db.tables.users
      ∧ ((pullrequest.New clock).MergePR now prID db).2.tables.teams = db.tables.teams
      ∧ List.Forall₂
          (fun before after =>
            after.pull_request_id = before.pull_request_id
              ∧ after.pull_request_name = before.pull_request_name
              ∧ after.author_id = before.author_id
              ∧ after.created_at = before.created_at
              ∧ (before.pull_request_id ≠ prID → after = before))
          db.tables.pull_requests
          ((pullrequest.New clock).MergePR now prID db).2.tables.pull_requests := by
  rcases MergePR_tables clock now prID db with h | h
  · rw [h]
    refine ⟨rfl, rfl, rfl, ?_⟩
    exact List.forall₂_same.mpr fun _ _ => ⟨rfl, rfl, rfl, rfl, fun _ => rfl⟩
  · rw [h]
    refine ⟨rfl, rfl, rfl, ?_⟩
    simp only
    rw [List.forall₂_map_right_iff]
    refine List.forall₂_same.mpr fun row _ => ?_
    unfold setStatus
    split
    · next hid => exact ⟨rfl, rfl, rfl, rfl, fun hne => absurd hid hne⟩
    · exact ⟨rfl, rfl, rfl, rfl, fun _ => rfl⟩

/-! ## ReassignReviewer -/

/-- C8: for a pull request the store returns with status MERGED and every old
reviewer id, assigned to it or not, `ReassignReviewer` returns exactly
`ErrPRMerged` with a zero pull request and an empty new reviewer id; the read
of the pull request is its only repository call (no user lookup, no write) and
the committed rows are unchanged. -/
theorem ReassignReviewer_rejects_merged (clock : Time) (prID oldReviewerID : String)
    (db db1 : DB) (pr : PullRequest)
    (h : persistent.PullRequestRepo.GetPR prID db = (.ok pr, db1))
    (hm : pr.Status = PullRequestStatusMerged) :
    (pullrequest.New clock).traced.ReassignReviewer prID oldReviewerID (db, [])
        = ((PullRequest.zero, "", some Error.ErrPRMerged), (db1, [Call.GetPR prID]))
      ∧ db1.tables = db.tables := by
  constructor
  · apply ReassignReviewer_merged _ _ _ _ _ pr _ hm
    rw [traced_GetPR]
    change ((persistent.PullRequestRepo.GetPR prID db).1,
      ((persistent.PullRequestRepo.GetPR prID db).2, _)) = _
    rw [h]
    rfl
  · have := GetPR_tables prID db
    rw [h] at this
    exact this

theorem ReassignReviewer_rejects_merged_witness :
    (pullrequest.New 9).traced.ReassignReviewer "pr-1" "u2" (backendMergedDB, [])
      = ((PullRequest.zero, "", some Error.ErrPRMerged), (backendMergedDB, [Call.GetPR "pr-1"])) :=
  (ReassignReviewer_rejects_merged 9 "pr-1" "u2" backendMergedDB backendMergedDB
    ⟨"pr-1", "T", "u1", "MERGED", ["u2", "u3"], some 5, some 7⟩ rfl rfl).1

/-- C9: for a pull request the store returns with status OPEN and an old
reviewer id that is not among its assigned reviewers, `ReassignReviewer`
returns exactly `ErrNotAssigned`; the read of the pull request is its only
repository call (no write) and the committed rows, the reviewer set among
them, are unchanged. -/
theorem ReassignReviewer_rejects_unassigned (clock : Time) (prID oldReviewerID : String)
    (db db1 : DB) (pr : PullRequest)
    (h : persistent.PullRequestRepo.GetPR prID db = (.ok pr, db1))
    (hopen : pr.Status = PullRequestStatusOpen)
    (hnot : oldReviewerID ∉ pr.AssignedReviewers) :
    (pullrequest.New clock).traced.ReassignReviewer prID oldReviewerID (db, [])
        = ((PullRequest.zero, "", some Error.ErrNotAssigned), (db1, [Call.GetPR prID]))
      ∧ db1.tables = db.tables
      ∧ reviewerIDsOf db1.tables prID = reviewerIDsOf db.tables prID := by
  have ht : db1.tables = db.tables := by
    have := GetPR_tables prID db
    rw [h] at this
    exact this
  refine ⟨?_, ht, by rw [ht]⟩
  have hne : pr.Status ≠ PullRequestStatusMerged := by
    rw [hopen]
    decide
  apply ReassignReviewer_notAssigned _ _ _ _ _ pr _ hne hnot
  rw [traced_GetPR]
  change ((persistent.PullRequestRepo.GetPR prID db).1,
    ((persistent.PullRequestRepo.GetPR prID db).2, _)) = _
  rw [h]
  rfl

theorem ReassignReviewer_rejects_unassigned_witness :
    (pullrequest.New 9).traced.ReassignReviewer "pr-1" "u9" (backendOpenDB, [])
      = ((PullRequest.zero, "", some Error.ErrNotAssigned), (backendOpenDB, [Call.GetPR "pr-1"])) :=
  (ReassignReviewer_rejects_unassigned 9 "pr-1" "u9" backendOpenDB backendOpenDB
    ⟨"pr-1", "T", "u1", "OPEN", ["u2", "u3"], some 5, none⟩ rfl rfl (by decide)).1

/-- C10: for a pull request the store returns with status OPEN and an old
reviewer among its assigned reviewers, if the active members the store returns
for the old reviewer's team, after removing the old reviewer and every
assigned reviewer, form an empty list, `ReassignReviewer` returns exactly
`ErrNoCandidate`; its repository calls are the three reads and the committed
rows, the reviewer set among them, are unchanged. -/
theorem ReassignReviewer_no_candidate (clock : Time) (prID oldReviewerID : String)
    (db db1 db2 db3 : DB) (pr : PullRequest) (oldReviewer : User) (candidates : List User)
    (h : persistent.PullRequestRepo.GetPR prID db = (.ok pr, db1))
    (hopen : pr.Status = PullRequestStatusOpen)
    (hin : oldReviewerID ∈ pr.AssignedReviewers)
    (hu : persistent.UserRepo.GetUser oldReviewerID db1 = (.ok oldReviewer, db2))
    (hc : persistent.UserRepo.GetActiveTeamMembers oldReviewer.TeamName oldReviewerID db2
            = (.ok candidates, db3))
    (hempty : (candidates.filter fun c =>
        decide (c.UserID ≠ oldReviewerID ∧ c.UserID ∉ pr.AssignedReviewers)) = []) :
    (pullrequest.New clock).traced.ReassignReviewer prID oldReviewerID (db, [])
        = ((PullRequest.zero, "", some Error.ErrNoCandidate),
            (db3, [Call.GetPR prID, Call.GetUser oldReviewerID,
              Call.GetActiveTeamMembers oldReviewer.TeamName oldReviewerID]))
      ∧ db3.tables = db.tables
      ∧ reviewerIDsOf db3.tables prID = reviewerIDsOf db.tables prID := by
  have ht1 : db1.tables = db.tables := by
    have := GetPR_tables prID db
    rw [h] at this
    exact this
  have ht2 : db2.tables = db1.tables := (GetUser_ok _ _ _ _ hu).2
  have ht3 : db3.tables = db2.tables := (GetActiveTeamMembers_ok _ _ _ _ _ hc).2
  have ht : db3.tables = db.tables := by rw [ht3, ht2, ht1]
  refine ⟨?_, ht, by rw [ht]⟩
  have hne : pr.Status ≠ PullRequestStatusMerged := by
    rw [hopen]
    decide
  have hempty' : (candidates.filter fun c => decide (c.UserID ∉ pr.AssignedReviewers)) = [] := by
    rw [← hempty]
    apply List.filter_congr
    intro c _
    by_cases hcm : c.UserID ∈ pr.AssignedReviewers
    · simp [hcm]
    · have : c.UserID ≠ oldReviewerID := fun heq => hcm (heq ▸ hin)
      simp [hcm, this]
  apply ReassignReviewer_noCandidate (pullrequest.New clock).traced prID oldReviewerID (db, [])
    (db1, [Call.GetPR prID]) (db2, [Call.GetPR prID, Call.GetUser oldReviewerID])
    (db3, [Call.GetPR prID, Call.GetUser oldReviewerID,
      Call.GetActiveTeamMembers oldReviewer.TeamName oldReviewerID])
    pr oldReviewer candidates ?_ hne hin ?_ ?_ hempty'
  · rw [traced_GetPR]
    change ((persistent.PullRequestRepo.GetPR prID db).1,
      ((persistent.PullRequestRepo.GetPR prID db).2, _)) = _
    rw [h]
    rfl
  · rw [traced_GetUser]
    change ((persistent.UserRepo.GetUser oldReviewerID db1).1,
      ((persistent.UserRepo.GetUser oldReviewerID db1).2, _)) = _
    rw [hu]
    rfl
  · rw [traced_GetActiveTeamMembers]
    change ((persistent.UserRepo.GetActiveTeamMembers oldReviewer.TeamName oldReviewerID db2).1,
      ((persistent.UserRepo.GetActiveTeamMembers oldReviewer.TeamName oldReviewerID db2).2, _))
        = _
    rw [hc]
    rfl

theorem ReassignReviewer_no_candidate_witness :
    (pullrequest.New 9).traced.ReassignReviewer "pr-1" "u2" (backendNoCandidateDB, [])
      = ((PullRequest.zero, "", some Error.ErrNoCandidate),
          (backendNoCandidateDB, [Call.GetPR "pr-1", Call.GetUser "u2",
            Call.GetActiveTeamMembers "backend" "u2"])) :=
  (ReassignReviewer_no_candidate 9 "pr-1" "u2" backendNoCandidateDB backendNoCandidateDB
    backendNoCandidateDB backendNoCandidateDB
    ⟨"pr-1", "T", "u1", "OPEN", ["u2", "u3"], some 5, none⟩ ⟨"u2", "Bob", "backend", true⟩
    [⟨"u3", "Carol", "backend", true⟩] rfl rfl (by decide) rfl rfl (by decide)).1


/-! ## Error classification -/

theorem Error.Is_wrap (context : String) (err target : Error) (h : err.Is target = true) :
    (Error.wrap context err).Is target = true := by
  unfold Error.Is
  split <;> simp_all

theorem Error.Is_wrap_sentinel (context : String) (err target : Error)
    (h : ∀ c e, target ≠ .wrap c e) :
    (Error.wrap context err).Is target = err.Is target := by
  rw [Error.Is]
  have : Error.wrap context err ≠ target := fun heq => h context err heq.symm
  simp [this]

/-- C17: `GetErrorCode` maps each of the six sentinel errors to its own code,
and restricted to the six sentinels it is injective. -/
theorem GetErrorCode_sentinels :
    GetErrorCode .ErrTeamExists = "TEAM_EXISTS"
      ∧ GetErrorCode .ErrPRExists = "PR_EXISTS"
      ∧ GetErrorCode .ErrPRMerged = "PR_MERGED"
      ∧ GetErrorCode .ErrNotAssigned = "NOT_ASSIGNED"
      ∧ GetErrorCode .ErrNoCandidate = "NO_CANDIDATE"
      ∧ GetErrorCode .ErrNotFound = "NOT_FOUND"
      ∧ ∀ a ∈ domainKinds, ∀ b ∈ domainKinds, GetErrorCode a = GetErrorCode b → a = b := by
  refine ⟨rfl, rfl, rfl, rfl, rfl, rfl, ?_⟩
  decide

/-- C13: whenever the lookup of the store reports NotFound (an error `e` with
`errors.Is(e, ErrNotFound)`), `CreatePR` (author lookup), `MergePR` and
`ReassignReviewer` (pull request lookup) return an error for which
`errors.Is(err, ErrNotFound)` holds together with a zero pull request, and
their repository calls are reads only. -/
theorem lookup_notFound {σ : Type} (uc : UseCase σ) (now : Time)
    (prID prName authorID oldReviewerID : String) (s s0 s1 : σ) (e : Error)
    (hnf : e.Is .ErrNotFound = true) :
    (uc.prRepo.PRExists prID s = (.ok false, s0) →
      uc.userRepo.GetUser authorID s0 = (.error e, s1) →
        ∃ err, uc.traced.CreatePR now prID prName authorID (s, [])
            = ((PullRequest.zero, some err), (s1, [Call.PRExists prID, Call.GetUser authorID]))
          ∧ err.Is .ErrNotFound = true)
    ∧ (uc.prRepo.GetPR prID s = (.error e, s1) →
        ∃ err, uc.traced.MergePR now prID (s, [])
            = ((PullRequest.zero, some err), (s1, [Call.GetPR prID]))
          ∧ err.Is .ErrNotFound = true)
    ∧ (uc.prRepo.GetPR prID s = (.error e, s1) →
        ∃ err, uc.traced.ReassignReviewer prID oldReviewerID (s, [])
            = ((PullRequest.zero, "", some err), (s1, [Call.GetPR prID]))
          ∧ err.Is .ErrNotFound = true) := by
  refine ⟨fun h0 h1 => ?_, fun h => ?_, fun h => ?_⟩
  · refine ⟨.wrap "PullRequestUseCase - CreatePR - GetUser" e, ?_, Error.Is_wrap _ _ _ hnf⟩
    unfold UseCase.CreatePR
    simp [h0, h1]
  · refine ⟨.wrap "PullRequestUseCase - MergePR - GetPR" e, ?_, Error.Is_wrap _ _ _ hnf⟩
    unfold UseCase.MergePR
    simp [h]
  · refine ⟨.wrap "PullRequestUseCase - ReassignReviewer - GetPR" e, ?_,
      Error.Is_wrap _ _ _ hnf⟩
    unfold UseCase.ReassignReviewer
    simp [h]

theorem lookup_notFound_witness :
    (∃ err, notFoundMock.traced.CreatePR 1 "pr-1" "Test" "u99" ((), [])
        = ((PullRequest.zero, some err), ((), [Call.PRExists "pr-1", Call.GetUser "u99"]))
      ∧ err.Is .ErrNotFound = true)
    ∧ (∃ err, notFoundMock.traced.MergePR 1 "pr-99" ((), [])
        = ((PullRequest.zero, some err), ((), [Call.GetPR "pr-99"]))
      ∧ err.Is .ErrNotFound = true) :=
  have h := lookup_notFound notFoundMock 1 "pr-1" "Test" "u99" "u2" () () () .ErrNotFound rfl
  have h' := lookup_notFound notFoundMock 1 "pr-99" "Test" "u99" "u2" () () () .ErrNotFound rfl
  ⟨h.1 rfl rfl, h'.2.1 rfl⟩

/-- C14: when the delete of `(pr, old)` affects zero rows, the storage
operation `PullRequestRepo.ReassignReviewer` returns exactly `ErrNotAssigned`
and leaves the committed rows, the reviewer-assignment relation among them,
unchanged: `(pr, new)` is not inserted. -/
theorem ReassignReviewer_zero_rows (prID oldReviewerID newReviewerID : String)
    (db d1 d2 : DB) (hbegin : db.step = (none, d1)) (hdelete : d1.step = (none, d2))
    (hzero : (db.tables.pr_reviewers.filter fun row =>
        decide (row.pull_request_id = prID) && decide (row.reviewer_id = oldReviewerID)) = []) :
    persistent.PullRequestRepo.ReassignReviewer prID oldReviewerID newReviewerID db
        = (some .ErrNotAssigned, d2)
      ∧ d2.tables = db.tables
      ∧ d2.tables.pr_reviewers = db.tables.pr_reviewers := by
  have h1 : d1.tables = db.tables := by
    have := DB.step_tables db
    rw [hbegin] at this
    exact this
  have h2 : d2.tables = d1.tables := by
    have := DB.step_tables d1
    rw [hdelete] at this
    exact this
  have ht : d2.tables = db.tables := by rw [h2, h1]
  refine ⟨?_, ht, by rw [ht]⟩
  unfold persistent.PullRequestRepo.ReassignReviewer
  rw [hbegin]
  simp only
  rw [hdelete]
  simp only
  rw [ht, hzero]
  simp

theorem ReassignReviewer_zero_rows_witness :
    persistent.PullRequestRepo.ReassignReviewer "pr-1" "u9" "u4" backendOpenDB
      = (some .ErrNotAssigned, backendOpenDB) :=
  (ReassignReviewer_zero_rows "pr-1" "u9" "u4" backendOpenDB backendOpenDB backendOpenDB
    rfl rfl (by decide)).1

/-- C19: the code at the failing input.  When the driver fails the existence
query, `PullRequestRepo.PRExists` and `TeamRepo.TeamExists` answer `false` with
a nil error, for every state of the tables, also when the row exists. -/
theorem exists_swallows_failure :
    (∀ (tables : Tables) (msg : String) (faults : List (Option String)) (key : String),
      persistent.PullRequestRepo.PRExists key { tables := tables, faults := some msg :: faults }
          = (.ok false, { tables := tables, faults := faults })
        ∧ persistent.TeamRepo.TeamExists key { tables := tables, faults := some msg :: faults }
          = (.ok false, { tables := tables, faults := faults }))
    ∧ persistent.PullRequestRepo.PRExists "pr-1" backendOpenFailingDB = (.ok false, backendOpenDB)
    ∧ persistent.PullRequestRepo.PRExists "pr-1" backendOpenDB = (.ok true, backendOpenDB) :=
  ⟨fun _ _ _ _ => ⟨rfl, rfl⟩, rfl, rfl⟩

/-- C20: the code at the failing input.  On a key without a row, `GetTeam`
returns an empty team with a nil error, and `GetUser` and `GetPR` return the
driver's no-rows error wrapped with context, which is not `ErrNotFound`. -/
theorem get_missing_row :
    persistent.TeamRepo.GetTeam "ghost" backendDB
        = (.ok { TeamName := "ghost", Members := [] }, backendDB)
    ∧ persistent.UserRepo.GetUser "u99" backendDB
        = (.error (.wrap "UserRepo - GetUser - Scan" .pgxErrNoRows), backendDB)
    ∧ (Error.wrap "UserRepo - GetUser - Scan" .pgxErrNoRows).Is .ErrNotFound = false
    ∧ persistent.PullRequestRepo.GetPR "pr-99" backendDB
        = (.error (.wrap "PullRequestRepo - GetPR - Scan" .pgxErrNoRows), backendDB)
    ∧ (Error.wrap "PullRequestRepo - GetPR - Scan" .pgxErrNoRows).Is .ErrNotFound = false :=
  ⟨rfl, rfl, by decide, rfl, by decide⟩

/-- Every error that is not itself one of the six sentinels gets the code
`NOT_FOUND`. -/
theorem GetErrorCode_default (err : Error) (h : err ∉ domainKinds) :
    GetErrorCode err = ErrorCodeNotFound := by
  cases err <;> first | rfl | (exfalso; apply h; simp [domainKinds])

/-- C16: the code at the failing input.  `handleError` never answers with
status 500 and always puts the text of the error into the body; the driver
failure of a `MergePR`, which is none of the six domain kinds, is answered
with status 404, code `NOT_FOUND` and the raw error text. -/
theorem handleError_leaks :
    (∀ err : Error, (v1.handleError err).Status ≠ v1.StatusInternalServerError
      ∧ (v1.handleError err).Body.Error.Message = err.message)
    ∧ ((pullrequest.New 7).MergePR 7 "pr-1" backendOpenFailingDB).1.2
        = some (.wrap "PullRequestUseCase - MergePR - GetPR"
            (.wrap "PullRequestRepo - GetPR - Scan" (.driver "connection refused")))
    ∧ (∀ kind ∈ domainKinds,
        (Error.wrap "PullRequestUseCase - MergePR - GetPR"
          (.wrap "PullRequestRepo - GetPR - Scan" (.driver "connection refused"))).Is kind = false)
    ∧ v1.handleError (.wrap "PullRequestUseCase - MergePR - GetPR"
          (.wrap "PullRequestRepo - GetPR - Scan" (.driver "connection refused")))
        = v1.Response.mk 404 (v1.NewErrorResponse "NOT_FOUND"
            "PullRequestUseCase - MergePR - GetPR: PullRequestRepo - GetPR - Scan: connection refused") := by
  refine ⟨fun err => ?_, rfl, by decide, by decide⟩
  cases err <;> exact ⟨by
    intro h
    revert h
    first
      | (show (409 : Nat) ≠ 500; decide)
      | (show (404 : Nat) ≠ 500; decide), rfl⟩

/-- C15: the code at the failing input.  When another request replaces the
reviewer u2 of pr-1 between this request's reads and its delete, the storage
step reports `ErrNotAssigned`; the use case returns it wrapped, which is
NotAssigned in the sense of `errors.Is`, and `GetErrorCode` maps it to
`NOT_FOUND`, not `NOT_ASSIGNED`. -/
theorem wrapped_notAssigned_code :
    ((pullrequest.NewInterleaved 7 fun db =>
        (persistent.PullRequestRepo.ReassignReviewer "pr-1" "u2" "u4" db).2).ReassignReviewer
          "pr-1" "u2" backendFourDB).1
      = (PullRequest.zero, "",
          some (.wrap "PullRequestUseCase - ReassignReviewer - ReassignReviewer" .ErrNotAssigned))
    ∧ (Error.wrap "PullRequestUseCase - ReassignReviewer - ReassignReviewer"
        .ErrNotAssigned).Is .ErrNotAssigned = true
    ∧ GetErrorCode (.wrap "PullRequestUseCase - ReassignReviewer - ReassignReviewer"
        .ErrNotAssigned) = "NOT_FOUND"
    ∧ GetErrorCode .ErrNotAssigned = "NOT_ASSIGNED"
    ∧ (v1.handleError (.wrap "PullRequestUseCase - ReassignReviewer - ReassignReviewer"
        .ErrNotAssigned)).Status = 404
    ∧ ∀ (context : String) (err : Error),
        GetErrorCode (.wrap context err) = "NOT_FOUND" :=
  ⟨by decide, by decide, rfl, rfl, rfl, fun _ _ => rfl⟩

/-! ## The racing duplicate insert -/

/-- On a database that already holds a row with the id, the insert of
`PullRequestRepo.CreatePR` fails with the unique-key violation, wrapped with
its context, and commits nothing. -/
theorem persistent.CreatePR_duplicate (now : Time) (pr : PullRequest) (reviewerIDs : List String)
    (db d1 d2 : DB) (hbegin : db.step = (none, d1)) (hinsert : d1.step = (none, d2))
    (hrow : ∃ row ∈ db.tables.pull_requests, row.pull_request_id = pr.PullRequestID) :
    PullRequestRepo.CreatePR now pr reviewerIDs db
        = (some (.wrap "PullRequestRepo - CreatePR - Exec PR" uniqueViolation), d2)
      ∧ d2.tables = db.tables := by
  have h1 : d1.tables = db.tables := by
    have := DB.step_tables db
    rw [hbegin] at this
    exact this
  have h2 : d2.tables = d1.tables := by
    have := DB.step_tables d1
    rw [hinsert] at this
    exact this
  have ht : d2.tables = db.tables := by rw [h2, h1]
  refine ⟨?_, ht⟩
  unfold PullRequestRepo.CreatePR
  rw [hbegin]
  simp only
  rw [hinsert]
  simp only
  have hany : (d2.tables.pull_requests.any fun row =>
      decide (row.pull_request_id = pr.PullRequestID)) = true := by
    rw [ht]
    obtain ⟨row, hmem, hid⟩ := hrow
    exact List.any_eq_true.mpr ⟨row, hmem, by simp [hid]⟩
  rw [if_pos hany]

/-- C18, as amended: when the existence check reports the id absent and a
rival request commits a pull request with that id before the insert, `CreatePR`
fails with the unique-key violation of the store wrapped with operation
context; this error is not PRExists in the sense of `errors.Is`, and nothing
is written to the rows the rival left. -/
theorem CreatePR_race_unclassified (clock now : Time) (prID prName authorID : String)
    (rival : DB → DB) (db s0 s1 s2 d1 d2 : DB) (author : User) (candidates : List User)
    (h0 : persistent.PullRequestRepo.PRExists prID db = (.ok false, s0))
    (h1 : persistent.UserRepo.GetUser authorID s0 = (.ok author, s1))
    (h2 : persistent.UserRepo.GetActiveTeamMembers author.TeamName authorID s1
            = (.ok candidates, s2))
    (hbegin : (rival s2).step = (none, d1)) (hinsert : d1.step = (none, d2))
    (hrow : ∃ row ∈ (rival s2).tables.pull_requests, row.pull_request_id = prID) :
    (pullrequest.NewInterleaved clock rival).CreatePR now prID prName authorID db
        = ((PullRequest.zero,
            some (.wrap "PullRequestUseCase - CreatePR - CreatePR"
              (.wrap "PullRequestRepo - CreatePR - Exec PR" uniqueViolation))), d2)
      ∧ (Error.wrap "PullRequestUseCase - CreatePR - CreatePR"
          (.wrap "PullRequestRepo - CreatePR - Exec PR" uniqueViolation)).Is .ErrPRExists = false
      ∧ d2.tables = (rival s2).tables := by
  have hdup := CreatePR_duplicate clock
    { PullRequestID := prID, PullRequestName := prName, AuthorID := authorID,
      Status := PullRequestStatusOpen,
      AssignedReviewers := SelectRandomReviewers candidates 2,
      CreatedAt := some now, MergedAt := none }
    (SelectRandomReviewers candidates 2) (rival s2) d1 d2 hbegin hinsert hrow
  refine ⟨?_, by decide, hdup.2⟩
  unfold UseCase.CreatePR
  have e0 : (pullrequest.NewInterleaved clock rival).prRepo.PRExists prID db = (.ok false, s0) :=
    h0
  have e1 : (pullrequest.NewInterleaved clock rival).userRepo.GetUser authorID s0
      = (.ok author, s1) := h1
  have e2 : (pullrequest.NewInterleaved clock rival).userRepo.GetActiveTeamMembers
      author.TeamName authorID s1 = (.ok candidates, s2) := h2
  rw [e0]
  simp only [Bool.false_eq_true, if_false]
  rw [e1]
  simp only
  rw [e2]
  simp only
  have e3 : (pullrequest.NewInterleaved clock rival).prRepo.CreatePR
      { PullRequestID := prID, PullRequestName := prName, AuthorID := authorID,
        Status := PullRequestStatusOpen,
        AssignedReviewers := SelectRandomReviewers candidates 2,
        CreatedAt := some now, MergedAt := none }
      (SelectRandomReviewers candidates 2) s2
      = (some (.wrap "PullRequestRepo - CreatePR - Exec PR" uniqueViolation), d2) := hdup.1
  rw [e3]

theorem CreatePR_race_unclassified_witness :
    ((pullrequest.NewInterleaved 7 fun db =>
        ((pullrequest.New 4).CreatePR 4 "pr-1" "T2" "u1" db).2).CreatePR
          7 "pr-1" "T" "u1" backendDB).1
      = (PullRequest.zero,
          some (.wrap "PullRequestUseCase - CreatePR - CreatePR"
            (.wrap "PullRequestRepo - CreatePR - Exec PR" uniqueViolation))) :=
  congrArg Prod.fst
    (CreatePR_race_unclassified 7 7 "pr-1" "T" "u1"
      (fun db => ((pullrequest.New 4).CreatePR 4 "pr-1" "T2" "u1" db).2)
      backendDB backendDB backendDB backendDB
      ((pullrequest.New 4).CreatePR 4 "pr-1" "T2" "u1" backendDB).2
      ((pullrequest.New 4).CreatePR 4 "pr-1" "T2" "u1" backendDB).2
      ⟨"u1", "Alice", "backend", true⟩
      [⟨"u2", "Bob", "backend", true⟩, ⟨"u3", "Carol", "backend", true⟩]
      rfl rfl rfl rfl rfl ⟨⟨"pr-1", "T2", "u1", "OPEN", some 4, none⟩, by decide, rfl⟩).1

/-- C18, the claim as stated fails: the existence check on the backend state
reports pr-1 absent, a rival `CreatePR("pr-1")` commits before the insert, and
the error `CreatePR` returns is not PRExists in the sense of `errors.Is`; the
boundary gives it the code `NOT_FOUND`. -/
theorem CreatePR_race_counterexample :
    persistent.PullRequestRepo.PRExists "pr-1" backendDB = (.ok false, backendDB)
    ∧ ∃ err,
        ((pullrequest.NewInterleaved 7 fun db =>
          ((pullrequest.New 4).CreatePR 4 "pr-1" "T2" "u1" db).2).CreatePR
            7 "pr-1" "T" "u1" backendDB).1.2 = some err
        ∧ err.Is .ErrPRExists = false
        ∧ GetErrorCode err = "NOT_FOUND" :=
  ⟨rfl, _, rfl, by decide, rfl⟩

/-! ## ReassignReviewer: the successful path -/

section generic
variable {σ : Type}

/-- A successful `ReassignReviewer` went through its three reads, picked the
first candidate left by the filter, replaced the reviewer and read the pull
request again. -/
theorem ReassignReviewer_ok_inv (uc : UseCase σ) (prID oldReviewerID : String) (s s' : σ)
    (pr' : PullRequest) (newReviewerID : String)
    (h : uc.ReassignReviewer prID oldReviewerID s = ((pr', newReviewerID, none), s')) :
    ∃ pr s1 oldReviewer s2 candidates s3 s4 rest,
      uc.prRepo.GetPR prID s = (.ok pr, s1)
      ∧ pr.Status ≠ PullRequestStatusMerged
      ∧ oldReviewerID ∈ pr.AssignedReviewers
      ∧ uc.userRepo.GetUser oldReviewerID s1 = (.ok oldReviewer, s2)
      ∧ uc.userRepo.GetActiveTeamMembers oldReviewer.TeamName oldReviewerID s2
          = (.ok candidates, s3)
      ∧ SelectRandomReviewers
          (candidates.filter fun c => !containsID pr.AssignedReviewers c.UserID) 1
          = newReviewerID :: rest
      ∧ uc.prRepo.ReassignReviewer prID oldReviewerID newReviewerID s3 = (none, s4)
      ∧ uc.prRepo.GetPR prID s4 = (.ok pr', s') := by
  unfold UseCase.ReassignReviewer at h
  rcases h0 : uc.prRepo.GetPR prID s with ⟨r0, s1⟩
  rw [h0] at h
  cases r0 with
  | error e => simp at h
  | ok pr =>
    simp only at h
    by_cases hm : pr.Status = PullRequestStatusMerged
    · simp [hm] at h
    · simp only [hm, if_false] at h
      cases hf : containsID pr.AssignedReviewers oldReviewerID with
      | false => simp [hf] at h
      | true =>
        simp only [hf, Bool.not_true, Bool.false_eq_true, if_false] at h
        rcases h1 : uc.userRepo.GetUser oldReviewerID s1 with ⟨r1, s2⟩
        rw [h1] at h
        cases r1 with
        | error e => simp at h
        | ok oldReviewer =>
          simp only at h
          rcases h2 : uc.userRepo.GetActiveTeamMembers oldReviewer.TeamName oldReviewerID s2
            with ⟨r2, s3⟩
          rw [h2] at h
          cases r2 with
          | error e => simp at h
          | ok candidates =>
            simp only [filterAssigned_eq, List.nil_append] at h
            split at h
            · simp at h
            · cases hsel : SelectRandomReviewers
                (candidates.filter fun c => !containsID pr.AssignedReviewers c.UserID) 1 with
              | nil => rw [hsel] at h; simp at h
              | cons new rest =>
                rw [hsel] at h
                simp only at h
                rcases h3 : uc.prRepo.ReassignReviewer prID oldReviewerID new s3 with ⟨r3, s4⟩
                rw [h3] at h
                cases r3 with
                | some e => simp at h
                | none =>
                  simp only at h
                  rcases h4 : uc.prRepo.GetPR prID s4 with ⟨r4, s5⟩
                  rw [h4] at h
                  cases r4 with
                  | error e => simp at h
                  | ok pr2 =>
                    simp only [Prod.mk.injEq, and_true] at h
                    obtain ⟨⟨hpr, hnew⟩, hs⟩ := h
                    subst hpr hnew hs
                    exact ⟨pr, s1, oldReviewer, s2, candidates, s3, s4, rest, rfl, hm,
                      (containsID_iff _ _).mp hf, h1, h2, hsel, h3, h4⟩

end generic

/-- With cap 1 the selection returns the id of the first candidate. -/
theorem SelectRandomReviewers_one (candidates : List User) (id : String) (rest : List String)
    (h : SelectRandomReviewers candidates 1 = id :: rest) :
    ∃ c tail, candidates = c :: tail ∧ c.UserID = id ∧ rest = [] := by
  have hspec := SelectRandomReviewers_eq_take candidates 1
  have hcap : (effectiveCap 1).toNat = 1 := by decide
  rw [hcap, h] at hspec
  cases candidates with
  | nil => simp at hspec
  | cons c tail =>
    have hmin : min (c :: tail).length 1 = 1 := by simp
    rw [hmin] at hspec
    simp only [List.take_succ_cons, List.take_zero, List.map_cons, List.map_nil,
      List.cons.injEq] at hspec
    exact ⟨c, tail, rfl, hspec.1.symm, hspec.2⟩

theorem find?_of_filter_eq_cons {α : Type} (q : α → Bool) (l : List α) (c : α) (tail : List α)
    (h : l.filter q = c :: tail) : l.find? q = some c := by
  induction l with
  | nil => simp at h
  | cons a l ih =>
    cases hq : q a with
    | true =>
      rw [List.filter_cons_of_pos hq] at h
      rw [List.find?_cons_of_pos _ hq]
      exact congrArg some (List.cons.inj h).1
    | false =>
      have hq' : ¬ q a = true := by simp [hq]
      rw [List.filter_cons_of_neg hq'] at h
      rw [List.find?_cons_of_neg _ hq']
      exact ih h

theorem length_filter_ne_of_nodup (l : List String) (a : String) (hnd : l.Nodup) (ha : a ∈ l) :
    (l.filter fun x => decide (x ≠ a)).length + 1 = l.length := by
  have hfil : (l.filter fun x => decide (x ≠ a)) = l.erase a := by
    rw [hnd.erase_eq_filter]
    apply List.filter_congr
    intro x _
    by_cases hx : x = a <;> simp [hx]
  rw [hfil, List.length_erase_of_mem ha]
  have := List.length_pos_of_mem ha
  omega

/-- A successful `PullRequestRepo.ReassignReviewer` commits the removal of the
rows of the old reviewer and the row of the new one, and nothing else. -/
theorem persistent.ReassignReviewer_ok (prID oldReviewerID newReviewerID : String) (db db' : DB)
    (h : PullRequestRepo.ReassignReviewer prID oldReviewerID newReviewerID db = (none, db')) :
    db'.tables =
      { db.tables with
        pr_reviewers :=
          (db.tables.pr_reviewers.filter fun row =>
            !(decide (row.pull_request_id = prID) && decide (row.reviewer_id = oldReviewerID)))
          ++ [⟨prID, newReviewerID⟩] } := by
  unfold PullRequestRepo.ReassignReviewer at h
  have hs1 := DB.step_tables db
  rcases hstep1 : db.step with ⟨r1, d1⟩
  rw [hstep1] at h hs1
  cases r1 with
  | some e => simp at h
  | none =>
    simp only at h hs1
    have hs2 := DB.step_tables d1
    rcases hstep2 : d1.step with ⟨r2, d2⟩
    rw [hstep2] at h hs2
    cases r2 with
    | some e => simp at h
    | none =>
      simp only at h hs2
      split at h
      · simp at h
      · have hs3 := DB.step_tables d2
        rcases hstep3 : d2.step with ⟨r3, d3⟩
        rw [hstep3] at h hs3
        cases r3 with
        | some e => simp at h
        | none =>
          simp only at h hs3
          rcases hstep4 : d3.step with ⟨r4, d4⟩
          rw [hstep4] at h
          cases r4 with
          | some e => simp at h
          | none =>
            simp only [Prod.mk.injEq, true_and] at h
            rw [← h]
            simp only
            rw [hs2, hs1]

/-- The reviewer ids of a pull request, unsorted, after the swap of the storage
operation: the old id filtered out and the new id appended. -/
theorem persistent.rawIDs_swap (prID oldReviewerID newReviewerID : String)
    (rows : List ReviewerRow) :
    (((rows.filter fun (row : ReviewerRow) =>
          !(decide (row.pull_request_id = prID) && decide (row.reviewer_id = oldReviewerID)))
        ++ [(⟨prID, newReviewerID⟩ : ReviewerRow)]).filter
          fun (row : ReviewerRow) => decide (row.pull_request_id = prID)).map
        (fun (row : ReviewerRow) => row.reviewer_id)
      = (((rows.filter fun (row : ReviewerRow) => decide (row.pull_request_id = prID)).map
          fun (row : ReviewerRow) => row.reviewer_id).filter
            fun id => decide (id ≠ oldReviewerID))
        ++ [newReviewerID] := by
  rw [List.filter_append, List.map_append]
  congr 1
  · rw [List.filter_filter, List.filter_map, List.filter_filter]
    congr 1
    apply List.filter_congr
    intro row _
    by_cases hp : row.pull_request_id = prID <;>
      by_cases ho : row.reviewer_id = oldReviewerID <;> simp [hp, ho]
  · simp

theorem persistent.reviewerIDsOf_perm (tables : Tables) (prID : String) :
    (reviewerIDsOf tables prID).Perm
      ((tables.pr_reviewers.filter fun row => decide (row.pull_request_id = prID)).map
        fun row => row.reviewer_id) :=
  List.perm_insertionSort _ _

/-- What a successful `ReassignReviewer` on the PostgreSQL repositories read
and wrote, in terms of the committed rows before the call. -/
theorem ReassignReviewer_ok_rows (clock : Time) (prID oldReviewerID : String) (db db' : DB)
    (pr' : PullRequest) (newReviewerID : String)
    (hok : (pullrequest.New clock).ReassignReviewer prID oldReviewerID db
            = ((pr', newReviewerID, none), db')) :
    ∃ oldReviewer c tail,
      (db.tables.users.find? fun u => decide (u.UserID = oldReviewerID)) = some oldReviewer
      ∧ oldReviewerID ∈ reviewerIDsOf db.tables prID
      ∧ (activeTeamMembers db.tables.users oldReviewer.TeamName oldReviewerID).filter
          (fun u => !containsID (reviewerIDsOf db.tables prID) u.UserID) = c :: tail
      ∧ c.UserID = newReviewerID
      ∧ db'.tables =
          { db.tables with
            pr_reviewers :=
              (db.tables.pr_reviewers.filter fun row =>
                !(decide (row.pull_request_id = prID)
                  && decide (row.reviewer_id = oldReviewerID)))
              ++ [⟨prID, newReviewerID⟩] }
      ∧ pr'.AssignedReviewers = reviewerIDsOf db'.tables prID := by
  obtain ⟨pr, s1, oldReviewer, s2, candidates, s3, s4, rest, h0, -, hin, h1, h2, hsel, h3, h4⟩ :=
    ReassignReviewer_ok_inv _ prID oldReviewerID db db' pr' newReviewerID hok
  change persistent.PullRequestRepo.GetPR prID db = _ at h0
  change persistent.UserRepo.GetUser oldReviewerID s1 = _ at h1
  change persistent.UserRepo.GetActiveTeamMembers oldReviewer.TeamName oldReviewerID s2 = _ at h2
  change persistent.PullRequestRepo.ReassignReviewer prID oldReviewerID newReviewerID s3 = _ at h3
  change persistent.PullRequestRepo.GetPR prID s4 = _ at h4
  obtain ⟨⟨row, -, hpr⟩, ht1⟩ := GetPR_ok prID db s1 pr h0
  obtain ⟨hfind, ht2⟩ := GetUser_ok oldReviewerID s1 s2 oldReviewer h1
  obtain ⟨hcands, ht3⟩ := GetActiveTeamMembers_ok _ _ s2 s3 candidates h2
  have hrev : pr.AssignedReviewers = reviewerIDsOf db.tables prID := by rw [hpr]; rfl
  obtain ⟨c, tail, hcons, hc, -⟩ := SelectRandomReviewers_one _ _ _ hsel
  have ht4 := ReassignReviewer_ok prID oldReviewerID newReviewerID s3 s4 h3
  obtain ⟨⟨row', -, hpr'⟩, ht5⟩ := GetPR_ok prID s4 db' pr' h4
  have hs3 : s3.tables = db.tables := by rw [ht3, ht2, ht1]
  refine ⟨oldReviewer, c, tail, ?_, ?_, ?_, hc, ?_, ?_⟩
  · rw [← ht1]; exact hfind
  · rw [← hrev]; exact hin
  · rw [← hrev, ← ht1, ← ht2, ← hcands]; exact hcons
  · rw [ht5, ht4, hs3]
  · rw [hpr', ht5]; rfl

/-- C12: for every successful `ReassignReviewer(pr, old)`, the returned new
reviewer id is the `UserID` of the first row, in the order of the users table,
that is an active member of the team recorded on the old reviewer's user
record and is not among the pull request's currently assigned reviewers. -/
theorem ReassignReviewer_picks_first (clock : Time) (prID oldReviewerID : String) (db db' : DB)
    (pr' : PullRequest) (newReviewerID : String)
    (hok : (pullrequest.New clock).ReassignReviewer prID oldReviewerID db
            = ((pr', newReviewerID, none), db')) :
    ∃ oldReviewer c,
      (db.tables.users.find? fun u => decide (u.UserID = oldReviewerID)) = some oldReviewer
      ∧ ((activeTeamMembers db.tables.users oldReviewer.TeamName oldReviewerID).find? fun u =>
            decide (u.UserID ∉ reviewerIDsOf db.tables prID)) = some c
      ∧ (db.tables.users.find? fun u =>
            decide (u.TeamName = oldReviewer.TeamName) && decide (u.IsActive = true)
              && decide (u.UserID ∉ reviewerIDsOf db.tables prID)) = some c
      ∧ newReviewerID = c.UserID := by
  obtain ⟨oldReviewer, c, tail, hfind, hin, hcons, hc, -, -⟩ :=
    ReassignReviewer_ok_rows clock prID oldReviewerID db db' pr' newReviewerID hok
  have hpred : ∀ u : User, (!containsID (reviewerIDsOf db.tables prID) u.UserID)
      = decide (u.UserID ∉ reviewerIDsOf db.tables prID) := by
    intro u
    by_cases hmem : u.UserID ∈ reviewerIDsOf db.tables prID
    · simp [hmem, (containsID_iff _ _).mpr hmem]
    · cases hcc : containsID (reviewerIDsOf db.tables prID) u.UserID
      · simp [hmem]
      · exact absurd ((containsID_iff _ _).mp hcc) hmem
  refine ⟨oldReviewer, c, hfind, ?_, ?_, hc.symm⟩
  · apply find?_of_filter_eq_cons _ _ c tail
    rw [← hcons]
    exact List.filter_congr fun u _ => (hpred u).symm
  apply find?_of_filter_eq_cons _ _ c tail
  rw [← hcons]
  unfold activeTeamMembers
  rw [List.filter_filter]
  apply List.filter_congr
  intro u _
  by_cases hmem : u.UserID ∈ reviewerIDsOf db.tables prID
  · have : containsID (reviewerIDsOf db.tables prID) u.UserID = true :=
      (containsID_iff _ _).mpr hmem
    simp [hmem, this]
  · have hne : u.UserID ≠ oldReviewerID := fun h => hmem (h ▸ hin)
    have : containsID (reviewerIDsOf db.tables prID) u.UserID = false := by
      cases hcc : containsID (reviewerIDsOf db.tables prID) u.UserID
      · rfl
      · exact absurd ((containsID_iff _ _).mp hcc) hmem
    simp [hmem, this, hne]

theorem ReassignReviewer_picks_first_witness :
    ∃ oldReviewer c,
      (backendFourDB.tables.users.find? fun u => decide (u.UserID = "u2")) = some oldReviewer
      ∧ ((activeTeamMembers backendFourDB.tables.users oldReviewer.TeamName "u2").find? fun u =>
            decide (u.UserID ∉ reviewerIDsOf backendFourDB.tables "pr-1")) = some c
      ∧ (backendFourDB.tables.users.find? fun u =>
            decide (u.TeamName = oldReviewer.TeamName) && decide (u.IsActive = true)
              && decide (u.UserID ∉ reviewerIDsOf backendFourDB.tables "pr-1")) = some c
      ∧ ((pullrequest.New 7).ReassignReviewer "pr-1" "u2" backendFourDB).1.2.1 = c.UserID :=
  ReassignReviewer_picks_first 7 "pr-1" "u2" backendFourDB
    ((pullrequest.New 7).ReassignReviewer "pr-1" "u2" backendFourDB).2
    ((pullrequest.New 7).ReassignReviewer "pr-1" "u2" backendFourDB).1.1
    ((pullrequest.New 7).ReassignReviewer "pr-1" "u2" backendFourDB).1.2.1
    (by decide)

/-- C11: for every state in which the reviewer set of the pull request has no
duplicates, after a successful `ReassignReviewer(pr, old)` returning `new`: the
pull request returned, which is the one the store now holds, does not list
`old`, lists `new`, has as many reviewers as before the call, and `new` was not
a reviewer before the call. -/
theorem ReassignReviewer_swaps (clock : Time) (prID oldReviewerID : String) (db db' : DB)
    (pr' : PullRequest) (newReviewerID : String)
    (hnodup : (reviewerIDsOf db.tables prID).Nodup)
    (hok : (pullrequest.New clock).ReassignReviewer prID oldReviewerID db
            = ((pr', newReviewerID, none), db')) :
    oldReviewerID ∉ pr'.AssignedReviewers
      ∧ newReviewerID ∈ pr'.AssignedReviewers
      ∧ pr'.AssignedReviewers.length = (reviewerIDsOf db.tables prID).length
      ∧ newReviewerID ∉ reviewerIDsOf db.tables prID
      ∧ pr'.AssignedReviewers = reviewerIDsOf db'.tables prID := by
  obtain ⟨oldReviewer, c, tail, -, hin, hcons, hc, ht, hrev'⟩ :=
    ReassignReviewer_ok_rows clock prID oldReviewerID db db' pr' newReviewerID hok
  have hnew : newReviewerID ∉ reviewerIDsOf db.tables prID := by
    have hmem : c ∈ (activeTeamMembers db.tables.users oldReviewer.TeamName oldReviewerID).filter
        (fun u => !containsID (reviewerIDsOf db.tables prID) u.UserID) := by
      rw [hcons]; exact List.mem_cons_self _ _
    have hcc := (List.mem_filter.mp hmem).2
    intro hm
    rw [← hc] at hm
    rw [(containsID_iff _ _).mpr hm] at hcc
    exact Bool.noConfusion hcc
  have hne : newReviewerID ≠ oldReviewerID := fun h => hnew (h ▸ hin)
  have hperm := reviewerIDsOf_perm db.tables prID
  have hperm' := reviewerIDsOf_perm db'.tables prID
  rw [← hrev', ht] at hperm'
  simp only at hperm'
  rw [rawIDs_swap] at hperm'
  have hraw_nodup := (hperm.nodup_iff).mp hnodup
  have hraw_in := (hperm.mem_iff).mp hin
  refine ⟨?_, ?_, ?_, hnew, hrev'⟩
  · intro hold
    have := (hperm'.mem_iff).mp hold
    rcases List.mem_append.mp this with h | h
    · have := (List.mem_filter.mp h).2
      simp at this
    · exact hne (List.mem_singleton.mp h).symm
  · exact (hperm'.mem_iff).mpr (List.mem_append_right _ (List.mem_singleton.mpr rfl))
  · rw [hperm'.length_eq, hperm.length_eq, List.length_append, List.length_singleton]
    exact length_filter_ne_of_nodup _ _ hraw_nodup hraw_in

theorem ReassignReviewer_swaps_witness :
    "u2" ∉ ((pullrequest.New 7).ReassignReviewer "pr-1" "u2" backendFourDB).1.1.AssignedReviewers
      ∧ ((pullrequest.New 7).ReassignReviewer "pr-1" "u2" backendFourDB).1.2.1
          ∈ ((pullrequest.New 7).ReassignReviewer "pr-1" "u2" backendFourDB).1.1.AssignedReviewers
      ∧ ((pullrequest.New 7).ReassignReviewer "pr-1" "u2"
          backendFourDB).1.1.AssignedReviewers.length
          = (reviewerIDsOf backendFourDB.tables "pr-1").length :=
  have h := ReassignReviewer_swaps 7 "pr-1" "u2" backendFourDB
    ((pullrequest.New 7).ReassignReviewer "pr-1" "u2" backendFourDB).2
    ((pullrequest.New 7).ReassignReviewer "pr-1" "u2" backendFourDB).1.1
    ((pullrequest.New 7).ReassignReviewer "pr-1" "u2" backendFourDB).1.2.1
    (by decide) (by decide)
  ⟨h.1, h.2.1, h.2.2.1⟩

/-! ## Selection of the replacement -/

/-- C29: for every non-empty candidate list `SelectRandomReviewers(candidates, 1)`
returns a list of exactly one id, the id of the first candidate, so the
selection result is never empty and its first element exists: the second
`ErrNoCandidate` branch of `ReassignReviewer` cannot be taken. -/
theorem SelectRandomReviewers_singleton (candidates : List User) (h : candidates ≠ []) :
    (SelectRandomReviewers candidates 1).length = 1
      ∧ SelectRandomReviewers candidates 1 ≠ []
      ∧ ∃ c tail, candidates = c :: tail ∧ SelectRandomReviewers candidates 1 = [c.UserID] := by
  cases candidates with
  | nil => exact absurd rfl h
  | cons c tail =>
    have hsel : SelectRandomReviewers (c :: tail) 1 = [c.UserID] := by
      rw [SelectRandomReviewers_eq_take]
      have hcap : (effectiveCap 1).toNat = 1 := by decide
      have hmin : min (c :: tail).length 1 = 1 := by simp
      rw [hcap, hmin]
      rfl
    rw [hsel]
    exact ⟨rfl, by simp, c, tail, rfl, rfl⟩

theorem SelectRandomReviewers_singleton_witness :
    SelectRandomReviewers [⟨"u3", "Carol", "backend", true⟩, ⟨"u4", "Dave", "backend", true⟩] 1
      ≠ [] :=
  (SelectRandomReviewers_singleton
    [⟨"u3", "Carol", "backend", true⟩, ⟨"u4", "Dave", "backend", true⟩] (by decide)).2.1

/-- C28: for every behaviour of the repositories, a successful
`ReassignReviewer(pr, old)` makes exactly one call of the store's reassign
step, and the new reviewer id it passes differs from `old` and from every id
in the assigned reviewers of the pull request as loaded at the start of the
call. -/
theorem ReassignReviewer_passes_fresh_id {σ : Type} (uc : UseCase σ)
    (prID oldReviewerID : String) (s s' : σ) (pr' : PullRequest) (newReviewerID : String)
    (log : List Call)
    (hok : uc.traced.ReassignReviewer prID oldReviewerID (s, [])
            = ((pr', newReviewerID, none), (s', log))) :
    ∃ pr s1 teamName,
      uc.prRepo.GetPR prID s = (.ok pr, s1)
      ∧ log = [Call.GetPR prID, Call.GetUser oldReviewerID,
          Call.GetActiveTeamMembers teamName oldReviewerID,
          Call.ReassignReviewer prID oldReviewerID newReviewerID, Call.GetPR prID]
      ∧ newReviewerID ≠ oldReviewerID
      ∧ newReviewerID ∉ pr.AssignedReviewers := by
  obtain ⟨pr, ⟨s1, l1⟩, oldReviewer, ⟨s2, l2⟩, candidates, ⟨s3, l3⟩, ⟨s4, l4⟩, rest,
      h0, -, hin, h1, h2, hsel, h3, h4⟩ :=
    ReassignReviewer_ok_inv _ prID oldReviewerID (s, []) (s', log) pr' newReviewerID hok
  rw [traced_GetPR] at h0
  simp only [Prod.mk.injEq, List.nil_append] at h0
  obtain ⟨hg1, hg2, rfl⟩ := h0
  rw [traced_GetUser] at h1
  simp only [Prod.mk.injEq, List.singleton_append] at h1
  obtain ⟨-, -, rfl⟩ := h1
  rw [traced_GetActiveTeamMembers] at h2
  simp only [Prod.mk.injEq, List.cons_append, List.nil_append] at h2
  obtain ⟨-, -, rfl⟩ := h2
  rw [traced_ReassignReviewer] at h3
  simp only [Prod.mk.injEq, List.cons_append, List.nil_append] at h3
  obtain ⟨-, -, rfl⟩ := h3
  rw [traced_GetPR] at h4
  simp only [Prod.mk.injEq, List.cons_append, List.nil_append] at h4
  obtain ⟨-, -, rfl⟩ := h4
  obtain ⟨c, tail, hcons, hc, -⟩ := SelectRandomReviewers_one _ _ _ hsel
  have hnew : newReviewerID ∉ pr.AssignedReviewers := by
    have hmem : c ∈ candidates.filter fun c => !containsID pr.AssignedReviewers c.UserID := by
      rw [hcons]; exact List.mem_cons_self _ _
    have hcc := (List.mem_filter.mp hmem).2
    intro hm
    rw [← hc] at hm
    rw [(containsID_iff _ _).mpr hm] at hcc
    exact Bool.noConfusion hcc
  exact ⟨pr, s1, oldReviewer.TeamName, Prod.ext hg1 hg2, rfl, fun h => hnew (h ▸ hin), hnew⟩

theorem ReassignReviewer_passes_fresh_id_witness :
    ∃ pr s1 teamName,
      (pullrequest.New 7).prRepo.GetPR "pr-1" backendFourDB = (.ok pr, s1)
      ∧ ((pullrequest.New 7).traced.ReassignReviewer "pr-1" "u2" (backendFourDB, [])).2.2
        = [Call.GetPR "pr-1", Call.GetUser "u2", Call.GetActiveTeamMembers teamName "u2",
            Call.ReassignReviewer "pr-1" "u2"
              ((pullrequest.New 7).traced.ReassignReviewer "pr-1" "u2" (backendFourDB, [])).1.2.1,
            Call.GetPR "pr-1"]
      ∧ ((pullrequest.New 7).traced.ReassignReviewer "pr-1" "u2" (backendFourDB, [])).1.2.1 ≠ "u2"
      ∧ ((pullrequest.New 7).traced.ReassignReviewer "pr-1" "u2" (backendFourDB, [])).1.2.1
          ∉ pr.AssignedReviewers :=
  ReassignReviewer_passes_fresh_id (pullrequest.New 7) "pr-1" "u2" backendFourDB
    ((pullrequest.New 7).traced.ReassignReviewer "pr-1" "u2" (backendFourDB, [])).2.1
    ((pullrequest.New 7).traced.ReassignReviewer "pr-1" "u2" (backendFourDB, [])).1.1
    ((pullrequest.New 7).traced.ReassignReviewer "pr-1" "u2" (backendFourDB, [])).1.2.1
    ((pullrequest.New 7).traced.ReassignReviewer "pr-1" "u2" (backendFourDB, [])).2.2
    (by decide)

/-! ## The team and user use cases -/

/-- C25: if the store reports that a team with the name exists, the
`CreateTeam` use case returns exactly `ErrTeamExists` and the existence check
is its only repository call (the store's create is not called); if the store
reports that it does not exist and the store's create fails with error `e`,
`CreateTeam` returns `e` wrapped with its context. -/
theorem CreateTeam_existing_or_failed {σ : Type} (uc : team.UseCase σ) (newTeam : Team)
    (s s1 s2 : σ) (e : Error) :
    (uc.teamRepo.TeamExists newTeam.TeamName s = (.ok true, s1) →
      uc.traced.CreateTeam newTeam (s, [])
        = (some .ErrTeamExists, (s1, [Call.TeamExists newTeam.TeamName])))
    ∧ (uc.teamRepo.TeamExists newTeam.TeamName s = (.ok false, s1) →
        uc.teamRepo.CreateTeam newTeam s1 = (some e, s2) →
          uc.traced.CreateTeam newTeam (s, [])
              = (some (.wrap "TeamUseCase - CreateTeam - CreateTeam" e),
                  (s2, [Call.TeamExists newTeam.TeamName, Call.CreateTeam newTeam]))
            ∧ ∀ target, e.Is target = true →
                (Error.wrap "TeamUseCase - CreateTeam - CreateTeam" e).Is target = true) := by
  refine ⟨fun h => ?_, fun h0 h1 => ⟨?_, fun target ht => Error.Is_wrap _ _ _ ht⟩⟩
  · unfold team.UseCase.CreateTeam
    simp [team.UseCase.traced, TeamRepo.traced, record, h]
  · unfold team.UseCase.CreateTeam
    simp [team.UseCase.traced, TeamRepo.traced, record, h0, h1]

theorem CreateTeam_existing_or_failed_witness :
    team.New.traced.CreateTeam ⟨"backend", [⟨"u9", "Zed", true⟩]⟩ (backendDB, [])
      = (some .ErrTeamExists, (backendDB, [Call.TeamExists "backend"])) :=
  (CreateTeam_existing_or_failed team.New ⟨"backend", [⟨"u9", "Zed", true⟩]⟩
    backendDB backendDB backendDB .ErrNotFound).1 rfl

/-- C26: if the user lookup succeeds and the update succeeds, the `SetIsActive`
use case returns the user it read with `IsActive = b` and `UserID`, `Username`
and `TeamName` unchanged, after exactly the lookup and the update; if the
lookup fails, it returns an error with a zero user and the lookup is its only
repository call (no activity update). -/
theorem SetIsActive_returns_user {σ : Type} (uc : user.UseCase σ) (userID : String) (b : Bool)
    (s s1 s2 : σ) (stored : User) (e : Error) :
    (uc.userRepo.GetUser userID s = (.ok stored, s1) →
      uc.userRepo.SetIsActive userID b s1 = (none, s2) →
        uc.traced.SetIsActive userID b (s, [])
          = (({ UserID := stored.UserID, Username := stored.Username,
                TeamName := stored.TeamName, IsActive := b }, none),
              (s2, [Call.GetUser userID, Call.SetIsActive userID b])))
    ∧ (uc.userRepo.GetUser userID s = (.error e, s1) →
        uc.traced.SetIsActive userID b (s, [])
          = ((User.zero, some (.wrap "UserUseCase - SetIsActive - GetUser" e)),
              (s1, [Call.GetUser userID]))) := by
  refine ⟨fun h0 h1 => ?_, fun h => ?_⟩
  · unfold user.UseCase.SetIsActive
    simp [user.UseCase.traced, UserRepo.traced, record, h0, h1]
  · unfold user.UseCase.SetIsActive
    simp [user.UseCase.traced, UserRepo.traced, record, h]

theorem SetIsActive_returns_user_witness :
    (user.New.traced.SetIsActive "u2" false (backendDB, [])).1
        = (⟨"u2", "Bob", "backend", false⟩, none)
      ∧ (user.New.traced.SetIsActive "u9" false (backendDB, [])).2.2 = [Call.GetUser "u9"] :=
  have h := SetIsActive_returns_user user.New "u2" false backendDB backendDB
    (user.New.SetIsActive "u2" false backendDB).2 ⟨"u2", "Bob", "backend", true⟩ .ErrNotFound
  have h' := SetIsActive_returns_user user.New "u9" false backendDB backendDB backendDB
    ⟨"u2", "Bob", "backend", true⟩ (.wrap "UserRepo - GetUser - Scan" .pgxErrNoRows)
  ⟨congrArg Prod.fst (h.1 rfl rfl), congrArg (fun r => r.2.2) (h'.2 rfl)⟩

/-! ## The create transaction, whatever its outcome -/

theorem persistent.DB.step_none (db d : DB) (h : db.step = (none, d)) :
    d.tables = db.tables ∧ d.faults = db.faults.tail
      ∧ ∀ msg, db.faults.head? ≠ some (some msg) := by
  unfold DB.step at h
  cases hf : db.faults with
  | nil =>
    rw [hf] at h
    simp only [Prod.mk.injEq, true_and] at h
    subst h
    simp [hf]
  | cons f fs =>
    rw [hf] at h
    cases f with
    | none =>
      simp only [Option.map_none', Prod.mk.injEq, true_and] at h
      subst h
      simp
    | some m => simp at h

/-- The reviewer loop never touches the committed rows. -/
theorem persistent.insertReviewers_tables (prID : String) (reviewerIDs : List String) :
    ∀ (tx : Tables) (db : DB),
      (PullRequestRepo.CreatePR.insertReviewers prID reviewerIDs tx db).2.2.tables
        = db.tables := by
  induction reviewerIDs with
  | nil => intro tx db; rfl
  | cons id ids ih =>
    intro tx db
    unfold PullRequestRepo.CreatePR.insertReviewers
    have hs := DB.step_tables db
    rcases hstep : db.step with ⟨r, d⟩
    rw [hstep] at hs
    cases r with
    | some e => exact hs
    | none =>
      simp only at hs ⊢
      rw [ih, hs]

/-- When the reviewer loop succeeds, none of the statements it sent was failed
by the driver. -/
theorem persistent.insertReviewers_faults (prID : String) (reviewerIDs : List String) :
    ∀ (tx tx' : Tables) (db db' : DB),
      PullRequestRepo.CreatePR.insertReviewers prID reviewerIDs tx db = (none, tx', db') →
        (∀ f ∈ db.faults.take reviewerIDs.length, f = none)
          ∧ db'.faults = db.faults.drop reviewerIDs.length := by
  induction reviewerIDs with
  | nil =>
    intro tx tx' db db' h
    simp only [PullRequestRepo.CreatePR.insertReviewers, Prod.mk.injEq, true_and] at h
    obtain ⟨-, rfl⟩ := h
    simp
  | cons id ids ih =>
    intro tx tx' db db' h
    unfold PullRequestRepo.CreatePR.insertReviewers at h
    rcases hstep : db.step with ⟨r, d⟩
    rw [hstep] at h
    cases r with
    | some e => simp at h
    | none =>
      simp only at h
      obtain ⟨h1, h2⟩ := ih _ _ _ _ h
      obtain ⟨-, hf, hhead⟩ := DB.step_none db d hstep
      rw [hf] at h1 h2
      cases hfs : db.faults with
      | nil =>
        rw [hfs] at h2
        simpa using h2
      | cons f fs =>
        rw [hfs] at h1 h2 hhead
        simp only [List.tail_cons] at h1 h2
        refine ⟨?_, by simpa using h2⟩
        intro g hg
        simp only [List.length_cons, List.take_succ_cons, List.mem_cons] at hg
        rcases hg with rfl | hg
        · cases g with
          | none => rfl
          | some m => exact absurd rfl (hhead m)
        · exact h1 g hg

/-- A failed `PullRequestRepo.CreatePR` leaves the committed rows unchanged. -/
theorem persistent.CreatePR_error (now : Time) (pr : PullRequest) (reviewerIDs : List String)
    (db : DB) (e : Error) (h : (PullRequestRepo.CreatePR now pr reviewerIDs db).1 = some e) :
    (PullRequestRepo.CreatePR now pr reviewerIDs db).2.tables = db.tables := by
  unfold PullRequestRepo.CreatePR at h ⊢
  have hs1 := DB.step_tables db
  rcases hstep1 : db.step with ⟨r1, d1⟩
  rw [hstep1] at h hs1
  cases r1 with
  | some e1 => exact hs1
  | none =>
    simp only at h hs1 ⊢
    have hs2 := DB.step_tables d1
    rcases hstep2 : d1.step with ⟨r2, d2⟩
    rw [hstep2] at h hs2
    cases r2 with
    | some e2 => simp only; rw [hs2, hs1]
    | none =>
      simp only at h hs2 ⊢
      split
      · simp only; rw [hs2, hs1]
      · next hany =>
        rw [if_neg hany] at h
        have hins := insertReviewers_tables pr.PullRequestID reviewerIDs
          { d2.tables with
            pull_requests := d2.tables.pull_requests ++
              [{ pull_request_id := pr.PullRequestID
                 pull_request_name := pr.PullRequestName
                 author_id := pr.AuthorID
                 status := pr.Status
                 created_at :=
                   match pr.CreatedAt with
                   | some t => some t
                   | none => some now
                 merged_at := none }] } d2
        rcases hi : PullRequestRepo.CreatePR.insertReviewers pr.PullRequestID reviewerIDs
          { d2.tables with
            pull_requests := d2.tables.pull_requests ++
              [{ pull_request_id := pr.PullRequestID
                 pull_request_name := pr.PullRequestName
                 author_id := pr.AuthorID
                 status := pr.Status
                 created_at :=
                   match pr.CreatedAt with
                   | some t => some t
                   | none => some now
                 merged_at := none }] } d2 with ⟨r3, tx3, d3⟩
        rw [hi] at h hins
        simp only at hins
        cases r3 with
        | some e3 => simp only; rw [hins, hs2, hs1]
        | none =>
          simp only at h ⊢
          have hs4 := DB.step_tables d3
          rcases hstep4 : d3.step with ⟨r4, d4⟩
          rw [hstep4] at h hs4
          cases r4 with
          | some e4 => simp only; rw [hs4, hins, hs2, hs1]
          | none => simp at h


theorem persistent.take_succ_none (l : List (Option String)) (k : Nat)
    (hhead : ∀ msg, l.head? ≠ some (some msg)) (htail : ∀ f ∈ l.tail.take k, f = none) :
    ∀ f ∈ l.take (k + 1), f = none := by
  cases l with
  | nil => simp
  | cons g gs =>
    intro f hf
    simp only [List.take_succ_cons, List.mem_cons] at hf
    rcases hf with rfl | hf
    · cases f with
      | none => rfl
      | some m => exact absurd rfl (hhead m)
    · exact htail f hf

/-- When `PullRequestRepo.CreatePR` returns nil, the driver failed none of the
statements it sent: `Begin`, the insert of the pull request, one insert for
each reviewer id, and `Commit`. -/
theorem persistent.CreatePR_ok_faults (now : Time) (pr : PullRequest) (reviewerIDs : List String)
    (db db' : DB) (h : PullRequestRepo.CreatePR now pr reviewerIDs db = (none, db')) :
    ∀ f ∈ db.faults.take (reviewerIDs.length + 3), f = none := by
  unfold PullRequestRepo.CreatePR at h
  rcases hstep1 : db.step with ⟨r1, d1⟩
  rw [hstep1] at h
  cases r1 with
  | some e => simp at h
  | none =>
    simp only at h
    obtain ⟨-, hf1, hh1⟩ := DB.step_none db d1 hstep1
    rcases hstep2 : d1.step with ⟨r2, d2⟩
    rw [hstep2] at h
    cases r2 with
    | some e => simp at h
    | none =>
      simp only at h
      obtain ⟨-, hf2, hh2⟩ := DB.step_none d1 d2 hstep2
      split at h
      · simp at h
      · rcases hins : PullRequestRepo.CreatePR.insertReviewers pr.PullRequestID reviewerIDs
          { d2.tables with
            pull_requests := d2.tables.pull_requests ++
              [{ pull_request_id := pr.PullRequestID
                 pull_request_name := pr.PullRequestName
                 author_id := pr.AuthorID
                 status := pr.Status
                 created_at :=
                   match pr.CreatedAt with
                   | some t => some t
                   | none => some now
                 merged_at := none }] } d2 with ⟨r3, tx3, d3⟩
        rw [hins] at h
        cases r3 with
        | some e => simp at h
        | none =>
          simp only at h
          obtain ⟨hall, hf3⟩ := insertReviewers_faults _ _ _ _ _ _ hins
          rcases hstep4 : d3.step with ⟨r4, d4⟩
          rw [hstep4] at h
          cases r4 with
          | some e => simp at h
          | none =>
            obtain ⟨-, -, hh4⟩ := DB.step_none d3 d4 hstep4
            have h3 : ∀ f ∈ d2.faults.take (reviewerIDs.length + 1), f = none := by
              intro f hf
              rw [List.take_add] at hf
              rcases List.mem_append.mp hf with hf | hf
              · exact hall f hf
              · rw [← hf3] at hf
                exact take_succ_none d3.faults 0 hh4 (by simp) f hf
            have h2 : ∀ f ∈ d1.faults.take (reviewerIDs.length + 1 + 1), f = none :=
              take_succ_none d1.faults _ hh2 (by rw [← hf2]; exact h3)
            exact take_succ_none db.faults _ hh1 (by rw [← hf1]; exact h2)

/-- C21: `PullRequestRepo.CreatePR` is all-or-nothing over the committed rows.
If it returns an error the committed rows are unchanged: neither the pull
request row nor any reviewer row of the call is there.  If it returns nil, the
driver failed none of its statements, and the committed rows are the old ones
plus the pull request row and one reviewer row for each given reviewer id. -/
theorem CreatePR_all_or_nothing (now : Time) (pr : PullRequest) (reviewerIDs : List String)
    (db : DB) :
    (∀ e, (persistent.PullRequestRepo.CreatePR now pr reviewerIDs db).1 = some e →
      (persistent.PullRequestRepo.CreatePR now pr reviewerIDs db).2.tables = db.tables)
    ∧ ((persistent.PullRequestRepo.CreatePR now pr reviewerIDs db).1 = none →
        (∀ f ∈ db.faults.take (reviewerIDs.length + 3), f = none)
        ∧ (persistent.PullRequestRepo.CreatePR now pr reviewerIDs db).2.tables.pull_requests
            = db.tables.pull_requests ++
                [{ pull_request_id := pr.PullRequestID
                   pull_request_name := pr.PullRequestName
                   author_id := pr.AuthorID
                   status := pr.Status
                   created_at := some (pr.CreatedAt.getD now)
                   merged_at := none }]
        ∧ (persistent.PullRequestRepo.CreatePR now pr reviewerIDs db).2.tables.pr_reviewers
            = db.tables.pr_reviewers
                ++ reviewerIDs.map (fun id => (⟨pr.PullRequestID, id⟩ : ReviewerRow))
        ∧ ∀ id ∈ reviewerIDs, (⟨pr.PullRequestID, id⟩ : ReviewerRow)
            ∈ (persistent.PullRequestRepo.CreatePR now pr reviewerIDs db).2.tables.pr_reviewers)
    := by
  refine ⟨fun e he => CreatePR_error now pr reviewerIDs db e he, fun hnone => ?_⟩
  have hres : persistent.PullRequestRepo.CreatePR now pr reviewerIDs db
      = (none, (persistent.PullRequestRepo.CreatePR now pr reviewerIDs db).2) :=
    Prod.ext hnone rfl
  have ht := CreatePR_ok now pr reviewerIDs db _ hres
  refine ⟨CreatePR_ok_faults now pr reviewerIDs db _ hres, by rw [ht], by rw [ht], ?_⟩
  intro id hid
  rw [ht]
  exact List.mem_append_right _ (List.mem_map.mpr ⟨id, hid, rfl⟩)

/-! ## The effect of each operation on the pull-request tables -/

theorem persistent.TeamExists_tables (teamName : String) (db : DB) :
    (TeamRepo.TeamExists teamName db).2.tables = db.tables := by
  unfold TeamRepo.TeamExists
  have := DB.step_tables db
  rcases h : db.step with ⟨r, d⟩
  rw [h] at this
  cases r with
  | some e => simpa using this
  | none =>
    simp only
    split <;> simpa using this

theorem persistent.insertMembers_frame (teamName : String) (members : List TeamMember) :
    ∀ (tx : Tables) (db : DB),
      (TeamRepo.CreateTeam.insertMembers teamName members tx db).2.1.pull_requests
          = tx.pull_requests
        ∧ (TeamRepo.CreateTeam.insertMembers teamName members tx db).2.1.pr_reviewers
          = tx.pr_reviewers
        ∧ (TeamRepo.CreateTeam.insertMembers teamName members tx db).2.2.tables = db.tables := by
  induction members with
  | nil => intro tx db; exact ⟨rfl, rfl, rfl⟩
  | cons m ms ih =>
    intro tx db
    unfold TeamRepo.CreateTeam.insertMembers
    have hs := DB.step_tables db
    rcases hstep : db.step with ⟨r, d⟩
    rw [hstep] at hs
    cases r with
    | some e => exact ⟨rfl, rfl, hs⟩
    | none =>
      simp only at hs ⊢
      obtain ⟨h1, h2, h3⟩ := ih
        { tx with users := upsertUser (User.mk m.UserID m.Username teamName m.IsActive) tx.users }
        d
      exact ⟨h1, h2, by rw [h3, hs]⟩

/-- `TeamRepo.CreateTeam` never changes the pull requests or their reviewers. -/
theorem persistent.CreateTeam_frame (newTeam : Team) (db : DB) :
    (TeamRepo.CreateTeam newTeam db).2.tables.pull_requests = db.tables.pull_requests
      ∧ (TeamRepo.CreateTeam newTeam db).2.tables.pr_reviewers = db.tables.pr_reviewers := by
  unfold TeamRepo.CreateTeam
  have hs1 := DB.step_tables db
  rcases hstep1 : db.step with ⟨r1, d1⟩
  rw [hstep1] at hs1
  cases r1 with
  | some e => simp only at hs1 ⊢; rw [hs1]; exact ⟨rfl, rfl⟩
  | none =>
    simp only at hs1 ⊢
    have hs2 := DB.step_tables d1
    rcases hstep2 : d1.step with ⟨r2, d2⟩
    rw [hstep2] at hs2
    cases r2 with
    | some e => simp only at hs2 ⊢; rw [hs2, hs1]; exact ⟨rfl, rfl⟩
    | none =>
      simp only at hs2 ⊢
      split
      · simp only; rw [hs2, hs1]; exact ⟨rfl, rfl⟩
      · obtain ⟨h1, h2, h3⟩ := insertMembers_frame newTeam.TeamName newTeam.Members
          { d2.tables with teams := d2.tables.teams ++ [newTeam.TeamName] } d2
        rcases hins : TeamRepo.CreateTeam.insertMembers newTeam.TeamName newTeam.Members
          { d2.tables with teams := d2.tables.teams ++ [newTeam.TeamName] } d2 with ⟨r3, tx3, d3⟩
        rw [hins] at h1 h2 h3
        simp only at h1 h2 h3
        cases r3 with
        | some e => simp only; rw [h3, hs2, hs1]; exact ⟨rfl, rfl⟩
        | none =>
          simp only
          have hs4 := DB.step_tables d3
          rcases hstep4 : d3.step with ⟨r4, d4⟩
          rw [hstep4] at hs4
          cases r4 with
          | some e => simp only at hs4 ⊢; rw [hs4, h3, hs2, hs1]; exact ⟨rfl, rfl⟩
          | none => simp only; rw [h1, h2, hs2, hs1]; exact ⟨rfl, rfl⟩

/-- The team use case never changes the pull requests or their reviewers. -/
theorem team_CreateTeam_frame (newTeam : Team) (db : DB) :
    (team.New.CreateTeam newTeam db).2.tables.pull_requests = db.tables.pull_requests
      ∧ (team.New.CreateTeam newTeam db).2.tables.pr_reviewers = db.tables.pr_reviewers := by
  unfold team.UseCase.CreateTeam
  have h0 := TeamExists_tables newTeam.TeamName db
  change (team.New.teamRepo.TeamExists newTeam.TeamName db).2.tables = _ at h0
  rcases he : team.New.teamRepo.TeamExists newTeam.TeamName db with ⟨r0, d0⟩
  rw [he] at h0
  simp only at h0
  cases r0 with
  | error e => simp only; rw [h0]; exact ⟨rfl, rfl⟩
  | ok b =>
    cases b with
    | true => simp only [if_true]; rw [h0]; exact ⟨rfl, rfl⟩
    | false =>
      simp only [Bool.false_eq_true, if_false]
      have h1 := CreateTeam_frame newTeam d0
      change (team.New.teamRepo.CreateTeam newTeam d0).2.tables.pull_requests = _
        ∧ (team.New.teamRepo.CreateTeam newTeam d0).2.tables.pr_reviewers = _ at h1
      rcases hc : team.New.teamRepo.CreateTeam newTeam d0 with ⟨r1, d1⟩
      rw [hc] at h1
      simp only at h1
      rw [h0] at h1
      cases r1 <;> exact h1

theorem persistent.SetIsActive_frame (userID : String) (isActive : Bool) (db : DB) :
    (UserRepo.SetIsActive userID isActive db).2.tables.pull_requests = db.tables.pull_requests
      ∧ (UserRepo.SetIsActive userID isActive db).2.tables.pr_reviewers
          = db.tables.pr_reviewers := by
  unfold UserRepo.SetIsActive
  have hs := DB.step_tables db
  rcases hstep : db.step with ⟨r, d⟩
  rw [hstep] at hs
  cases r with
  | some e => simp only at hs ⊢; rw [hs]; exact ⟨rfl, rfl⟩
  | none =>
    simp only at hs ⊢
    split <;> (simp only; rw [hs]; exact ⟨rfl, rfl⟩)

/-- The user use case never changes the pull requests or their reviewers. -/
theorem user_SetIsActive_frame (userID : String) (isActive : Bool) (db : DB) :
    (user.New.SetIsActive userID isActive db).2.tables.pull_requests = db.tables.pull_requests
      ∧ (user.New.SetIsActive userID isActive db).2.tables.pr_reviewers
          = db.tables.pr_reviewers := by
  unfold user.UseCase.SetIsActive
  have h0 := GetUser_tables userID db
  change (user.New.userRepo.GetUser userID db).2.tables = _ at h0
  rcases hg : user.New.userRepo.GetUser userID db with ⟨r0, d0⟩
  rw [hg] at h0
  simp only at h0
  cases r0 with
  | error e => simp only; rw [h0]; exact ⟨rfl, rfl⟩
  | ok u =>
    simp only
    have h1 := SetIsActive_frame userID isActive d0
    change (user.New.userRepo.SetIsActive userID isActive d0).2.tables.pull_requests = _
      ∧ (user.New.userRepo.SetIsActive userID isActive d0).2.tables.pr_reviewers = _ at h1
    rcases hc : user.New.userRepo.SetIsActive userID isActive d0 with ⟨r1, d1⟩
    rw [hc] at h1
    simp only at h1
    rw [h0] at h1
    cases r1 <;> exact h1

/-- A successful `PullRequestRepo.CreatePR` found no row with the id. -/
theorem persistent.CreatePR_ok_fresh (now : Time) (pr : PullRequest) (reviewerIDs : List String)
    (db db' : DB) (h : PullRequestRepo.CreatePR now pr reviewerIDs db = (none, db')) :
    ∀ row ∈ db.tables.pull_requests, row.pull_request_id ≠ pr.PullRequestID := by
  unfold PullRequestRepo.CreatePR at h
  have hs1 := DB.step_tables db
  rcases hstep1 : db.step with ⟨r1, d1⟩
  rw [hstep1] at h hs1
  cases r1 with
  | some e => simp at h
  | none =>
    simp only at h hs1
    have hs2 := DB.step_tables d1
    rcases hstep2 : d1.step with ⟨r2, d2⟩
    rw [hstep2] at h hs2
    cases r2 with
    | some e => simp at h
    | none =>
      simp only at h hs2
      split at h
      · simp at h
      · next hany =>
        rw [hs2, hs1] at hany
        intro row hrow hid
        exact hany (List.any_eq_true.mpr ⟨row, hrow, by simp [hid]⟩)

/-- The committed rows after the `CreatePR` use case, whatever it returns:
unchanged, or the old rows plus the new pull request, OPEN and not merged, and
one reviewer row for each selected member of the author's team. -/
theorem CreatePR_effect (clock now : Time) (prID prName authorID : String) (db : DB) :
    ((pullrequest.New clock).CreatePR now prID prName authorID db).2.tables = db.tables
    ∨ ∃ author,
        (db.tables.users.find? fun u => decide (u.UserID = authorID)) = some author
        ∧ (∀ row ∈ db.tables.pull_requests, row.pull_request_id ≠ prID)
        ∧ ((pullrequest.New clock).CreatePR now prID prName authorID db).2.tables
            = { db.tables with
                pull_requests := db.tables.pull_requests ++
                  [⟨prID, prName, authorID, PullRequestStatusOpen, some now, none⟩]
                pr_reviewers := db.tables.pr_reviewers ++
                  (SelectRandomReviewers
                    (activeTeamMembers db.tables.users author.TeamName authorID) 2).map
                    (fun id => (⟨prID, id⟩ : ReviewerRow)) } := by
  cases hres : ((pullrequest.New clock).CreatePR now prID prName authorID db).1.2 with
  | none =>
    right
    have hok : (pullrequest.New clock).CreatePR now prID prName authorID db
        = ((((pullrequest.New clock).CreatePR now prID prName authorID db).1.1, none),
            ((pullrequest.New clock).CreatePR now prID prName authorID db).2) :=
      Prod.ext (Prod.ext rfl hres) rfl
    obtain ⟨s0, author, s1, candidates, s2, h0, h1, h2, hpr, hc⟩ :=
      CreatePR_ok_inv _ now prID prName authorID db _ _ hok
    change persistent.PullRequestRepo.PRExists prID db = _ at h0
    change persistent.UserRepo.GetUser authorID s0 = _ at h1
    change persistent.UserRepo.GetActiveTeamMembers author.TeamName authorID s1 = _ at h2
    have ht0 : s0.tables = db.tables := by
      have := PRExists_tables prID db
      rw [h0] at this
      exact this
    obtain ⟨hfind, ht1⟩ := GetUser_ok authorID s0 s1 author h1
    obtain ⟨hcands, ht2⟩ := GetActiveTeamMembers_ok _ _ s1 s2 candidates h2
    have hs2 : s2.tables = db.tables := by rw [ht2, ht1, ht0]
    have hcands' : candidates = activeTeamMembers db.tables.users author.TeamName authorID := by
      rw [hcands, ht1, ht0]
    rw [hpr] at hc
    have hfresh := CreatePR_ok_fresh clock _ _ s2 _ hc
    have ht := CreatePR_ok clock _ _ s2 _ hc
    rw [hs2] at hfresh ht
    refine ⟨author, by rw [← ht0]; exact hfind, hfresh, ?_⟩
    rw [ht, hcands']
    rfl
  | some e =>
    left
    unfold UseCase.CreatePR at hres ⊢
    have h0 := PRExists_tables prID db
    change ((pullrequest.New clock).prRepo.PRExists prID db).2.tables = _ at h0
    rcases hg : (pullrequest.New clock).prRepo.PRExists prID db with ⟨r0, d0⟩
    rw [hg] at h0 hres
    simp only at h0
    cases r0 with
    | error e0 => exact h0
    | ok b =>
      cases b with
      | true => exact h0
      | false =>
        simp only [Bool.false_eq_true, if_false] at hres ⊢
        have h1 := GetUser_tables authorID d0
        change ((pullrequest.New clock).userRepo.GetUser authorID d0).2.tables = _ at h1
        rcases hu : (pullrequest.New clock).userRepo.GetUser authorID d0 with ⟨r1, d1⟩
        rw [hu] at h1 hres
        simp only at h1
        cases r1 with
        | error e1 => simp only; rw [h1, h0]
        | ok author =>
          simp only at hres ⊢
          have h2 := GetActiveTeamMembers_tables author.TeamName authorID d1
          change ((pullrequest.New clock).userRepo.GetActiveTeamMembers author.TeamName
            authorID d1).2.tables = _ at h2
          rcases ha : (pullrequest.New clock).userRepo.GetActiveTeamMembers author.TeamName
            authorID d1 with ⟨r2, d2⟩
          rw [ha] at h2 hres
          simp only at h2
          cases r2 with
          | error e2 => simp only; rw [h2, h1, h0]
          | ok candidates =>
            simp only at hres ⊢
            rcases hc : (pullrequest.New clock).prRepo.CreatePR
              { PullRequestID := prID, PullRequestName := prName, AuthorID := authorID,
                Status := PullRequestStatusOpen,
                AssignedReviewers := SelectRandomReviewers candidates 2,
                CreatedAt := some now, MergedAt := none }
              (SelectRandomReviewers candidates 2) d2 with ⟨r3, d3⟩
            rw [hc] at hres
            cases r3 with
            | none => simp at hres
            | some e3 =>
              simp only
              have herr := CreatePR_error clock
                { PullRequestID := prID, PullRequestName := prName, AuthorID := authorID,
                  Status := PullRequestStatusOpen,
                  AssignedReviewers := SelectRandomReviewers candidates 2,
                  CreatedAt := some now, MergedAt := none }
                (SelectRandomReviewers candidates 2) d2 e3
                (by
                  change ((pullrequest.New clock).prRepo.CreatePR _ _ d2).1 = _
                  rw [hc])
              change ((pullrequest.New clock).prRepo.CreatePR _ _ d2).2.tables = _ at herr
              rw [hc] at herr
              simp only at herr
              rw [herr, h2, h1, h0]

/-- A failed `PullRequestRepo.ReassignReviewer` leaves the committed rows unchanged. -/
theorem persistent.ReassignReviewer_error (prID oldReviewerID newReviewerID : String) (db : DB)
    (e : Error)
    (h : (PullRequestRepo.ReassignReviewer prID oldReviewerID newReviewerID db).1 = some e) :
    (PullRequestRepo.ReassignReviewer prID oldReviewerID newReviewerID db).2.tables
      = db.tables := by
  unfold PullRequestRepo.ReassignReviewer at h ⊢
  have hs1 := DB.step_tables db
  rcases hstep1 : db.step with ⟨r1, d1⟩
  rw [hstep1] at h hs1
  cases r1 with
  | some e1 => exact hs1
  | none =>
    simp only at h hs1 ⊢
    have hs2 := DB.step_tables d1
    rcases hstep2 : d1.step with ⟨r2, d2⟩
    rw [hstep2] at h hs2
    cases r2 with
    | some e2 => simp only; rw [hs2, hs1]
    | none =>
      simp only at h hs2 ⊢
      split
      · simp only; rw [hs2, hs1]
      · next hz =>
        rw [if_neg hz] at h
        have hs3 := DB.step_tables d2
        rcases hstep3 : d2.step with ⟨r3, d3⟩
        rw [hstep3] at h hs3
        cases r3 with
        | some e3 => simp only; rw [hs3, hs2, hs1]
        | none =>
          simp only at h hs3 ⊢
          have hs4 := DB.step_tables d3
          rcases hstep4 : d3.step with ⟨r4, d4⟩
          rw [hstep4] at h hs4
          cases r4 with
          | some e4 => simp only; rw [hs4, hs3, hs2, hs1]
          | none => simp at h

/-- The committed rows after the `ReassignReviewer` use case, whatever it
returns: unchanged, or the rows of the old reviewer for the pull request
replaced by one row for the first candidate left by the filter. -/
theorem ReassignReviewer_effect (clock : Time) (prID oldReviewerID : String) (db : DB) :
    ((pullrequest.New clock).ReassignReviewer prID oldReviewerID db).2.tables = db.tables
    ∨ ∃ oldReviewer c tail,
        (db.tables.users.find? fun u => decide (u.UserID = oldReviewerID)) = some oldReviewer
        ∧ oldReviewerID ∈ reviewerIDsOf db.tables prID
        ∧ (∃ row, (db.tables.pull_requests.find? fun r => decide (r.pull_request_id = prID))
              = some row ∧ row.status ≠ PullRequestStatusMerged)
        ∧ (activeTeamMembers db.tables.users oldReviewer.TeamName oldReviewerID).filter
            (fun u => !containsID (reviewerIDsOf db.tables prID) u.UserID) = c :: tail
        ∧ ((pullrequest.New clock).ReassignReviewer prID oldReviewerID db).2.tables
            = { db.tables with
                pr_reviewers :=
                  (db.tables.pr_reviewers.filter fun row =>
                    !(decide (row.pull_request_id = prID)
                      && decide (row.reviewer_id = oldReviewerID)))
                  ++ [⟨prID, c.UserID⟩] } := by
  unfold UseCase.ReassignReviewer
  have h0 := GetPR_tables prID db
  change ((pullrequest.New clock).prRepo.GetPR prID db).2.tables = _ at h0
  rcases hg : (pullrequest.New clock).prRepo.GetPR prID db with ⟨r0, d0⟩
  rw [hg] at h0
  simp only at h0
  cases r0 with
  | error e0 => left; exact h0
  | ok pr =>
    simp only
    obtain ⟨⟨row, hrow, hpr⟩, -⟩ := GetPR_ok prID db d0 pr hg
    have hrev : pr.AssignedReviewers = reviewerIDsOf db.tables prID := by
      rw [hpr]; rfl
    have hstatus : pr.Status = row.status := by rw [hpr]; rfl
    split
    · left; exact h0
    · next hnm =>
      split
      · left; exact h0
      · next hfound =>
        have h1 := GetUser_tables oldReviewerID d0
        change ((pullrequest.New clock).userRepo.GetUser oldReviewerID d0).2.tables = _ at h1
        rcases hu : (pullrequest.New clock).userRepo.GetUser oldReviewerID d0 with ⟨r1, d1⟩
        rw [hu] at h1
        simp only at h1
        cases r1 with
        | error e1 => left; simp only; rw [h1, h0]
        | ok oldReviewer =>
          simp only
          have h2 := GetActiveTeamMembers_tables oldReviewer.TeamName oldReviewerID d1
          change ((pullrequest.New clock).userRepo.GetActiveTeamMembers oldReviewer.TeamName
            oldReviewerID d1).2.tables = _ at h2
          rcases ha : (pullrequest.New clock).userRepo.GetActiveTeamMembers
            oldReviewer.TeamName oldReviewerID d1 with ⟨r2, d2⟩
          rw [ha] at h2
          simp only at h2
          have hd2 : d2.tables = db.tables := by rw [h2, h1, h0]
          cases r2 with
          | error e2 => left; exact hd2
          | ok candidates =>
            simp only [filterAssigned_eq, List.nil_append]
            split
            · left; exact hd2
            · cases hsel : SelectRandomReviewers
                (candidates.filter fun c => !containsID pr.AssignedReviewers c.UserID) 1 with
              | nil => left; exact hd2
              | cons new rest =>
                simp only
                obtain ⟨c, tail, hcons, hc, -⟩ := SelectRandomReviewers_one _ _ _ hsel
                rcases hw : (pullrequest.New clock).prRepo.ReassignReviewer prID oldReviewerID
                  new d2 with ⟨r3, d3⟩
                cases r3 with
                | some e3 =>
                  left
                  simp only
                  have herr := ReassignReviewer_error prID oldReviewerID new d2 e3
                    (by
                      change ((pullrequest.New clock).prRepo.ReassignReviewer _ _ _ d2).1 = _
                      rw [hw])
                  change ((pullrequest.New clock).prRepo.ReassignReviewer _ _ _ d2).2.tables = _
                    at herr
                  rw [hw] at herr
                  simp only at herr
                  rw [herr]
                  exact hd2
                | none =>
                  right
                  simp only
                  have hok := ReassignReviewer_ok prID oldReviewerID new d2 d3 hw
                  have h4 := GetPR_tables prID d3
                  change ((pullrequest.New clock).prRepo.GetPR prID d3).2.tables = _ at h4
                  have hfind := (GetUser_ok oldReviewerID d0 d1 oldReviewer hu).1
                  have hcands := (GetActiveTeamMembers_ok _ _ d1 d2 candidates ha).1
                  have hin : oldReviewerID ∈ reviewerIDsOf db.tables prID := by
                    rw [← hrev]
                    apply (containsID_iff _ _).mp
                    cases hcc : containsID pr.AssignedReviewers oldReviewerID
                    · simp [hcc] at hfound
                    · rfl
                  refine ⟨oldReviewer, c, tail, by rw [← h0]; exact hfind, hin,
                    ⟨row, hrow, by rw [← hstatus]; exact hnm⟩, ?_, ?_⟩
                  · rw [← hrev, ← h0, ← h1, ← hcands]; exact hcons
                  · rw [hc]
                    rcases hg2 : (pullrequest.New clock).prRepo.GetPR prID d3 with ⟨r4, d4⟩
                    rw [hg2] at h4
                    simp only at h4
                    cases r4 <;> simp only <;> rw [h4, hok, hd2]

/-- The committed rows after the `MergePR` use case, whatever it returns:
unchanged, or, when the pull request read was not MERGED, the rows of
`pull_requests` passed through the status update. -/
theorem MergePR_effect (clock now : Time) (prID : String) (db : DB) :
    ((pullrequest.New clock).MergePR now prID db).2.tables = db.tables
    ∨ (∃ row, (db.tables.pull_requests.find? fun r => decide (r.pull_request_id = prID))
            = some row ∧ row.status ≠ PullRequestStatusMerged)
      ∧ ((pullrequest.New clock).MergePR now prID db).2.tables
          = { db.tables with
              pull_requests := db.tables.pull_requests.map
                (setStatus prID PullRequestStatusMerged (some now)) } := by
  rcases MergePR_tables clock now prID db with h | h
  · exact Or.inl h
  · by_cases hsame : ((pullrequest.New clock).MergePR now prID db).2.tables = db.tables
    · exact Or.inl hsame
    · refine Or.inr ⟨?_, h⟩
      unfold UseCase.MergePR at hsame
      have h0 := GetPR_tables prID db
      change ((pullrequest.New clock).prRepo.GetPR prID db).2.tables = _ at h0
      rcases hg : (pullrequest.New clock).prRepo.GetPR prID db with ⟨r0, d0⟩
      rw [hg] at h0 hsame
      simp only at h0
      cases r0 with
      | error e => exact absurd h0 hsame
      | ok pr =>
        simp only at hsame
        obtain ⟨⟨row, hrow, hpr⟩, -⟩ := GetPR_ok prID db d0 pr hg
        refine ⟨row, hrow, ?_⟩
        intro hm
        have : pr.Status = PullRequestStatusMerged := by rw [hpr]; exact hm
        rw [if_pos this] at hsame
        exact hsame h0

theorem persistent.reviewerIDsOf_congr (t t' : Tables) (prID : String)
    (h : t'.pr_reviewers = t.pr_reviewers) : reviewerIDsOf t' prID = reviewerIDsOf t prID := by
  unfold reviewerIDsOf
  rw [h]

theorem persistent.find?_setStatus_ne (prID other : String) (status : PullRequestStatus)
    (mergedAt : Option Time) (rows : List PullRequestRow) (hne : prID ≠ other) :
    ((rows.map (setStatus other status mergedAt)).find?
        fun r => decide (r.pull_request_id = prID))
      = rows.find? fun r => decide (r.pull_request_id = prID) := by
  induction rows with
  | nil => rfl
  | cons row rows ih =>
    by_cases hrow : row.pull_request_id = other
    · have hset : (setStatus other status mergedAt row).pull_request_id = other := by
        unfold setStatus
        rw [if_pos hrow]
        cases mergedAt <;> exact hrow
      have h1 : ¬ (setStatus other status mergedAt row).pull_request_id = prID := by
        rw [hset]; exact fun h => hne h.symm
      have h2 : ¬ row.pull_request_id = prID := by
        rw [hrow]; exact fun h => hne h.symm
      simp only [List.map_cons, List.find?_cons, h1, h2, decide_False]
      exact ih
    · have hset : setStatus other status mergedAt row = row := by
        unfold setStatus
        rw [if_neg hrow]
      simp only [List.map_cons, List.find?_cons, hset]
      rw [ih]

/-- The invariant `merged_at` is set exactly on MERGED rows survives every
request. -/
theorem Request.run_mergedIffStatus (r : Request) (t : Tables)
    (hinv : ∀ row ∈ t.pull_requests,
      (row.merged_at ≠ none ↔ row.status = PullRequestStatusMerged)) :
    ∀ row ∈ (r.run t).pull_requests,
      (row.merged_at ≠ none ↔ row.status = PullRequestStatusMerged) := by
  unfold Request.run
  cases hop : r.op with
  | CreateTeam newTeam =>
    simp only
    rw [(team_CreateTeam_frame newTeam ⟨t, r.faults⟩).1]
    exact hinv
  | SetIsActive userID isActive =>
    simp only
    rw [(user_SetIsActive_frame userID isActive ⟨t, r.faults⟩).1]
    exact hinv
  | CreatePR prID prName authorID =>
    simp only
    rcases CreatePR_effect r.now r.now prID prName authorID ⟨t, r.faults⟩ with h | ⟨_, -, -, h⟩
    · rw [h]; exact hinv
    · rw [h]
      intro row hrow
      simp only [List.mem_append, List.mem_singleton] at hrow
      rcases hrow with hrow | rfl
      · exact hinv row hrow
      · simp only [ne_eq, not_true_eq_false, false_iff]
        decide
  | MergePR prID =>
    simp only
    rcases MergePR_effect r.now r.now prID ⟨t, r.faults⟩ with h | ⟨-, h⟩
    · rw [h]; exact hinv
    · rw [h]
      intro row hrow
      simp only [List.mem_map] at hrow
      obtain ⟨row0, hrow0, rfl⟩ := hrow
      unfold setStatus
      split
      · simp
      · exact hinv row0 hrow0
  | ReassignReviewer prID oldReviewerID =>
    simp only
    rcases ReassignReviewer_effect r.now prID oldReviewerID ⟨t, r.faults⟩ with
      h | ⟨_, _, _, -, -, -, -, h⟩
    · rw [h]; exact hinv
    · rw [h]; exact hinv

/-- C22: in every state reachable from the empty store by use-case calls
(`CreatePR`, `MergePR`, `ReassignReviewer`, and also team creation and activity
toggling, without which no pull request can be created), every pull request
row satisfies: `merged_at` is non-null if and only if `status = MERGED`. -/
theorem reachable_mergedIffStatus (rs : List Request) (row : PullRequestRow)
    (hrow : row ∈ (runAll rs Tables.empty).pull_requests) :
    row.merged_at ≠ none ↔ row.status = PullRequestStatusMerged := by
  have hgen : ∀ (rs : List Request) (t : Tables),
      (∀ row ∈ t.pull_requests,
        (row.merged_at ≠ none ↔ row.status = PullRequestStatusMerged)) →
      ∀ row ∈ (runAll rs t).pull_requests,
        (row.merged_at ≠ none ↔ row.status = PullRequestStatusMerged) := by
    intro rs
    induction rs with
    | nil => intro t h; exact h
    | cons r rs ih => intro t h; exact ih (r.run t) (Request.run_mergedIffStatus r t h)
  exact hgen rs Tables.empty (by intro row h; simp [Tables.empty] at h) row hrow

theorem reachable_mergedIffStatus_witness :
    (⟨"pr-1", "T", "u1", "MERGED", some 2, some 3⟩ : PullRequestRow)
        ∈ (runAll [⟨.CreateTeam backendTeam, 1, []⟩, ⟨.CreatePR "pr-1" "T" "u1", 2, []⟩,
            ⟨.MergePR "pr-1", 3, []⟩] Tables.empty).pull_requests
      ∧ ((some 3 : Option Time) ≠ none ↔ "MERGED" = PullRequestStatusMerged) :=
  ⟨by decide,
    reachable_mergedIffStatus
      [⟨.CreateTeam backendTeam, 1, []⟩, ⟨.CreatePR "pr-1" "T" "u1", 2, []⟩,
        ⟨.MergePR "pr-1", 3, []⟩]
      ⟨"pr-1", "T", "u1", "MERGED", some 2, some 3⟩ (by decide)⟩

theorem persistent.find?_append_some {α : Type} (q : α → Bool) (l extra : List α) (a : α)
    (h : l.find? q = some a) : (l ++ extra).find? q = some a := by
  rw [List.find?_append, h]
  rfl

theorem persistent.pull_request_id_of_find? (rows : List PullRequestRow) (prID : String)
    (row : PullRequestRow)
    (h : (rows.find? fun r => decide (r.pull_request_id = prID)) = some row) :
    row ∈ rows ∧ row.pull_request_id = prID := by
  refine ⟨List.mem_of_find?_eq_some h, ?_⟩
  have := List.find?_some h
  simpa using this

theorem persistent.reviewerIDsOf_append_other (t : Tables) (prID other : String)
    (ids : List String) (pulls : List PullRequestRow) (hne : other ≠ prID) :
    reviewerIDsOf { t with
        pull_requests := pulls
        pr_reviewers := t.pr_reviewers ++ ids.map (fun id => (⟨other, id⟩ : ReviewerRow)) } prID
      = reviewerIDsOf t prID := by
  unfold reviewerIDsOf
  simp only [List.filter_append]
  have : (ids.map (fun id => (⟨other, id⟩ : ReviewerRow))).filter
      (fun row => decide (row.pull_request_id = prID)) = [] := by
    rw [List.filter_eq_nil_iff]
    intro row hrow
    simp only [List.mem_map] at hrow
    obtain ⟨id, -, rfl⟩ := hrow
    simp [hne]
  rw [this, List.append_nil]

theorem persistent.reviewerIDsOf_swap_other (t : Tables) (prID other old new : String)
    (hne : other ≠ prID) :
    reviewerIDsOf { t with
        pr_reviewers :=
          (t.pr_reviewers.filter fun row =>
            !(decide (row.pull_request_id = other) && decide (row.reviewer_id = old)))
          ++ [⟨other, new⟩] } prID
      = reviewerIDsOf t prID := by
  unfold reviewerIDsOf
  simp only [List.filter_append, List.filter_filter]
  have h1 : ([(⟨other, new⟩ : ReviewerRow)]).filter
      (fun row => decide (row.pull_request_id = prID)) = [] := by
    simp [hne]
  have h2 : (t.pr_reviewers.filter fun row =>
        (decide (row.pull_request_id = prID)
          && !(decide (row.pull_request_id = other) && decide (row.reviewer_id = old))))
      = t.pr_reviewers.filter fun row => decide (row.pull_request_id = prID) := by
    apply List.filter_congr
    intro row _
    by_cases hp : row.pull_request_id = prID
    · have : ¬ prID = other := fun h => hne h.symm
      simp [hp, this]
    · simp [hp]
  rw [h1, h2, List.append_nil]

/-- One request of any kind leaves a MERGED pull request's row and its
reviewer ids as they were. -/
theorem Request.run_merged_frame (r : Request) (t : Tables) (prID : String)
    (row : PullRequestRow)
    (hrow : (t.pull_requests.find? fun x => decide (x.pull_request_id = prID)) = some row)
    (hm : row.status = PullRequestStatusMerged) :
    ((r.run t).pull_requests.find? fun x => decide (x.pull_request_id = prID)) = some row
      ∧ reviewerIDsOf (r.run t) prID = reviewerIDsOf t prID := by
  unfold Request.run
  cases hop : r.op with
  | CreateTeam newTeam =>
    simp only
    obtain ⟨h1, h2⟩ := team_CreateTeam_frame newTeam ⟨t, r.faults⟩
    exact ⟨by rw [h1]; exact hrow, reviewerIDsOf_congr _ _ _ h2⟩
  | SetIsActive userID isActive =>
    simp only
    obtain ⟨h1, h2⟩ := user_SetIsActive_frame userID isActive ⟨t, r.faults⟩
    exact ⟨by rw [h1]; exact hrow, reviewerIDsOf_congr _ _ _ h2⟩
  | CreatePR other prName authorID =>
    simp only
    rcases CreatePR_effect r.now r.now other prName authorID ⟨t, r.faults⟩ with
      h | ⟨_, -, hfresh, h⟩
    · rw [h]; exact ⟨hrow, rfl⟩
    · rw [h]
      obtain ⟨hmem, hid⟩ := pull_request_id_of_find? _ _ _ hrow
      have hne : other ≠ prID := by
        intro heq
        exact hfresh row hmem (by rw [hid, heq])
      exact ⟨find?_append_some _ _ _ _ hrow, reviewerIDsOf_append_other t prID other _ _ hne⟩
  | MergePR other =>
    simp only
    rcases MergePR_effect r.now r.now other ⟨t, r.faults⟩ with h | ⟨⟨row0, hrow0, hopen⟩, h⟩
    · rw [h]; exact ⟨hrow, rfl⟩
    · rw [h]
      have hne : prID ≠ other := by
        intro heq
        rw [← heq] at hrow0
        simp only at hrow0
        rw [hrow] at hrow0
        exact hopen (by rw [← Option.some.inj hrow0]; exact hm)
      exact ⟨by
        simp only
        rw [find?_setStatus_ne prID other _ _ _ hne]
        exact hrow, reviewerIDsOf_congr _ _ _ rfl⟩
  | ReassignReviewer other oldReviewerID =>
    simp only
    rcases ReassignReviewer_effect r.now other oldReviewerID ⟨t, r.faults⟩ with
      h | ⟨_, c, _, -, -, ⟨row0, hrow0, hopen⟩, -, h⟩
    · rw [h]; exact ⟨hrow, rfl⟩
    · rw [h]
      have hne : other ≠ prID := by
        intro heq
        rw [heq] at hrow0
        simp only at hrow0
        rw [hrow] at hrow0
        exact hopen (by rw [← Option.some.inj hrow0]; exact hm)
      exact ⟨hrow, reviewerIDsOf_swap_other t prID other oldReviewerID c.UserID hne⟩

/-- C23: MERGED is terminal. From any state in which the pull request `prID`
has status MERGED, after any sequence of later use-case requests (`CreatePR`,
`MergePR`, `ReassignReviewer` on any ids, and also team creation and activity
toggling, with any clock and any storage failures) the stored row of `prID` is
the same row (same status MERGED, same `merged_at`) and its assigned reviewers
are the same list. -/
theorem merged_is_terminal (rs : List Request) (t : Tables) (prID : String)
    (row : PullRequestRow)
    (hrow : (t.pull_requests.find? fun x => decide (x.pull_request_id = prID)) = some row)
    (hm : row.status = PullRequestStatusMerged) :
    ((runAll rs t).pull_requests.find? fun x => decide (x.pull_request_id = prID)) = some row
      ∧ reviewerIDsOf (runAll rs t) prID = reviewerIDsOf t prID := by
  induction rs generalizing t with
  | nil => exact ⟨hrow, rfl⟩
  | cons r rs ih =>
    obtain ⟨h1, h2⟩ := Request.run_merged_frame r t prID row hrow hm
    obtain ⟨h3, h4⟩ := ih (r.run t) h1
    exact ⟨h3, h4.trans h2⟩

theorem merged_is_terminal_witness :
    ((backendMergedDB.tables.pull_requests.find? fun x => decide (x.pull_request_id = "pr-1"))
        = some ⟨"pr-1", "T", "u1", "MERGED", some 5, some 7⟩)
      ∧ (((runAll [⟨.ReassignReviewer "pr-1" "u2", 8, []⟩, ⟨.MergePR "pr-1", 9, []⟩,
              ⟨.CreatePR "pr-1" "T" "u1", 10, []⟩] backendMergedDB.tables).pull_requests.find?
            fun x => decide (x.pull_request_id = "pr-1"))
          = some ⟨"pr-1", "T", "u1", "MERGED", some 5, some 7⟩
        ∧ reviewerIDsOf (runAll [⟨.ReassignReviewer "pr-1" "u2", 8, []⟩, ⟨.MergePR "pr-1", 9, []⟩,
              ⟨.CreatePR "pr-1" "T" "u1", 10, []⟩] backendMergedDB.tables) "pr-1"
          = reviewerIDsOf backendMergedDB.tables "pr-1") :=
  ⟨by decide,
    merged_is_terminal
      [⟨.ReassignReviewer "pr-1" "u2", 8, []⟩, ⟨.MergePR "pr-1", 9, []⟩,
        ⟨.CreatePR "pr-1" "T" "u1", 10, []⟩]
      backendMergedDB.tables "pr-1" ⟨"pr-1", "T", "u1", "MERGED", some 5, some 7⟩
      (by decide) (by decide)⟩

theorem persistent.mem_reviewerIDsOf (t : Tables) (prID id : String) :
    id ∈ reviewerIDsOf t prID ↔ (⟨prID, id⟩ : ReviewerRow) ∈ t.pr_reviewers := by
  rw [(reviewerIDsOf_perm t prID).mem_iff]
  simp only [List.mem_map, List.mem_filter, decide_eq_true_eq]
  constructor
  · rintro ⟨⟨p, i⟩, ⟨hmem, hp⟩, hi⟩
    simp only at hp hi
    subst hp
    subst hi
    exact hmem
  · intro h
    exact ⟨⟨prID, id⟩, ⟨h, rfl⟩, rfl⟩

theorem SelectRandomReviewers_mem (candidates : List User) (maxCount : Int) (id : String)
    (h : id ∈ SelectRandomReviewers candidates maxCount) :
    ∃ u ∈ candidates, u.UserID = id := by
  rw [SelectRandomReviewers_eq_take] at h
  simp only [List.mem_map] at h
  obtain ⟨u, hu, hid⟩ := h
  exact ⟨u, List.mem_of_mem_take hu, hid⟩

/-- An id among the reviewers of `prID` after one request was there before, or
was assigned by that request. -/
theorem Request.run_provenance (r : Request) (t : Tables) (prID id : String)
    (h : id ∈ reviewerIDsOf (r.run t) prID) :
    id ∈ reviewerIDsOf t prID ∨ AssignedBy r t prID id := by
  rw [mem_reviewerIDsOf] at h
  rw [mem_reviewerIDsOf]
  unfold Request.run at h
  cases hop : r.op with
  | CreateTeam newTeam =>
    rw [hop] at h
    simp only at h
    rw [(team_CreateTeam_frame newTeam ⟨t, r.faults⟩).2] at h
    exact Or.inl h
  | SetIsActive userID isActive =>
    rw [hop] at h
    simp only at h
    rw [(user_SetIsActive_frame userID isActive ⟨t, r.faults⟩).2] at h
    exact Or.inl h
  | CreatePR other prName authorID =>
    rw [hop] at h
    simp only at h
    rcases CreatePR_effect r.now r.now other prName authorID ⟨t, r.faults⟩ with
      he | ⟨author, hauthor, -, he⟩
    · rw [he] at h; exact Or.inl h
    · rw [he] at h
      simp only [List.mem_append, List.mem_map] at h
      rcases h with h | ⟨id0, hsel, heq⟩
      · exact Or.inl h
      · right
        have hp : other = prID := congrArg ReviewerRow.pull_request_id heq
        have hi : id0 = id := congrArg ReviewerRow.reviewer_id heq
        subst hp
        subst hi
        obtain ⟨u, hu, huid⟩ := SelectRandomReviewers_mem _ _ _ hsel
        obtain ⟨hmem, hteam, hactive⟩ := activeTeamMembers_mem _ _ _ _ hu
        refine Or.inl ⟨prName, authorID, author, hop, hauthor, ⟨u, hmem, huid, hteam, hactive⟩, ?_⟩
        intro hne heq2
        have hin := List.mem_map_of_mem User.UserID hu
        rw [huid, heq2] at hin
        exact activeTeamMembers_excludes t.users author.TeamName authorID hne hin
  | MergePR other =>
    rw [hop] at h
    simp only at h
    rcases MergePR_effect r.now r.now other ⟨t, r.faults⟩ with he | ⟨-, he⟩
    · rw [he] at h; exact Or.inl h
    · rw [he] at h; exact Or.inl h
  | ReassignReviewer other oldReviewerID =>
    rw [hop] at h
    simp only at h
    rcases ReassignReviewer_effect r.now other oldReviewerID ⟨t, r.faults⟩ with
      he | ⟨oldReviewer, c, tail, hold, hassigned, -, hfilter, he⟩
    · rw [he] at h; exact Or.inl h
    · rw [he] at h
      simp only [List.mem_append, List.mem_filter, List.mem_singleton] at h
      rcases h with ⟨h, -⟩ | heq
      · exact Or.inl h
      · right
        have hp : prID = other := congrArg ReviewerRow.pull_request_id heq
        have hi : id = c.UserID := congrArg ReviewerRow.reviewer_id heq
        subst hp
        subst hi
        have hc : c ∈ (activeTeamMembers t.users oldReviewer.TeamName oldReviewerID).filter
            (fun u => !containsID (reviewerIDsOf t prID) u.UserID) := by
          rw [hfilter]; exact List.mem_cons_self _ _
        rw [List.mem_filter] at hc
        obtain ⟨hcm, hnot⟩ := hc
        obtain ⟨hmem, hteam, hactive⟩ := activeTeamMembers_mem _ _ _ _ hcm
        refine Or.inr ⟨oldReviewerID, oldReviewer, hop, hold, ⟨c, hmem, rfl, hteam, hactive⟩,
          ?_, hassigned⟩
        intro heq2
        have : containsID (reviewerIDsOf t prID) c.UserID = true := by
          rw [containsID_iff, heq2]; exact hassigned
        rw [this] at hnot
        exact absurd hnot (by decide)

/-- The exclusion of the author by `CreatePR` is conditional on a non-empty
author id: after a team whose only member has the empty string as id is
created, a pull request opened with the empty author id gets its own author as
reviewer. -/
theorem CreatePR_empty_author_reviews :
    reviewerIDsOf (runAll [⟨.CreateTeam ⟨"solo", [⟨"", "Nobody", true⟩]⟩, 1, []⟩,
        ⟨.CreatePR "pr-1" "T" "", 2, []⟩] Tables.empty) "pr-1" = [""]
      ∧ ((runAll [⟨.CreateTeam ⟨"solo", [⟨"", "Nobody", true⟩]⟩, 1, []⟩,
            ⟨.CreatePR "pr-1" "T" "", 2, []⟩] Tables.empty).pull_requests.map
          fun row => (row.pull_request_id, row.author_id)) = [("pr-1", "")] := by
  refine ⟨by decide, by decide⟩

/-- C24, as the code has it: in every state reachable from the empty store by
team creation, activity toggling, `CreatePR`, `MergePR` and `ReassignReviewer`,
every id among a pull request's assigned reviewers was put there by one of the
requests of the history, in the state that request met: either by the
`CreatePR` of that pull request, as the id of an active member of the author's
team at that time, and different from the author's id whenever that id is not
the empty string (with the empty string as author id the store applies no
exclusion, see `CreatePR_empty_author_reviews`); or by a `ReassignReviewer` on
it, as the id of an active member of the team the replaced reviewer had at that
time, different from the replaced reviewer. -/
theorem reviewers_provenance (rs : List Request) (prID id : String)
    (h : id ∈ reviewerIDsOf (runAll rs Tables.empty) prID) :
    ∃ before r after, rs = before ++ r :: after
      ∧ AssignedBy r (runAll before Tables.empty) prID id := by
  have hgen : ∀ (rs : List Request) (t : Tables),
      id ∈ reviewerIDsOf (runAll rs t) prID →
      id ∈ reviewerIDsOf t prID
        ∨ ∃ before r after, rs = before ++ r :: after ∧ AssignedBy r (runAll before t) prID id := by
    intro rs
    induction rs with
    | nil => intro t h; exact Or.inl h
    | cons r rs ih =>
      intro t h
      rcases ih (r.run t) h with h1 | ⟨before, r1, after, hrs, hby⟩
      · rcases Request.run_provenance r t prID id h1 with h2 | h2
        · exact Or.inl h2
        · exact Or.inr ⟨[], r, rs, rfl, h2⟩
      · exact Or.inr ⟨r :: before, r1, after, by rw [hrs]; rfl, hby⟩
  rcases hgen rs Tables.empty h with h0 | h0
  · rw [mem_reviewerIDsOf] at h0
    simp [Tables.empty] at h0
  · exact h0

theorem reviewers_provenance_witness :
    "u4" ∈ reviewerIDsOf (runAll [⟨.CreateTeam backendTeam, 1, []⟩,
          ⟨.CreatePR "pr-1" "T" "u1", 2, []⟩, ⟨.CreateTeam frontendTeam, 3, []⟩,
          ⟨.ReassignReviewer "pr-1" "u2", 4, []⟩] Tables.empty) "pr-1"
      ∧ ∃ before r after,
          [⟨.CreateTeam backendTeam, 1, []⟩, ⟨.CreatePR "pr-1" "T" "u1", 2, []⟩,
            ⟨.CreateTeam frontendTeam, 3, []⟩, ⟨.ReassignReviewer "pr-1" "u2", 4, []⟩]
            = before ++ r :: after
          ∧ AssignedBy r (runAll before Tables.empty) "pr-1" "u4" :=
  ⟨by decide,
    reviewers_provenance
      [⟨.CreateTeam backendTeam, 1, []⟩, ⟨.CreatePR "pr-1" "T" "u1", 2, []⟩,
        ⟨.CreateTeam frontendTeam, 3, []⟩, ⟨.ReassignReviewer "pr-1" "u2", 4, []⟩]
      "pr-1" "u4" (by decide)⟩

/-- C24, counterexample: after `backend` (u1, u2, u3) is created, u1 opens
pr-1 (reviewers u2 and u3), team `frontend` is created with u2 and the new user
u4, and u2 is reassigned on pr-1, the reviewers of pr-1 are u3 and u4, while no
user u4 existed when pr-1 was created and u4 never was in the author's team.
With the third request left out, the same reassignment makes the author u1 a
reviewer of the pull request. -/
theorem reviewers_provenance_counterexample :
    reviewerIDsOf (runAll [⟨.CreateTeam backendTeam, 1, []⟩,
          ⟨.CreatePR "pr-1" "T" "u1", 2, []⟩, ⟨.CreateTeam frontendTeam, 3, []⟩,
          ⟨.ReassignReviewer "pr-1" "u2", 4, []⟩] Tables.empty) "pr-1" = ["u3", "u4"]
      ∧ (∀ u ∈ (runAll [⟨.CreateTeam backendTeam, 1, []⟩] Tables.empty).users,
          u.UserID ≠ "u4")
      ∧ (∀ u ∈ (runAll [⟨.CreateTeam backendTeam, 1, []⟩,
            ⟨.CreatePR "pr-1" "T" "u1", 2, []⟩, ⟨.CreateTeam frontendTeam, 3, []⟩,
            ⟨.ReassignReviewer "pr-1" "u2", 4, []⟩] Tables.empty).users,
          u.UserID = "u4" → u.TeamName = "frontend")
      ∧ ((runAll [⟨.CreateTeam backendTeam, 1, []⟩,
            ⟨.CreatePR "pr-1" "T" "u1", 2, []⟩, ⟨.CreateTeam frontendTeam, 3, []⟩,
            ⟨.ReassignReviewer "pr-1" "u2", 4, []⟩] Tables.empty).pull_requests.map
          fun row => (row.pull_request_id, row.author_id)) = [("pr-1", "u1")]
      ∧ reviewerIDsOf (runAll [⟨.CreateTeam backendTeam, 1, []⟩,
          ⟨.CreatePR "pr-1" "T" "u1", 2, []⟩,
          ⟨.ReassignReviewer "pr-1" "u2", 4, []⟩] Tables.empty) "pr-1" = ["u1", "u3"] := by
  refine ⟨by decide, by decide, by decide, by decide, by decide⟩

/-- A `ReassignReviewer` whose reads succeed and whose write is refused returns
the error of the write wrapped with the operation context. -/
theorem ReassignReviewer_write_refused {σ : Type} (uc : UseCase σ) (prID oldReviewerID : String)
    (s s1 s2 s3 s4 : σ) (pr : PullRequest) (oldReviewer : User) (candidates : List User)
    (newReviewerID : String) (rest : List String) (err : Error)
    (h0 : uc.prRepo.GetPR prID s = (.ok pr, s1))
    (hm : pr.Status ≠ PullRequestStatusMerged) (hin : oldReviewerID ∈ pr.AssignedReviewers)
    (h1 : uc.userRepo.GetUser oldReviewerID s1 = (.ok oldReviewer, s2))
    (h2 : uc.userRepo.GetActiveTeamMembers oldReviewer.TeamName oldReviewerID s2
            = (.ok candidates, s3))
    (hsel : SelectRandomReviewers
        (candidates.filter fun c => !containsID pr.AssignedReviewers c.UserID) 1
        = newReviewerID :: rest)
    (hw : uc.prRepo.ReassignReviewer prID oldReviewerID newReviewerID s3 = (some err, s4)) :
    uc.ReassignReviewer prID oldReviewerID s
      = ((PullRequest.zero, "",
          some (.wrap "PullRequestUseCase - ReassignReviewer - ReassignReviewer" err)), s4) := by
  unfold UseCase.ReassignReviewer
  rw [h0]
  have hf : containsID pr.AssignedReviewers oldReviewerID = true := (containsID_iff _ _).mpr hin
  have hne : (candidates.filter fun c => !containsID pr.AssignedReviewers c.UserID).length ≠ 0 := by
    intro hz
    have hnil := List.length_eq_zero.mp hz
    rw [hnil] at hsel
    have hnone : SelectRandomReviewers [] 1 = [] := by decide
    rw [hnone] at hsel
    exact List.noConfusion hsel
  simp only [hm, if_false, hf, Bool.not_true, Bool.false_eq_true]
  rw [h1]
  simp only
  rw [h2]
  simp only [filterAssigned_eq, List.nil_append, hne, if_false]
  rw [hsel]
  simp only
  rw [hw]

theorem persistent.DB.step_idle (db : DB) (h : db.faults = []) : db.step = (none, db) := by
  unfold DB.step
  rw [h]

theorem persistent.GetPR_idle (prID : String) (db : DB) (h : db.faults = []) :
    (PullRequestRepo.GetPR prID db).2 = db := by
  unfold PullRequestRepo.GetPR PullRequestRepo.GetPRReviewers
  rw [DB.step_idle db h]
  simp only
  split
  · rfl
  · rw [DB.step_idle db h]

theorem persistent.GetUser_idle (userID : String) (db : DB) (h : db.faults = []) :
    (UserRepo.GetUser userID db).2 = db := by
  unfold UserRepo.GetUser
  rw [DB.step_idle db h]
  simp only
  split <;> rfl

theorem persistent.GetActiveTeamMembers_idle (teamName userID : String) (db : DB)
    (h : db.faults = []) : (UserRepo.GetActiveTeamMembers teamName userID db).2 = db := by
  unfold UserRepo.GetActiveTeamMembers
  rw [DB.step_idle db h]

/-- Without storage failures `PullRequestRepo.ReassignReviewer` is decided by
the number of rows its delete removes. -/
theorem persistent.ReassignReviewer_idle (prID oldReviewerID newReviewerID : String) (db : DB)
    (h : db.faults = []) :
    PullRequestRepo.ReassignReviewer prID oldReviewerID newReviewerID db
      = if (db.tables.pr_reviewers.filter fun row =>
              decide (row.pull_request_id = prID) && decide (row.reviewer_id = oldReviewerID)).length
            = 0 then
          (some .ErrNotAssigned, db)
        else
          (none,
            { db with
              tables :=
                { db.tables with
                  pr_reviewers :=
                    (db.tables.pr_reviewers.filter fun row =>
                      !(decide (row.pull_request_id = prID)
                        && decide (row.reviewer_id = oldReviewerID)))
                    ++ [⟨prID, newReviewerID⟩] } }) := by
  unfold PullRequestRepo.ReassignReviewer
  simp only [DB.step_idle db h]

theorem persistent.filter_old_after_swap (prID oldReviewerID newReviewerID : String)
    (rows : List ReviewerRow) (hne : newReviewerID ≠ oldReviewerID) :
    (((rows.filter fun row =>
          !(decide (row.pull_request_id = prID) && decide (row.reviewer_id = oldReviewerID)))
        ++ [(⟨prID, newReviewerID⟩ : ReviewerRow)]).filter fun row =>
      decide (row.pull_request_id = prID) && decide (row.reviewer_id = oldReviewerID)) = [] := by
  rw [List.filter_eq_nil_iff]
  intro row hrow
  simp only [List.mem_append, List.mem_filter, List.mem_singleton] at hrow
  rcases hrow with ⟨-, hnot⟩ | rfl
  · simp only [Bool.not_eq_true', Bool.and_eq_false_iff, decide_eq_false_iff_not] at hnot
    simp only [Bool.and_eq_true, decide_eq_true_eq, not_and]
    intro hp ho
    rcases hnot with h | h
    · exact h hp
    · exact h ho
  · simp [hne]

/-- C27: two `ReassignReviewer` calls on the same pull request and the same old
reviewer, the storage transactions being atomic and no storage failure
occurring. Let the first call succeed from the state `db`, with replacement
`newReviewerID` and final state `db1`: its delete removed at least one row.
The second call, which read `db` as the first did and whose transaction runs
after the first one committed, deletes zero rows and returns `ErrNotAssigned`
wrapped with the operation context (NotAssigned in the sense of `errors.Is`);
so does, unwrapped, a second call that starts after the first one committed. In
both orders the final state is `db1`, the one the first call left: the rows of
the old reviewer for the pull request replaced by the single row of the
replacement. -/
theorem ReassignReviewer_race (clock : Time) (prID oldReviewerID : String) (db db1 : DB)
    (pr1 : PullRequest) (newReviewerID : String)
    (hfaults : db.faults = [])
    (hwin : (pullrequest.New clock).ReassignReviewer prID oldReviewerID db
        = ((pr1, newReviewerID, none), db1)) :
    (db.tables.pr_reviewers.filter fun row =>
        decide (row.pull_request_id = prID) && decide (row.reviewer_id = oldReviewerID)) ≠ []
      ∧ (db1.tables.pr_reviewers.filter fun row =>
          decide (row.pull_request_id = prID) && decide (row.reviewer_id = oldReviewerID)) = []
      ∧ (pullrequest.NewInterleaved clock fun d =>
            (persistent.PullRequestRepo.ReassignReviewer prID oldReviewerID newReviewerID d).2
          ).ReassignReviewer prID oldReviewerID db
          = ((PullRequest.zero, "",
              some (.wrap "PullRequestUseCase - ReassignReviewer - ReassignReviewer"
                .ErrNotAssigned)), db1)
      ∧ (Error.wrap "PullRequestUseCase - ReassignReviewer - ReassignReviewer"
            .ErrNotAssigned).Is .ErrNotAssigned = true
      ∧ (pullrequest.New clock).ReassignReviewer prID oldReviewerID db1
          = ((PullRequest.zero, "", some .ErrNotAssigned), db1)
      ∧ db1.tables
          = { db.tables with
              pr_reviewers :=
                (db.tables.pr_reviewers.filter fun row =>
                  !(decide (row.pull_request_id = prID)
                    && decide (row.reviewer_id = oldReviewerID)))
                ++ [⟨prID, newReviewerID⟩] } := by
  obtain ⟨pr, s1, oldReviewer, s2, candidates, s3, s4, rest, h0, hm, hin, h1, h2, hsel, hw, h5⟩ :=
    ReassignReviewer_ok_inv _ prID oldReviewerID db db1 pr1 newReviewerID hwin
  change persistent.PullRequestRepo.GetPR prID db = _ at h0
  change persistent.UserRepo.GetUser oldReviewerID s1 = _ at h1
  change persistent.UserRepo.GetActiveTeamMembers oldReviewer.TeamName oldReviewerID s2 = _ at h2
  change persistent.PullRequestRepo.ReassignReviewer prID oldReviewerID newReviewerID s3 = _ at hw
  change persistent.PullRequestRepo.GetPR prID s4 = _ at h5
  -- the reads leave the state as it is
  have e1 : s1 = db := by
    have := GetPR_idle prID db hfaults
    rw [h0] at this
    exact this
  subst e1
  have e2 : s2 = s1 := by
    have := GetUser_idle oldReviewerID s1 hfaults
    rw [h1] at this
    exact this
  subst e2
  have e3 : s3 = s2 := by
    have := GetActiveTeamMembers_idle oldReviewer.TeamName oldReviewerID s2 hfaults
    rw [h2] at this
    exact this
  subst e3
  -- the replacement is not the old reviewer
  have hne : newReviewerID ≠ oldReviewerID := by
    have hmem : newReviewerID ∈ SelectRandomReviewers
        (candidates.filter fun c => !containsID pr.AssignedReviewers c.UserID) 1 := by
      rw [hsel]; exact List.mem_cons_self _ _
    obtain ⟨u, hu, huid⟩ := SelectRandomReviewers_mem _ _ _ hmem
    rw [List.mem_filter] at hu
    intro heq
    have : containsID pr.AssignedReviewers u.UserID = true := by
      rw [containsID_iff, huid, heq]; exact hin
    rw [this] at hu
    exact absurd hu.2 (by decide)
  -- the write of the first call
  rw [ReassignReviewer_idle prID oldReviewerID newReviewerID s3 hfaults] at hw
  split at hw
  · exact absurd (congrArg Prod.fst hw) (by simp)
  · next hlen =>
    have hs4 : s4 = { s3 with
        tables :=
          { s3.tables with
            pr_reviewers :=
              (s3.tables.pr_reviewers.filter fun row =>
                !(decide (row.pull_request_id = prID)
                  && decide (row.reviewer_id = oldReviewerID)))
              ++ [⟨prID, newReviewerID⟩] } } := (congrArg Prod.snd hw).symm
    have hf4 : s4.faults = [] := by rw [hs4]; exact hfaults
    have e5 : db1 = s4 := by
      have := GetPR_idle prID s4 hf4
      rw [h5] at this
      exact this
    subst e5
    have ht : db1.tables
        = { s3.tables with
            pr_reviewers :=
              (s3.tables.pr_reviewers.filter fun row =>
                !(decide (row.pull_request_id = prID)
                  && decide (row.reviewer_id = oldReviewerID)))
              ++ [⟨prID, newReviewerID⟩] } := by rw [hs4]
    have hzero : (db1.tables.pr_reviewers.filter fun row =>
        decide (row.pull_request_id = prID) && decide (row.reviewer_id = oldReviewerID)) = [] := by
      rw [ht]
      exact filter_old_after_swap prID oldReviewerID newReviewerID _ hne
    have hrival : (persistent.PullRequestRepo.ReassignReviewer prID oldReviewerID newReviewerID
        s3).2 = db1 := by
      rw [ReassignReviewer_idle prID oldReviewerID newReviewerID s3 hfaults, if_neg hlen]
      exact hs4.symm
    refine ⟨?_, hzero, ?_, by decide, ?_, ht⟩
    · intro hnil
      exact hlen (by rw [hnil]; rfl)
    · apply ReassignReviewer_write_refused
        (pullrequest.NewInterleaved clock fun d =>
          (persistent.PullRequestRepo.ReassignReviewer prID oldReviewerID newReviewerID d).2)
        prID oldReviewerID s3 s3 s3 s3 db1 pr oldReviewer candidates newReviewerID rest
        .ErrNotAssigned h0 hm hin h1 h2 hsel
      change persistent.PullRequestRepo.ReassignReviewer prID oldReviewerID newReviewerID
        (persistent.PullRequestRepo.ReassignReviewer prID oldReviewerID newReviewerID s3).2 = _
      rw [hrival, ReassignReviewer_idle prID oldReviewerID newReviewerID db1 hf4, hzero]
      rfl
    · obtain ⟨⟨row, hrow, hpr⟩, -⟩ := GetPR_ok prID s3 s3 pr h0
      obtain ⟨⟨row1, hrow1, hpr1⟩, -⟩ := GetPR_ok prID db1 db1 pr1 h5
      have hrows : db1.tables.pull_requests = s3.tables.pull_requests := by rw [ht]
      rw [hrows, hrow] at hrow1
      have hrow_eq : row1 = row := (Option.some.inj hrow1).symm
      apply ReassignReviewer_notAssigned (pullrequest.New clock) prID oldReviewerID db1 db1 pr1 h5
      · rw [hpr1, hrow_eq]
        rw [hpr] at hm
        exact hm
      · rw [hpr1]
        change oldReviewerID ∉ reviewerIDsOf db1.tables prID
        rw [mem_reviewerIDsOf]
        intro hmem
        have : (⟨prID, oldReviewerID⟩ : ReviewerRow)
            ∈ (db1.tables.pr_reviewers.filter fun row =>
              decide (row.pull_request_id = prID) && decide (row.reviewer_id = oldReviewerID)) := by
          rw [List.mem_filter]
          exact ⟨hmem, by simp⟩
        rw [hzero] at this
        exact absurd this (List.not_mem_nil _)

theorem ReassignReviewer_race_witness :
    (pullrequest.NewInterleaved 9 fun d =>
        (persistent.PullRequestRepo.ReassignReviewer "pr-1" "u2" "u4" d).2
      ).ReassignReviewer "pr-1" "u2" backendFourDB
      = ((PullRequest.zero, "",
          some (.wrap "PullRequestUseCase - ReassignReviewer - ReassignReviewer"
            .ErrNotAssigned)),
          ((pullrequest.New 9).ReassignReviewer "pr-1" "u2" backendFourDB).2) :=
  (ReassignReviewer_race 9 "pr-1" "u2" backendFourDB
    ((pullrequest.New 9).ReassignReviewer "pr-1" "u2" backendFourDB).2
    ((pullrequest.New 9).ReassignReviewer "pr-1" "u2" backendFourDB).1.1 "u4" rfl rfl).2.2.1

/-- C30: the code at the failing input. For every user id and every use case,
the request `{user_id, is_active: false}` fails the validation of
`SetIsActiveRequest`, the field `IsActive` being among the failed ones, and the
handler answers 400 without a single call of the use case reaching the store.
On the backend state the handler turns down `{"u1", false}` and serves
`{"u1", true}`, while the use case itself, called with `false`, deactivates
u1. -/
theorem setIsActive_rejects_false {σ : Type} (uc : user.UseCase σ) (userID : String) (s : σ) :
    "IsActive" ∈ v1.SetIsActiveRequest.Struct ⟨userID, false⟩
      ∧ v1.setIsActive uc.traced ⟨userID, false⟩ (s, [])
          = (.badRequest (v1.SetIsActiveRequest.Struct ⟨userID, false⟩), (s, []))
      ∧ v1.setIsActive user.New.traced ⟨"u1", false⟩ (backendDB, [])
          = (.badRequest ["IsActive"], (backendDB, []))
      ∧ (v1.setIsActive user.New.traced ⟨"u1", true⟩ (backendDB, [])).1
          = .user ⟨"u1", "Alice", "backend", true⟩
      ∧ (v1.setIsActive user.New.traced ⟨"u1", true⟩ (backendDB, [])).2.2
          = [Call.GetUser "u1", Call.SetIsActive "u1" true]
      ∧ (user.New.SetIsActive "u1" false backendDB).1
          = (⟨"u1", "Alice", "backend", false⟩, none) := by
  refine ⟨?_, ?_, by decide, by decide, by decide, by decide⟩
  · unfold v1.SetIsActiveRequest.Struct
    simp [v1.requiredBool]
  · unfold v1.setIsActive v1.SetIsActiveRequest.Struct
    by_cases h : userID = "" <;> simp [v1.requiredBool, v1.requiredString, h]

theorem CreatePR_all_or_nothing_witness :
    (persistent.PullRequestRepo.CreatePR 5
        ⟨"pr-1", "T", "u1", PullRequestStatusOpen, ["u2", "u3"], some 5, none⟩
        ["u2", "u3"] backendDB).1 = none
      ∧ (persistent.PullRequestRepo.CreatePR 5
          ⟨"pr-1", "T", "u1", PullRequestStatusOpen, ["u2", "u3"], some 5, none⟩
          ["u2", "u3"] backendDB).2.tables.pr_reviewers
          = backendDB.tables.pr_reviewers
              ++ ["u2", "u3"].map (fun id => (⟨"pr-1", id⟩ : ReviewerRow))
      ∧ (persistent.PullRequestRepo.CreatePR 5
          ⟨"pr-1", "T", "u1", PullRequestStatusOpen, ["u2", "u3"], some 5, none⟩
          ["u2", "u3"] { backendDB with faults := [none, none, none, some "timeout"] }).1
          = some (.wrap "PullRequestRepo - CreatePR - Exec reviewer" (.driver "timeout"))
      ∧ (persistent.PullRequestRepo.CreatePR 5
          ⟨"pr-1", "T", "u1", PullRequestStatusOpen, ["u2", "u3"], some 5, none⟩
          ["u2", "u3"] { backendDB with faults := [none, none, none, some "timeout"] }).2.tables
          = backendDB.tables :=
  ⟨rfl,
    ((CreatePR_all_or_nothing 5
      ⟨"pr-1", "T", "u1", PullRequestStatusOpen, ["u2", "u3"], some 5, none⟩
      ["u2", "u3"] backendDB).2 rfl).2.2.1,
    rfl,
    (CreatePR_all_or_nothing 5
      ⟨"pr-1", "T", "u1", PullRequestStatusOpen, ["u2", "u3"], some 5, none⟩
      ["u2", "u3"] { backendDB with faults := [none, none, none, some "timeout"] }).1 _ rfl⟩

end PrReviews
